import Mathlib

namespace AesBruteforce

/-! # AES-256 primitive on SSE registers (`aes256.h`) -/

/-- A 128-bit SSE register (`__m128i`), held as its 16 bytes in memory order:
byte 0 is bits 7:0, byte 15 is bits 127:120. -/
abbrev M128 := List Nat

/-- The AES S-box of FIPS-197 (figure 7), the table behind `SubBytes`/`SubWord` in the
AES-NI instructions. -/
def SBOX : List Nat :=
  [
   0x63, 0x7c, 0x77, 0x7b, 0xf2, 0x6b, 0x6f, 0xc5, 0x30, 0x01, 0x67, 0x2b, 0xfe, 0xd7, 0xab, 0x76,
   0xca, 0x82, 0xc9, 0x7d, 0xfa, 0x59, 0x47, 0xf0, 0xad, 0xd4, 0xa2, 0xaf, 0x9c, 0xa4, 0x72, 0xc0,
   0xb7, 0xfd, 0x93, 0x26, 0x36, 0x3f, 0xf7, 0xcc, 0x34, 0xa5, 0xe5, 0xf1, 0x71, 0xd8, 0x31, 0x15,
   0x04, 0xc7, 0x23, 0xc3, 0x18, 0x96, 0x05, 0x9a, 0x07, 0x12, 0x80, 0xe2, 0xeb, 0x27, 0xb2, 0x75,
   0x09, 0x83, 0x2c, 0x1a, 0x1b, 0x6e, 0x5a, 0xa0, 0x52, 0x3b, 0xd6, 0xb3, 0x29, 0xe3, 0x2f, 0x84,
   0x53, 0xd1, 0x00, 0xed, 0x20, 0xfc, 0xb1, 0x5b, 0x6a, 0xcb, 0xbe, 0x39, 0x4a, 0x4c, 0x58, 0xcf,
   0xd0, 0xef, 0xaa, 0xfb, 0x43, 0x4d, 0x33, 0x85, 0x45, 0xf9, 0x02, 0x7f, 0x50, 0x3c, 0x9f, 0xa8,
   0x51, 0xa3, 0x40, 0x8f, 0x92, 0x9d, 0x38, 0xf5, 0xbc, 0xb6, 0xda, 0x21, 0x10, 0xff, 0xf3, 0xd2,
   0xcd, 0x0c, 0x13, 0xec, 0x5f, 0x97, 0x44, 0x17, 0xc4, 0xa7, 0x7e, 0x3d, 0x64, 0x5d, 0x19, 0x73,
   0x60, 0x81, 0x4f, 0xdc, 0x22, 0x2a, 0x90, 0x88, 0x46, 0xee, 0xb8, 0x14, 0xde, 0x5e, 0x0b, 0xdb,
   0xe0, 0x32, 0x3a, 0x0a, 0x49, 0x06, 0x24, 0x5c, 0xc2, 0xd3, 0xac, 0x62, 0x91, 0x95, 0xe4, 0x79,
   0xe7, 0xc8, 0x37, 0x6d, 0x8d, 0xd5, 0x4e, 0xa9, 0x6c, 0x56, 0xf4, 0xea, 0x65, 0x7a, 0xae, 0x08,
   0xba, 0x78, 0x25, 0x2e, 0x1c, 0xa6, 0xb4, 0xc6, 0xe8, 0xdd, 0x74, 0x1f, 0x4b, 0xbd, 0x8b, 0x8a,
   0x70, 0x3e, 0xb5, 0x66, 0x48, 0x03, 0xf6, 0x0e, 0x61, 0x35, 0x57, 0xb9, 0x86, 0xc1, 0x1d, 0x9e,
   0xe1, 0xf8, 0x98, 0x11, 0x69, 0xd9, 0x8e, 0x94, 0x9b, 0x1e, 0x87, 0xe9, 0xce, 0x55, 0x28, 0xdf,
   0x8c, 0xa1, 0x89, 0x0d, 0xbf, 0xe6, 0x42, 0x68, 0x41, 0x99, 0x2d, 0x0f, 0xb0, 0x54, 0xbb, 0x16
  ]

/-- The inverse AES S-box of FIPS-197 (figure 14), the table behind `InvSubBytes`. -/
def INV_SBOX : List Nat :=
  [
   0x52, 0x09, 0x6a, 0xd5, 0x30, 0x36, 0xa5, 0x38, 0xbf, 0x40, 0xa3, 0x9e, 0x81, 0xf3, 0xd7, 0xfb,
   0x7c, 0xe3, 0x39, 0x82, 0x9b, 0x2f, 0xff, 0x87, 0x34, 0x8e, 0x43, 0x44, 0xc4, 0xde, 0xe9, 0xcb,
   0x54, 0x7b, 0x94, 0x32, 0xa6, 0xc2, 0x23, 0x3d, 0xee, 0x4c, 0x95, 0x0b, 0x42, 0xfa, 0xc3, 0x4e,
   0x08, 0x2e, 0xa1, 0x66, 0x28, 0xd9, 0x24, 0xb2, 0x76, 0x5b, 0xa2, 0x49, 0x6d, 0x8b, 0xd1, 0x25,
   0x72, 0xf8, 0xf6, 0x64, 0x86, 0x68, 0x98, 0x16, 0xd4, 0xa4, 0x5c, 0xcc, 0x5d, 0x65, 0xb6, 0x92,
   0x6c, 0x70, 0x48, 0x50, 0xfd, 0xed, 0xb9, 0xda, 0x5e, 0x15, 0x46, 0x57, 0xa7, 0x8d, 0x9d, 0x84,
   0x90, 0xd8, 0xab, 0x00, 0x8c, 0xbc, 0xd3, 0x0a, 0xf7, 0xe4, 0x58, 0x05, 0xb8, 0xb3, 0x45, 0x06,
   0xd0, 0x2c, 0x1e, 0x8f, 0xca, 0x3f, 0x0f, 0x02, 0xc1, 0xaf, 0xbd, 0x03, 0x01, 0x13, 0x8a, 0x6b,
   0x3a, 0x91, 0x11, 0x41, 0x4f, 0x67, 0xdc, 0xea, 0x97, 0xf2, 0xcf, 0xce, 0xf0, 0xb4, 0xe6, 0x73,
   0x96, 0xac, 0x74, 0x22, 0xe7, 0xad, 0x35, 0x85, 0xe2, 0xf9, 0x37, 0xe8, 0x1c, 0x75, 0xdf, 0x6e,
   0x47, 0xf1, 0x1a, 0x71, 0x1d, 0x29, 0xc5, 0x89, 0x6f, 0xb7, 0x62, 0x0e, 0xaa, 0x18, 0xbe, 0x1b,
   0xfc, 0x56, 0x3e, 0x4b, 0xc6, 0xd2, 0x79, 0x20, 0x9a, 0xdb, 0xc0, 0xfe, 0x78, 0xcd, 0x5a, 0xf4,
   0x1f, 0xdd, 0xa8, 0x33, 0x88, 0x07, 0xc7, 0x31, 0xb1, 0x12, 0x10, 0x59, 0x27, 0x80, 0xec, 0x5f,
   0x60, 0x51, 0x7f, 0xa9, 0x19, 0xb5, 0x4a, 0x0d, 0x2d, 0xe5, 0x7a, 0x9f, 0x93, 0xc9, 0x9c, 0xef,
   0xa0, 0xe0, 0x3b, 0x4d, 0xae, 0x2a, 0xf5, 0xb0, 0xc8, 0xeb, 0xbb, 0x3c, 0x83, 0x53, 0x99, 0x61,
   0x17, 0x2b, 0x04, 0x7e, 0xba, 0x77, 0xd6, 0x26, 0xe1, 0x69, 0x14, 0x63, 0x55, 0x21, 0x0c, 0x7d
  ]

/-- One S-box lookup. -/
def sub_byte (x : Nat) : Nat := SBOX.getD x 0

/-- One inverse S-box lookup. -/
def inv_sub_byte (x : Nat) : Nat := INV_SBOX.getD x 0

/-- Multiplication by `x` in GF(2^8) modulo `x^8 + x^4 + x^3 + x + 1` (FIPS-197 §4.2.1). -/
def xtime (x : Nat) : Nat :=
  ((x <<< 1) &&& 0xff) ^^^ (if x &&& 0x80 = 0 then 0 else 0x1b)

/-- Multiplication in GF(2^8) by shift-and-add over the low `n` bits of `b`. -/
def gf_mul_aux : Nat → Nat → Nat → Nat
  | 0, _, _ => 0
  | n + 1, a, b => (if b % 2 = 1 then a else 0) ^^^ gf_mul_aux n (xtime a) (b / 2)

/-- Product of the bytes `b` and `a` in GF(2^8). -/
def gf_mul (b a : Nat) : Nat := gf_mul_aux 8 a b

/-- The 32-bit lane `i` (0 is the lowest) of a register, as 4 bytes. -/
def lane (a : M128) (i : Nat) : List Nat := (a.drop (4 * i)).take 4

/-- `_mm_loadu_si128 ((__m128i *) (p + off))`: the 16 bytes at `p + off`. -/
def _mm_loadu_si128 (p : List Nat) (off : Nat) : M128 := (p.drop off).take 16

/-- `_mm_xor_si128`: bitwise XOR of two registers. -/
def _mm_xor_si128 (a b : M128) : M128 := List.zipWith (fun x y => x ^^^ y) a b

/-- `_mm_slli_si128 (a, imm)`: shift the register left by `imm` bytes, shifting in zeros. -/
def _mm_slli_si128 (a : M128) (imm : Nat) : M128 := (List.replicate imm 0 ++ a).take 16

/-- `_mm_shuffle_epi32 (a, imm)`: lane `j` of the result is the lane of `a` selected by bits
`2j+1:2j` of `imm`. -/
def _mm_shuffle_epi32 (a : M128) (imm : Nat) : M128 :=
  lane a (imm % 4) ++ lane a (imm / 4 % 4) ++ lane a (imm / 16 % 4) ++ lane a (imm / 64 % 4)

/-- `SubBytes` on the 16 bytes of the state. -/
def SubBytes (s : M128) : M128 := s.map sub_byte

/-- `InvSubBytes` on the 16 bytes of the state. -/
def InvSubBytes (s : M128) : M128 := s.map inv_sub_byte

/-- `ShiftRows`: the state is column-major (byte `r + 4c` is row `r`, column `c`), row `r` is
rotated left by `r` columns. -/
def ShiftRows (s : M128) : M128 :=
  [0, 5, 10, 15, 4, 9, 14, 3, 8, 13, 2, 7, 12, 1, 6, 11].map (fun i => s.getD i 0)

/-- `InvShiftRows`: row `r` is rotated right by `r` columns. -/
def InvShiftRows (s : M128) : M128 :=
  [0, 13, 10, 7, 4, 1, 14, 11, 8, 5, 2, 15, 12, 9, 6, 3].map (fun i => s.getD i 0)

/-- `MixColumns` on one column: multiplication by the circulant matrix `02 03 01 01`. -/
def mix_column : List Nat → List Nat
  | [a0, a1, a2, a3] =>
    [gf_mul 2 a0 ^^^ gf_mul 3 a1 ^^^ a2 ^^^ a3,
     a0 ^^^ gf_mul 2 a1 ^^^ gf_mul 3 a2 ^^^ a3,
     a0 ^^^ a1 ^^^ gf_mul 2 a2 ^^^ gf_mul 3 a3,
     gf_mul 3 a0 ^^^ a1 ^^^ a2 ^^^ gf_mul 2 a3]
  | _ => []

/-- `InvMixColumns` on one column: multiplication by the circulant matrix `0e 0b 0d 09`. -/
def inv_mix_column : List Nat → List Nat
  | [a0, a1, a2, a3] =>
    [gf_mul 0x0e a0 ^^^ gf_mul 0x0b a1 ^^^ gf_mul 0x0d a2 ^^^ gf_mul 0x09 a3,
     gf_mul 0x09 a0 ^^^ gf_mul 0x0e a1 ^^^ gf_mul 0x0b a2 ^^^ gf_mul 0x0d a3,
     gf_mul 0x0d a0 ^^^ gf_mul 0x09 a1 ^^^ gf_mul 0x0e a2 ^^^ gf_mul 0x0b a3,
     gf_mul 0x0b a0 ^^^ gf_mul 0x0d a1 ^^^ gf_mul 0x09 a2 ^^^ gf_mul 0x0e a3]
  | _ => []

/-- `MixColumns` on the four columns (lanes) of the state. -/
def MixColumns (s : M128) : M128 :=
  mix_column (lane s 0) ++ mix_column (lane s 1) ++ mix_column (lane s 2) ++ mix_column (lane s 3)

/-- `InvMixColumns` on the four columns (lanes) of the state. -/
def InvMixColumns (s : M128) : M128 :=
  inv_mix_column (lane s 0) ++ inv_mix_column (lane s 1) ++ inv_mix_column (lane s 2)
    ++ inv_mix_column (lane s 3)

/-- `_mm_aesenc_si128` (AESENC): `ShiftRows`, `SubBytes`, `MixColumns`, XOR with the round key. -/
def _mm_aesenc_si128 (a round_key : M128) : M128 :=
  _mm_xor_si128 (MixColumns (SubBytes (ShiftRows a))) round_key

/-- `_mm_aesenclast_si128` (AESENCLAST): `ShiftRows`, `SubBytes`, XOR with the round key. -/
def _mm_aesenclast_si128 (a round_key : M128) : M128 :=
  _mm_xor_si128 (SubBytes (ShiftRows a)) round_key

/-- `_mm_aesdec_si128` (AESDEC): `InvShiftRows`, `InvSubBytes`, `InvMixColumns`, XOR with the
round key. -/
def _mm_aesdec_si128 (a round_key : M128) : M128 :=
  _mm_xor_si128 (InvMixColumns (InvSubBytes (InvShiftRows a))) round_key

/-- `_mm_aesdeclast_si128` (AESDECLAST): `InvShiftRows`, `InvSubBytes`, XOR with the round
key. -/
def _mm_aesdeclast_si128 (a round_key : M128) : M128 :=
  _mm_xor_si128 (InvSubBytes (InvShiftRows a)) round_key

/-- `_mm_aesimc_si128` (AESIMC): `InvMixColumns` of a round key. -/
def _mm_aesimc_si128 (a : M128) : M128 := InvMixColumns a

/-- `SubWord`: the S-box on each byte of a 32-bit word. -/
def SubWord (w : List Nat) : List Nat := w.map sub_byte

/-- `RotWord`: `[a0, a1, a2, a3]` becomes `[a1, a2, a3, a0]`. -/
def RotWord (w : List Nat) : List Nat := w.drop 1 ++ w.take 1

/-- XOR of two 32-bit words. -/
def xor_word (a b : List Nat) : List Nat := List.zipWith (fun x y => x ^^^ y) a b

/-- `_mm_aeskeygenassist_si128 (a, rcon)` (AESKEYGENASSIST): with `X1`, `X3` the lanes 1 and 3
of `a`, the result lanes are `SubWord X1`, `RotWord (SubWord X1) ^ rcon`, `SubWord X3`,
`RotWord (SubWord X3) ^ rcon`, the round constant zero-extended to 32 bits. -/
def _mm_aeskeygenassist_si128 (a : M128) (rcon : Nat) : M128 :=
  let x1 := lane a 1
  let x3 := lane a 3
  SubWord x1 ++ xor_word (RotWord (SubWord x1)) [rcon, 0, 0, 0]
    ++ SubWord x3 ++ xor_word (RotWord (SubWord x3)) [rcon, 0, 0, 0]

/-- `KEY_256_ASSIST_1 (&temp1, &temp2)`: returns the new `(*temp1, *temp2)`. -/
def KEY_256_ASSIST_1 (temp1 temp2 : M128) : M128 × M128 :=
  let temp2 := _mm_shuffle_epi32 temp2 0xff
  let temp4 := _mm_slli_si128 temp1 0x4
  let temp1 := _mm_xor_si128 temp1 temp4
  let temp4 := _mm_slli_si128 temp4 0x4
  let temp1 := _mm_xor_si128 temp1 temp4
  let temp4 := _mm_slli_si128 temp4 0x4
  let temp1 := _mm_xor_si128 temp1 temp4
  let temp1 := _mm_xor_si128 temp1 temp2
  (temp1, temp2)

/-- `KEY_256_ASSIST_2 (&temp1, &temp3)`: `*temp1` is only read; returns the new `*temp3`. -/
def KEY_256_ASSIST_2 (temp1 temp3 : M128) : M128 :=
  let temp4 := _mm_aeskeygenassist_si128 temp1 0x0
  let temp2 := _mm_shuffle_epi32 temp4 0xaa
  let temp4 := _mm_slli_si128 temp3 0x4
  let temp3 := _mm_xor_si128 temp3 temp4
  let temp4 := _mm_slli_si128 temp4 0x4
  let temp3 := _mm_xor_si128 temp3 temp4
  let temp4 := _mm_slli_si128 temp4 0x4
  let temp3 := _mm_xor_si128 temp3 temp4
  let temp3 := _mm_xor_si128 temp3 temp2
  temp3

/-- `aes256_load_key_encrypt_only (key, key_schedule)`: writes entries 0..14 of the caller's
array and returns the array; the other entries keep what they held. Of the two outputs of
`KEY_256_ASSIST_1` only `*temp1` is kept: `temp2` is overwritten before it is read again. -/
def aes256_load_key_encrypt_only (key : List Nat) (key_schedule : List M128) : List M128 :=
  let temp1 := _mm_loadu_si128 key 0
  let temp3 := _mm_loadu_si128 key 16
  let key_schedule := key_schedule.set 0 temp1
  let key_schedule := key_schedule.set 1 temp3
  let temp2 := _mm_aeskeygenassist_si128 temp3 0x01
  let temp1 := (KEY_256_ASSIST_1 temp1 temp2).1
  let key_schedule := key_schedule.set 2 temp1
  let temp3 := KEY_256_ASSIST_2 temp1 temp3
  let key_schedule := key_schedule.set 3 temp3
  let temp2 := _mm_aeskeygenassist_si128 temp3 0x02
  let temp1 := (KEY_256_ASSIST_1 temp1 temp2).1
  let key_schedule := key_schedule.set 4 temp1
  let temp3 := KEY_256_ASSIST_2 temp1 temp3
  let key_schedule := key_schedule.set 5 temp3
  let temp2 := _mm_aeskeygenassist_si128 temp3 0x04
  let temp1 := (KEY_256_ASSIST_1 temp1 temp2).1
  let key_schedule := key_schedule.set 6 temp1
  let temp3 := KEY_256_ASSIST_2 temp1 temp3
  let key_schedule := key_schedule.set 7 temp3
  let temp2 := _mm_aeskeygenassist_si128 temp3 0x08
  let temp1 := (KEY_256_ASSIST_1 temp1 temp2).1
  let key_schedule := key_schedule.set 8 temp1
  let temp3 := KEY_256_ASSIST_2 temp1 temp3
  let key_schedule := key_schedule.set 9 temp3
  let temp2 := _mm_aeskeygenassist_si128 temp3 0x10
  let temp1 := (KEY_256_ASSIST_1 temp1 temp2).1
  let key_schedule := key_schedule.set 10 temp1
  let temp3 := KEY_256_ASSIST_2 temp1 temp3
  let key_schedule := key_schedule.set 11 temp3
  let temp2 := _mm_aeskeygenassist_si128 temp3 0x20
  let temp1 := (KEY_256_ASSIST_1 temp1 temp2).1
  let key_schedule := key_schedule.set 12 temp1
  let temp3 := KEY_256_ASSIST_2 temp1 temp3
  let key_schedule := key_schedule.set 13 temp3
  let temp2 := _mm_aeskeygenassist_si128 temp3 0x40
  let temp1 := (KEY_256_ASSIST_1 temp1 temp2).1
  let key_schedule := key_schedule.set 14 temp1
  key_schedule

/-- Entry `i` of a key schedule array. -/
def entry (key_schedule : List M128) (i : Nat) : M128 := key_schedule.getD i []

/-- `aes256_load_key (key, key_schedule)`: the encryption schedule in entries 0..14, then
`_mm_aesimc_si128` of entries 13..1 in entries 15..27. -/
def aes256_load_key (key : List Nat) (key_schedule : List M128) : List M128 :=
  let key_schedule := aes256_load_key_encrypt_only key key_schedule
  let key_schedule := key_schedule.set 15 (_mm_aesimc_si128 (entry key_schedule 13))
  let key_schedule := key_schedule.set 16 (_mm_aesimc_si128 (entry key_schedule 12))
  let key_schedule := key_schedule.set 17 (_mm_aesimc_si128 (entry key_schedule 11))
  let key_schedule := key_schedule.set 18 (_mm_aesimc_si128 (entry key_schedule 10))
  let key_schedule := key_schedule.set 19 (_mm_aesimc_si128 (entry key_schedule 9))
  let key_schedule := key_schedule.set 20 (_mm_aesimc_si128 (entry key_schedule 8))
  let key_schedule := key_schedule.set 21 (_mm_aesimc_si128 (entry key_schedule 7))
  let key_schedule := key_schedule.set 22 (_mm_aesimc_si128 (entry key_schedule 6))
  let key_schedule := key_schedule.set 23 (_mm_aesimc_si128 (entry key_schedule 5))
  let key_schedule := key_schedule.set 24 (_mm_aesimc_si128 (entry key_schedule 4))
  let key_schedule := key_schedule.set 25 (_mm_aesimc_si128 (entry key_schedule 3))
  let key_schedule := key_schedule.set 26 (_mm_aesimc_si128 (entry key_schedule 2))
  let key_schedule := key_schedule.set 27 (_mm_aesimc_si128 (entry key_schedule 1))
  key_schedule

/-- `aes256_encrypt (key_schedule, plain, cipher)`: returns the 16 bytes stored to `cipher`. -/
def aes256_encrypt (key_schedule : List M128) (plain : List Nat) : List Nat :=
  let m := _mm_loadu_si128 plain 0
  let m := _mm_xor_si128 m (entry key_schedule 0)
  let m := _mm_aesenc_si128 m (entry key_schedule 1)
  let m := _mm_aesenc_si128 m (entry key_schedule 2)
  let m := _mm_aesenc_si128 m (entry key_schedule 3)
  let m := _mm_aesenc_si128 m (entry key_schedule 4)
  let m := _mm_aesenc_si128 m (entry key_schedule 5)
  let m := _mm_aesenc_si128 m (entry key_schedule 6)
  let m := _mm_aesenc_si128 m (entry key_schedule 7)
  let m := _mm_aesenc_si128 m (entry key_schedule 8)
  let m := _mm_aesenc_si128 m (entry key_schedule 9)
  let m := _mm_aesenc_si128 m (entry key_schedule 10)
  let m := _mm_aesenc_si128 m (entry key_schedule 11)
  let m := _mm_aesenc_si128 m (entry key_schedule 12)
  let m := _mm_aesenc_si128 m (entry key_schedule 13)
  let m := _mm_aesenclast_si128 m (entry key_schedule 14)
  m

/-- `aes256_decrypt (key_schedule, cipher, plain)`: returns the 16 bytes stored to `plain`. -/
def aes256_decrypt (key_schedule : List M128) (cipher : List Nat) : List Nat :=
  let m := _mm_loadu_si128 cipher 0
  let m := _mm_xor_si128 m (entry key_schedule (14 + 0))
  let m := _mm_aesdec_si128 m (entry key_schedule (14 + 1))
  let m := _mm_aesdec_si128 m (entry key_schedule (14 + 2))
  let m := _mm_aesdec_si128 m (entry key_schedule (14 + 3))
  let m := _mm_aesdec_si128 m (entry key_schedule (14 + 4))
  let m := _mm_aesdec_si128 m (entry key_schedule (14 + 5))
  let m := _mm_aesdec_si128 m (entry key_schedule (14 + 6))
  let m := _mm_aesdec_si128 m (entry key_schedule (14 + 7))
  let m := _mm_aesdec_si128 m (entry key_schedule (14 + 8))
  let m := _mm_aesdec_si128 m (entry key_schedule (14 + 9))
  let m := _mm_aesdec_si128 m (entry key_schedule (14 + 10))
  let m := _mm_aesdec_si128 m (entry key_schedule (14 + 11))
  let m := _mm_aesdec_si128 m (entry key_schedule (14 + 12))
  let m := _mm_aesdec_si128 m (entry key_schedule (14 + 13))
  let m := _mm_aesdeclast_si128 m (entry key_schedule 0)
  m

/-- A buffer of exactly `n` bytes: `n` entries, each below 256. -/
abbrev Bytes (n : Nat) (l : List Nat) : Prop := l.length = n ∧ ∀ b ∈ l, b < 256

/-- The inner rounds of `aes256_decrypt` as a loop: `_mm_aesdec_si128` with entries
`14 + 1`, ..., `14 + n`, in that order. -/
def dec_rounds (key_schedule : List M128) : Nat → M128 → M128
  | 0, m => m
  | n + 1, m => _mm_aesdec_si128 (dec_rounds key_schedule n m) (entry key_schedule (14 + (n + 1)))

/-- The inner rounds of `aes256_encrypt` as a loop: `_mm_aesenc_si128` with entries
`1`, ..., `n`, in that order. -/
def enc_rounds (key_schedule : List M128) : Nat → M128 → M128
  | 0, m => m
  | n + 1, m => _mm_aesenc_si128 (enc_rounds key_schedule n m) (entry key_schedule (n + 1))

/-- The round constants passed to `_mm_aeskeygenassist_si128` by
`aes256_load_key_encrypt_only`, in call order. -/
def assist_rcon (r : Nat) : Nat := [0x01, 0x02, 0x04, 0x08, 0x10, 0x20, 0x40].getD r 0

/-- The values of `(temp1, temp3)` in `aes256_load_key_encrypt_only` after `r` rounds of
`KEY_256_ASSIST_1` / `KEY_256_ASSIST_2`. -/
def key_pair (key : List Nat) : Nat → M128 × M128
  | 0 => (_mm_loadu_si128 key 0, _mm_loadu_si128 key 16)
  | r + 1 =>
    let temp1 := (KEY_256_ASSIST_1 (key_pair key r).1
      (_mm_aeskeygenassist_si128 (key_pair key r).2 (assist_rcon r))).1
    (temp1, KEY_256_ASSIST_2 temp1 (key_pair key r).2)

/-- A schedule whose entries 0..14 are 16-byte round keys and whose entries 15..27 are the
`InvMixColumns` of entries 13..1. -/
def GoodSchedule (S : List M128) : Prop :=
  (∀ i, i ≤ 14 → Bytes 16 (entry S i)) ∧
  ∀ j, 1 ≤ j → j ≤ 13 → entry S (14 + j) = InvMixColumns (entry S (14 - j))

/-! ## Test fixtures (`tests/aes256_tests.c`) -/

/-- A schedule array as `main` declares it: `__m128i key_schedule[28] = { 0 }`. -/
def zero_schedule : List M128 := List.replicate 28 (List.replicate 16 0)

/-- The key `00 01 .. 1f` of `aes256_encrypt_test` and `aes256_decrypt_test`. -/
def test_key : List Nat :=
  [0x00, 0x01, 0x02, 0x03, 0x04, 0x05, 0x06, 0x07, 0x08, 0x09, 0x0a, 0x0b, 0x0c, 0x0d, 0x0e, 0x0f,
   0x10, 0x11, 0x12, 0x13, 0x14, 0x15, 0x16, 0x17, 0x18, 0x19, 0x1a, 0x1b, 0x1c, 0x1d, 0x1e, 0x1f]

/-- The plaintext `plain` of `aes256_encrypt_test` and `aes256_decrypt_test`. -/
def test_plain : List Nat :=
  [0x00, 0x11, 0x22, 0x33, 0x44, 0x55, 0x66, 0x77, 0x88, 0x99, 0xaa, 0xbb, 0xcc, 0xdd, 0xee, 0xff]

/-- The ciphertext `cipher` of `aes256_encrypt_test` and `aes256_decrypt_test`. -/
def test_cipher : List Nat :=
  [0x8e, 0xa2, 0xb7, 0xca, 0x51, 0x67, 0x45, 0xbf, 0xea, 0xfc, 0x49, 0x90, 0x4b, 0x49, 0x60, 0x89]

/-- The all-zero key of `aes256_keygen_tests`. -/
def zero_key : List Nat := List.replicate 32 0

/-- The constants `key0` .. `key14` of `aes256_keygen_tests`. -/
def test_subkeys : List M128 :=
  [[0x00, 0x00, 0x00, 0x00, 0x00, 0x00, 0x00, 0x00, 0x00, 0x00, 0x00, 0x00, 0x00, 0x00, 0x00, 0x00],
   [0x00, 0x00, 0x00, 0x00, 0x00, 0x00, 0x00, 0x00, 0x00, 0x00, 0x00, 0x00, 0x00, 0x00, 0x00, 0x00],
   [0x62, 0x63, 0x63, 0x63, 0x62, 0x63, 0x63, 0x63, 0x62, 0x63, 0x63, 0x63, 0x62, 0x63, 0x63, 0x63],
   [0xaa, 0xfb, 0xfb, 0xfb, 0xaa, 0xfb, 0xfb, 0xfb, 0xaa, 0xfb, 0xfb, 0xfb, 0xaa, 0xfb, 0xfb, 0xfb],
   [0x6f, 0x6c, 0x6c, 0xcf, 0x0d, 0x0f, 0x0f, 0xac, 0x6f, 0x6c, 0x6c, 0xcf, 0x0d, 0x0f, 0x0f, 0xac],
   [0x7d, 0x8d, 0x8d, 0x6a, 0xd7, 0x76, 0x76, 0x91, 0x7d, 0x8d, 0x8d, 0x6a, 0xd7, 0x76, 0x76, 0x91],
   [0x53, 0x54, 0xed, 0xc1, 0x5e, 0x5b, 0xe2, 0x6d, 0x31, 0x37, 0x8e, 0xa2, 0x3c, 0x38, 0x81, 0x0e],
   [0x96, 0x8a, 0x81, 0xc1, 0x41, 0xfc, 0xf7, 0x50, 0x3c, 0x71, 0x7a, 0x3a, 0xeb, 0x07, 0x0c, 0xab],
   [0x9e, 0xaa, 0x8f, 0x28, 0xc0, 0xf1, 0x6d, 0x45, 0xf1, 0xc6, 0xe3, 0xe7, 0xcd, 0xfe, 0x62, 0xe9],
   [0x2b, 0x31, 0x2b, 0xdf, 0x6a, 0xcd, 0xdc, 0x8f, 0x56, 0xbc, 0xa6, 0xb5, 0xbd, 0xbb, 0xaa, 0x1e],
   [0x64, 0x06, 0xfd, 0x52, 0xa4, 0xf7, 0x90, 0x17, 0x55, 0x31, 0x73, 0xf0, 0x98, 0xcf, 0x11, 0x19],
   [0x6d, 0xbb, 0xa9, 0x0b, 0x07, 0x76, 0x75, 0x84, 0x51, 0xca, 0xd3, 0x31, 0xec, 0x71, 0x79, 0x2f],
   [0xe7, 0xb0, 0xe8, 0x9c, 0x43, 0x47, 0x78, 0x8b, 0x16, 0x76, 0x0b, 0x7b, 0x8e, 0xb9, 0x1a, 0x62],
   [0x74, 0xed, 0x0b, 0xa1, 0x73, 0x9b, 0x7e, 0x25, 0x22, 0x51, 0xad, 0x14, 0xce, 0x20, 0xd4, 0x3b],
   [0x10, 0xf8, 0x0a, 0x17, 0x53, 0xbf, 0x72, 0x9c, 0x45, 0xc9, 0x79, 0xe7, 0xcb, 0x70, 0x63, 0x85]]

/-! ## FIPS-197 reference definitions -/

/-- `AddRoundKey` of FIPS-197 §5.1.4: XOR of the state with a round key. -/
def AddRoundKey (state round_key : M128) : M128 :=
  List.zipWith (fun x y => x ^^^ y) state round_key

/-- The first `n` of the thirteen inner rounds of the FIPS-197 `InvCipher` (figure 12) for
`Nr = 14`, on the encryption round keys `w`: round `r = 13, 12, ...` is `InvShiftRows`,
`InvSubBytes`, `AddRoundKey` with `w[r]`, `InvMixColumns`. -/
def fips_inv_rounds (w : List M128) : Nat → M128 → M128
  | 0, state => state
  | n + 1, state =>
    InvMixColumns (AddRoundKey (InvSubBytes (InvShiftRows (fips_inv_rounds w n state)))
      (entry w (13 - n)))

/-- The FIPS-197 `InvCipher` (figure 12) for `Nr = 14` on the unmodified encryption round keys
`w[0..14]`: `AddRoundKey` with `w[14]`, the thirteen inner rounds, then `InvShiftRows`,
`InvSubBytes`, `AddRoundKey` with `w[0]`. -/
def fips_inv_cipher (w : List M128) (input : List Nat) : List Nat :=
  let state := AddRoundKey input (entry w 14)
  let state := fips_inv_rounds w 13 state
  AddRoundKey (InvSubBytes (InvShiftRows state)) (entry w 0)

/-- The round constant word `Rcon[j]` of FIPS-197 §5.2 for `j = 1..7`: the constant
`01, 02, 04, 08, 10, 20, 40` in the first byte, then three zero bytes. -/
def Rcon (j : Nat) : List Nat := [[0x01, 0x02, 0x04, 0x08, 0x10, 0x20, 0x40].getD (j - 1) 0, 0, 0, 0]

/-- Word `w[i]` of a schedule: entry `i / 4`, bytes `4 (i mod 4) ..` in memory order. -/
def schedule_word (key_schedule : List M128) (i : Nat) : List Nat :=
  lane (entry key_schedule (i / 4)) (i % 4)

/-- Word `i` of the cipher key: bytes `4i .. 4i + 3`. -/
def key_word (key : List Nat) (i : Nat) : List Nat := (key.drop (4 * i)).take 4

/-! # Key derivation, PRNG mask and search driver (`aes-bruteforce.c`) -/

/-- `UINT_MAX` of `<limits.h>` for a 32-bit `unsigned int`. -/
def UINT_MAX : Nat := 4294967295

/-- The table `prng_sequence[255]`. -/
def prng_sequence : List Nat :=
  [
   0x8a, 0x5c, 0x6a, 0xdd, 0x1f, 0xea, 0x6e, 0xe2,
   0x10, 0xfc, 0x3c, 0x58, 0x55, 0xd2, 0x09, 0xb8,
   0xd4, 0xa7, 0x3e, 0xc9, 0xdc, 0xd9, 0x20, 0xe5,
   0x78, 0xb0, 0xaa, 0xb9, 0x12, 0x6d, 0xb5, 0x53,
   0x7c, 0x8f, 0xa5, 0xaf, 0x40, 0xd7, 0xf0, 0x7d,
   0x49, 0x6f, 0x24, 0xda, 0x77, 0xa6, 0xf8, 0x03,
   0x57, 0x43, 0x80, 0xb3, 0xfd, 0xfa, 0x92, 0xde,
   0x48, 0xa9, 0xee, 0x51, 0xed, 0x06, 0xae, 0x86,
   0x1d, 0x7b, 0xe7, 0xe9, 0x39, 0xa1, 0x90, 0x4f,
   0xc1, 0xa2, 0xc7, 0x0c, 0x41, 0x11, 0x3a, 0xf6,
   0xd3, 0xcf, 0x72, 0x5f, 0x3d, 0x9e, 0x9f, 0x59,
   0x93, 0x18, 0x82, 0x22, 0x74, 0xf1, 0xbb, 0x83,
   0xe4, 0xbe, 0x7a, 0x21, 0x23, 0xb2, 0x3b, 0x30,
   0x19, 0x44, 0xe8, 0xff, 0x6b, 0x1b, 0xd5, 0x61,
   0xf4, 0x42, 0x46, 0x79, 0x76, 0x60, 0x32, 0x88,
   0xcd, 0xe3, 0xd6, 0x36, 0xb7, 0xc2, 0xf5, 0x84,
   0x8c, 0xf2, 0xec, 0xc0, 0x64, 0x0d, 0x87, 0xdb,
   0xb1, 0x6c, 0x73, 0x99, 0xf7, 0x15, 0x05, 0xf9,
   0xc5, 0x9d, 0xc8, 0x1a, 0x13, 0xab, 0x7f, 0xd8,
   0xe6, 0x2f, 0xf3, 0x2a, 0x0a, 0xef, 0x97, 0x27,
   0x8d, 0x34, 0x26, 0x4b, 0xfe, 0xad, 0xd1, 0x5e,
   0xfb, 0x54, 0x14, 0xc3, 0x33, 0x4e, 0x07, 0x68,
   0x4c, 0x96, 0xe1, 0x47, 0xbf, 0xbc, 0xeb, 0xa8,
   0x28, 0x9b, 0x66, 0x9c, 0x0e, 0xd0, 0x98, 0x31,
   0xdf, 0x8e, 0x63, 0x65, 0xcb, 0x4d, 0x50, 0x2b,
   0xcc, 0x25, 0x1c, 0xbd, 0x2d, 0x62, 0xa3, 0x01,
   0xc6, 0xca, 0x8b, 0x9a, 0xa0, 0x56, 0x85, 0x4a,
   0x38, 0x67, 0x5a, 0xc4, 0x5b, 0x02, 0x91, 0x89,
   0x0b, 0x29, 0x5d, 0xac, 0x17, 0x94, 0x70, 0xce,
   0xb4, 0x95, 0xb6, 0x04, 0x3f, 0x0f, 0x16, 0x52,
   0xba, 0x45, 0x2e, 0x35, 0xe0, 0x81, 0x75, 0x37,
   0x71, 0x08, 0x7e, 0x1e, 0x2c, 0xa4, 0x69
  ]

/-- `key_xor_prng (xored_key, key, prng_state)`: returns the 32 bytes stored to `xored_key`.
The index `prng_state + 31 - i` is computed in `size_t`, i.e. modulo `2^64`. -/
def key_xor_prng (key : List Nat) (prng_state : Nat) : List Nat :=
  (List.range 32).map fun i =>
    key.getD i 0 ^^^ prng_sequence.getD ((prng_state + 31 + 2 ^ 64 - i) % 2 ^ 64 % 255) 0

/-- `*(uint64_t *) (&p[off])`: the little-endian value of the 8 bytes at `p + off`. -/
def load_u64 (p : List Nat) (off : Nat) : Nat :=
  ((p.drop off).take 8).foldr (fun b acc => b + 256 * acc) 0

/-- The 8 bytes written by the store `*(uint64_t *) q = v`, in memory order. -/
def store_u64 (v : Nat) : List Nat := (List.range 8).map fun i => (v >>> (8 * i)) % 256

/-- The 4 bytes written by the store `*(uint32_t *) q = v`, in memory order. -/
def store_u32 (v : Nat) : List Nat := (List.range 4).map fun i => (v >>> (8 * i)) % 256

/-- `get_key_ascii_bytes (key, key_counter)`: returns the 32 bytes stored to `key`. The loop
state is `(ascii_key, key_copy)`; `'0'` is `0x30` and `'a'` is `0x61`. -/
def get_key_ascii_bytes (key_counter : Nat) : List Nat :=
  let ascii_key : List Nat := List.replicate (8 + 1) 0
  let key_copy := key_counter
  let st := (List.range 8).foldl (fun (st : List Nat × Nat) i =>
    let value := st.2 &&& 0xf
    let value := if value < 0x0a then value + 0x30 else value + (0x61 - 0x0a)
    (st.1.set (8 - i - 1) value, st.2 >>> 4)) (ascii_key, key_copy)
  let ascii_key := st.1
  store_u64 (load_u64 ascii_key 0) ++ store_u64 (load_u64 ascii_key 0)
    ++ store_u64 (load_u64 ascii_key 0) ++ store_u64 (load_u64 ascii_key 0)

/-- `__bswap_32` of glibc `<byteswap.h>`: the four bytes of a 32-bit value in reverse order. -/
def __bswap_32 (x : Nat) : Nat :=
  ((x &&& 0xff000000) >>> 24) ||| ((x &&& 0x00ff0000) >>> 8) ||| ((x &&& 0x0000ff00) <<< 8)
    ||| ((x &&& 0x000000ff) <<< 24)

/-- `get_key_bytes (key, key_counter)`: returns the 32 bytes stored to `key`. -/
def get_key_bytes (key_counter : Nat) : List Nat :=
  let reversed_key_counter := __bswap_32 key_counter
  store_u32 reversed_key_counter ++ store_u32 reversed_key_counter
    ++ store_u32 reversed_key_counter ++ store_u32 reversed_key_counter
    ++ store_u32 reversed_key_counter ++ store_u32 reversed_key_counter
    ++ store_u32 reversed_key_counter ++ store_u32 reversed_key_counter

/-- The state of a run of a driver: the array `key_schedule`, and what the run has done so
far: `evaluated` logs, in order, the candidates passed to `aes256_load_key` and
`aes256_decrypt` (a ghost record), `printed` the keys passed to
`print_256_block ("Key candidate", ...)`. -/
structure Run (α : Type) where
  key_schedule : List M128
  evaluated : List α
  printed : List (List Nat)

/-- The test `!(*((uint64_t *) &(plaintext[0]))) && !(*((uint64_t *) &(plaintext[8])))`. -/
def is_zero_block (plaintext : List Nat) : Bool :=
  load_u64 plaintext 0 == 0 && load_u64 plaintext 8 == 0

/-- The body of the `state` loop of `main`; the `int` `state` is converted to the `uint8_t`
parameter of `key_xor_prng`. -/
def try_state (ciphertext key : List Nat) (key_counter : Nat) (run : Run (Nat × Nat))
    (state : Nat) : Run (Nat × Nat) :=
  let xored_key := key_xor_prng key (state % 256)
  let key_schedule := aes256_load_key xored_key run.key_schedule
  let plaintext := aes256_decrypt key_schedule ciphertext
  let evaluated := run.evaluated ++ [(key_counter, state)]
  if is_zero_block plaintext then
    { key_schedule := key_schedule, evaluated := evaluated,
      printed := run.printed ++ [xored_key] }
  else
    { key_schedule := key_schedule, evaluated := evaluated, printed := run.printed }

/-- The body of the `key_counter` loop of `main` (and the final block for `UINT_MAX`): a
zeroed schedule array, the derived key, then `for (int state = 0; state < 255; state++)`. -/
def try_counter (ciphertext : List Nat) (key_counter : Nat) (run : Run (Nat × Nat)) :
    Run (Nat × Nat) :=
  let key := get_key_ascii_bytes key_counter
  (List.range 255).foldl (try_state ciphertext key key_counter)
    { key_schedule := zero_schedule, evaluated := run.evaluated, printed := run.printed }

/-- The loop `for (uint32_t key_counter = ...; key_counter < UINT_MAX; key_counter++)` from
the current value of `key_counter`, the increment taken modulo `2^32`. -/
def counter_loop {α : Type} (body : Nat → Run α → Run α) (key_counter : Nat) (run : Run α) :
    Run α :=
  if key_counter < UINT_MAX then
    counter_loop body ((key_counter + 1) % 2 ^ 32) (body key_counter run)
  else
    run
termination_by UINT_MAX - key_counter
decreasing_by
  simp only [UINT_MAX] at *
  omega

/-- `main` of `aes-bruteforce.c` for a given `ciphertext` array, iterations taken in counter
order: the loop over `key_counter < UINT_MAX`, then the final block for `UINT_MAX`. -/
def main (ciphertext : List Nat) : Run (Nat × Nat) :=
  let run := counter_loop (try_counter ciphertext) 0
    { key_schedule := zero_schedule, evaluated := [], printed := [] }
  try_counter ciphertext UINT_MAX run

/-- The array `ciphertext` that `main` of `aes-bruteforce.c` is compiled with. -/
def ciphertext : List Nat :=
  [0xb9, 0x09, 0xb5, 0xe9, 0x36, 0x69, 0x7a, 0x0a, 0x80, 0xfd, 0xc8, 0x3b, 0xf0, 0xb5, 0x6b, 0x57]

/-- The body of the `key_counter` loop of `main` in `tests/aes-bruteforce_tests.c` (and its
final block for `UINT_MAX`): no mask, one candidate per counter. -/
def tests_try_counter (ciphertext : List Nat) (key_counter : Nat) (run : Run Nat) : Run Nat :=
  let key := get_key_bytes key_counter
  let key_schedule := aes256_load_key key zero_schedule
  let plaintext := aes256_decrypt key_schedule ciphertext
  let evaluated := run.evaluated ++ [key_counter]
  if is_zero_block plaintext then
    { key_schedule := key_schedule, evaluated := evaluated, printed := run.printed ++ [key] }
  else
    { key_schedule := key_schedule, evaluated := evaluated, printed := run.printed }

/-- `main` of `tests/aes-bruteforce_tests.c` for a given `ciphertext` array (timing and
banner output left out), iterations taken in counter order. -/
def tests_main (ciphertext : List Nat) : Run Nat :=
  let run := counter_loop (tests_try_counter ciphertext) 0
    { key_schedule := zero_schedule, evaluated := [], printed := [] }
  tests_try_counter ciphertext UINT_MAX run

/-- The array `ciphertext` of `tests/aes-bruteforce_tests.c`. -/
def tests_ciphertext : List Nat :=
  [0x3a, 0x06, 0x0f, 0x9e, 0xb7, 0x89, 0xc4, 0xcc, 0xb0, 0xa2, 0xdd, 0x8f, 0x39, 0x55, 0x5a, 0x7b]

/-- ASCII code of the lowercase hexadecimal digit of a nibble: `'0'..'9'`, `'a'..'f'`. -/
def hex_digit (n : Nat) : Nat :=
  [0x30, 0x31, 0x32, 0x33, 0x34, 0x35, 0x36, 0x37, 0x38, 0x39, 0x61, 0x62, 0x63, 0x64, 0x65,
    0x66].getD n 0

/-- The candidates of the whole sweep of `main`, in counter order then state order. -/
def candidates : List (Nat × Nat) :=
  (List.range (2 ^ 32)).flatMap fun c => (List.range 255).map fun s => (c, s)

/-- The key that `main` tries for the candidate `(key_counter, state)`: the masked key. -/
def candidate_key (cs : Nat × Nat) : List Nat := key_xor_prng (get_key_ascii_bytes cs.1) cs.2

/-- A hit: the key decrypts the ciphertext to the 16-byte zero block. -/
def is_hit (ciphertext key : List Nat) : Bool :=
  decide (aes256_decrypt (aes256_load_key key zero_schedule) ciphertext = List.replicate 16 0)

/-! ## Further reference definitions and fixtures -/

/-- The first `n` of the thirteen inner rounds of the FIPS-197 `Cipher` (figure 5) for
`Nr = 14`, on the round keys `w`: round `r = 1, 2, ...` is `SubBytes`, `ShiftRows`,
`MixColumns`, `AddRoundKey` with `w[r]`. -/
def fips_rounds (w : List M128) : Nat → M128 → M128
  | 0, state => state
  | n + 1, state =>
    AddRoundKey (MixColumns (ShiftRows (SubBytes (fips_rounds w n state)))) (entry w (n + 1))

/-- The FIPS-197 `Cipher` (figure 5) for `Nr = 14` on the round keys `w[0..14]`:
`AddRoundKey` with `w[0]`, the thirteen inner rounds, then `SubBytes`, `ShiftRows`,
`AddRoundKey` with `w[14]`. -/
def fips_cipher (w : List M128) (input : List Nat) : List Nat :=
  let state := AddRoundKey input (entry w 0)
  let state := fips_rounds w 13 state
  AddRoundKey (ShiftRows (SubBytes state)) (entry w 14)

/-- `*(uint32_t *) (&p[off])`: the little-endian value of the 4 bytes at `p + off`. -/
def load_u32 (p : List Nat) (off : Nat) : Nat :=
  ((p.drop off).take 4).foldr (fun b acc => b + 256 * acc) 0

/-- `get_factory_key (key, key_counter)`: returns the 32 bytes stored to `key`. The C library
generator is a parameter: `rand seed i` is the value returned by call number `i` of `rand ()`
after `srand (seed)`. -/
def get_factory_key (rand : Nat → Nat → Nat) (key_counter : Nat) : List Nat :=
  store_u32 (rand key_counter 0) ++ store_u32 (rand key_counter 1)
    ++ store_u32 (rand key_counter 2) ++ store_u32 (rand key_counter 3)
    ++ store_u32 (rand key_counter 4) ++ store_u32 (rand key_counter 5)
    ++ store_u32 (rand key_counter 6) ++ store_u32 (rand key_counter 7)

/-- `get_factory_reversed_key (key, key_counter)`: returns the 32 bytes stored to `key`, with
the generator as in `get_factory_key`. -/
def get_factory_reversed_key (rand : Nat → Nat → Nat) (key_counter : Nat) : List Nat :=
  store_u32 (__bswap_32 (rand key_counter 0)) ++ store_u32 (__bswap_32 (rand key_counter 1))
    ++ store_u32 (__bswap_32 (rand key_counter 2)) ++ store_u32 (__bswap_32 (rand key_counter 3))
    ++ store_u32 (__bswap_32 (rand key_counter 4)) ++ store_u32 (__bswap_32 (rand key_counter 5))
    ++ store_u32 (__bswap_32 (rand key_counter 6)) ++ store_u32 (__bswap_32 (rand key_counter 7))

/-- Modelled from the spec: the state of the BSD `rand ()` that §4.2 names as a generator to
pin, after `n` steps from `seed`: `s' = s * 1103515245 + 12345 mod 2^31`. -/
def bsd_rand_state (seed : Nat) : Nat → Nat
  | 0 => seed
  | n + 1 => (bsd_rand_state seed n * 1103515245 + 12345) % 2 ^ 31

/-- Modelled from the spec: the BSD `rand ()` of §4.2, call number `i` after `srand (seed)`,
returning `s' & 0x7FFFFFFF`. -/
def bsd_rand (seed i : Nat) : Nat := bsd_rand_state seed (i + 1) &&& 0x7FFFFFFF

/-- The ciphertext of the test case `Key counter = 14efa8ff` in the comments of `main`
(`get_key_ascii_bytes`). -/
def ciphertext_ascii_14efa8ff : List Nat :=
  [0xa0, 0xe1, 0xeb, 0x5f, 0x39, 0x2d, 0x56, 0xe5, 0x47, 0xfe, 0x2f, 0x80, 0x98, 0x2c, 0x95, 0x56]

/-- The key recorded for the test case `Key counter = 14efa8ff` in the comments of `main`. -/
def key_ascii_14efa8ff : List Nat :=
  [0x89, 0x3d, 0xb7, 0x33, 0x39, 0x04, 0x9a, 0x76, 0xd3, 0x5a, 0x8f, 0x79, 0xbc, 0x52, 0x3a, 0xec,
   0x58, 0x90, 0x49, 0x78, 0x1f, 0x30, 0x17, 0x51, 0x44, 0xb5, 0x85, 0x53, 0x4f, 0x7d, 0xdc, 0x34]

/-- The ciphertext of the test case `Key counter = 01234567` in the comments of `main`
(`get_key_bytes`). -/
def ciphertext_raw_01234567 : List Nat :=
  [0x4e, 0xc2, 0x17, 0xc4, 0x53, 0x78, 0xa3, 0xc3, 0xe2, 0x16, 0x14, 0x3c, 0x97, 0xd0, 0xb9, 0xf1]

/-- The key recorded for the test case `Key counter = 01234567` in the comments of `main`. -/
def key_raw_01234567 : List Nat :=
  [0xb9, 0x2a, 0x97, 0x32, 0x59, 0x1f, 0xb9, 0x77, 0xe3, 0x4d, 0xaf, 0x78, 0xdc, 0x49, 0x19, 0xed,
   0x68, 0x87, 0x69, 0x79, 0x7f, 0x2b, 0x34, 0x50, 0x74, 0xa2, 0xa5, 0x52, 0x2f, 0x66, 0xff, 0x35]

/-! # AES-128 and AES-192 primitives (`aes128.h`, `aes192.h`) -/

/-- `_MM_SHUFFLE (z, y, x, w)` of `<xmmintrin.h>`: `(z << 6) | (y << 4) | (x << 2) | w`. -/
def _MM_SHUFFLE (z y x w : Nat) : Nat := (z <<< 6) ||| (y <<< 4) ||| (x <<< 2) ||| w

/-- `_mm_shuffle_pd (a, b, imm)`: the low 64 bits of the result are the low (bit 0 of `imm`
clear) or high (set) half of `a`, the high 64 bits the low (bit 1 clear) or high (set) half of
`b`. -/
def _mm_shuffle_pd (a b : M128) (imm : Nat) : M128 :=
  (if imm % 2 = 0 then a.take 8 else (a.drop 8).take 8)
    ++ (if imm / 2 % 2 = 0 then b.take 8 else (b.drop 8).take 8)

/-- `aes128_key_expansion (key, keygened)`. -/
def aes128_key_expansion (key keygened : M128) : M128 :=
  let keygened := _mm_shuffle_epi32 keygened (_MM_SHUFFLE 0x3 0x3 0x3 0x3)
  let key := _mm_xor_si128 key (_mm_slli_si128 key 0x4)
  let key := _mm_xor_si128 key (_mm_slli_si128 key 0x4)
  let key := _mm_xor_si128 key (_mm_slli_si128 key 0x4)
  _mm_xor_si128 key keygened

/-- The macro `AES_128_key_exp (k, rcon)`. -/
def AES_128_key_exp (k : M128) (rcon : Nat) : M128 :=
  aes128_key_expansion k (_mm_aeskeygenassist_si128 k rcon)

/-- `aes128_load_key_encrypt_only (key, key_schedule)`: writes entries 0..10 of the caller's
array and returns the array; each entry is computed from the entry just written. -/
def aes128_load_key_encrypt_only (key : List Nat) (key_schedule : List M128) : List M128 :=
  let key_schedule := key_schedule.set 0 (_mm_loadu_si128 key 0)
  let key_schedule := key_schedule.set 1 (AES_128_key_exp (entry key_schedule 0) 0x01)
  let key_schedule := key_schedule.set 2 (AES_128_key_exp (entry key_schedule 1) 0x02)
  let key_schedule := key_schedule.set 3 (AES_128_key_exp (entry key_schedule 2) 0x04)
  let key_schedule := key_schedule.set 4 (AES_128_key_exp (entry key_schedule 3) 0x08)
  let key_schedule := key_schedule.set 5 (AES_128_key_exp (entry key_schedule 4) 0x10)
  let key_schedule := key_schedule.set 6 (AES_128_key_exp (entry key_schedule 5) 0x20)
  let key_schedule := key_schedule.set 7 (AES_128_key_exp (entry key_schedule 6) 0x40)
  let key_schedule := key_schedule.set 8 (AES_128_key_exp (entry key_schedule 7) 0x80)
  let key_schedule := key_schedule.set 9 (AES_128_key_exp (entry key_schedule 8) 0x1b)
  let key_schedule := key_schedule.set 10 (AES_128_key_exp (entry key_schedule 9) 0x36)
  key_schedule

/-- `aes128_load_key (key, key_schedule)`: the encryption schedule in entries 0..10, then
`_mm_aesimc_si128` of entries 9..1 in entries 11..19. -/
def aes128_load_key (key : List Nat) (key_schedule : List M128) : List M128 :=
  let key_schedule := aes128_load_key_encrypt_only key key_schedule
  let key_schedule := key_schedule.set 11 (_mm_aesimc_si128 (entry key_schedule 9))
  let key_schedule := key_schedule.set 12 (_mm_aesimc_si128 (entry key_schedule 8))
  let key_schedule := key_schedule.set 13 (_mm_aesimc_si128 (entry key_schedule 7))
  let key_schedule := key_schedule.set 14 (_mm_aesimc_si128 (entry key_schedule 6))
  let key_schedule := key_schedule.set 15 (_mm_aesimc_si128 (entry key_schedule 5))
  let key_schedule := key_schedule.set 16 (_mm_aesimc_si128 (entry key_schedule 4))
  let key_schedule := key_schedule.set 17 (_mm_aesimc_si128 (entry key_schedule 3))
  let key_schedule := key_schedule.set 18 (_mm_aesimc_si128 (entry key_schedule 2))
  let key_schedule := key_schedule.set 19 (_mm_aesimc_si128 (entry key_schedule 1))
  key_schedule

/-- `aes128_encrypt (key_schedule, plain, cipher)`: returns the 16 bytes stored to `cipher`. -/
def aes128_encrypt (key_schedule : List M128) (plain : List Nat) : List Nat :=
  let m := _mm_loadu_si128 plain 0
  let m := _mm_xor_si128 m (entry key_schedule 0)
  let m := _mm_aesenc_si128 m (entry key_schedule 1)
  let m := _mm_aesenc_si128 m (entry key_schedule 2)
  let m := _mm_aesenc_si128 m (entry key_schedule 3)
  let m := _mm_aesenc_si128 m (entry key_schedule 4)
  let m := _mm_aesenc_si128 m (entry key_schedule 5)
  let m := _mm_aesenc_si128 m (entry key_schedule 6)
  let m := _mm_aesenc_si128 m (entry key_schedule 7)
  let m := _mm_aesenc_si128 m (entry key_schedule 8)
  let m := _mm_aesenc_si128 m (entry key_schedule 9)
  let m := _mm_aesenclast_si128 m (entry key_schedule 10)
  m

/-- `aes128_decrypt (key_schedule, cipher, plain)`: returns the 16 bytes stored to `plain`. -/
def aes128_decrypt (key_schedule : List M128) (cipher : List Nat) : List Nat :=
  let m := _mm_loadu_si128 cipher 0
  let m := _mm_xor_si128 m (entry key_schedule (10 + 0))
  let m := _mm_aesdec_si128 m (entry key_schedule (10 + 1))
  let m := _mm_aesdec_si128 m (entry key_schedule (10 + 2))
  let m := _mm_aesdec_si128 m (entry key_schedule (10 + 3))
  let m := _mm_aesdec_si128 m (entry key_schedule (10 + 4))
  let m := _mm_aesdec_si128 m (entry key_schedule (10 + 5))
  let m := _mm_aesdec_si128 m (entry key_schedule (10 + 6))
  let m := _mm_aesdec_si128 m (entry key_schedule (10 + 7))
  let m := _mm_aesdec_si128 m (entry key_schedule (10 + 8))
  let m := _mm_aesdec_si128 m (entry key_schedule (10 + 9))
  let m := _mm_aesdeclast_si128 m (entry key_schedule 0)
  m

/-- `aes192_key_expansion (&temp1, &temp2, &temp3)`: returns the new
`(*temp1, *temp2, *temp3)`. -/
def aes192_key_expansion (temp1 temp2 temp3 : M128) : M128 × M128 × M128 :=
  let temp2 := _mm_shuffle_epi32 temp2 0x55
  let temp4 := _mm_slli_si128 temp1 0x4
  let temp1 := _mm_xor_si128 temp1 temp4
  let temp4 := _mm_slli_si128 temp4 0x4
  let temp1 := _mm_xor_si128 temp1 temp4
  let temp4 := _mm_slli_si128 temp4 0x4
  let temp1 := _mm_xor_si128 temp1 temp4
  let temp1 := _mm_xor_si128 temp1 temp2
  let temp2 := _mm_shuffle_epi32 temp1 0xff
  let temp4 := _mm_slli_si128 temp3 0x4
  let temp3 := _mm_xor_si128 temp3 temp4
  let temp3 := _mm_xor_si128 temp3 temp2
  (temp1, temp2, temp3)

/-- `aes192_load_key_encrypt_only (key, key_schedule)`: writes entries 0..12 of the caller's
array and returns the array. `key` is the memory at the pointer: the second load reads the 16
bytes at `key + 16`, eight of them past a 24-byte key. Of the outputs of
`aes192_key_expansion` only `*temp1` and `*temp3` are kept: `temp2` is overwritten before it
is read again. -/
def aes192_load_key_encrypt_only (key : List Nat) (key_schedule : List M128) : List M128 :=
  let temp1 := _mm_loadu_si128 key 0
  let temp3 := _mm_loadu_si128 key 16
  let key_schedule := key_schedule.set 0 temp1
  let key_schedule := key_schedule.set 1 temp3
  let temp2 := _mm_aeskeygenassist_si128 temp3 0x1
  let r := aes192_key_expansion temp1 temp2 temp3
  let temp1 := r.1
  let temp3 := r.2.2
  let key_schedule := key_schedule.set 1 (_mm_shuffle_pd (entry key_schedule 1) temp1 0)
  let key_schedule := key_schedule.set 2 (_mm_shuffle_pd temp1 temp3 1)
  let temp2 := _mm_aeskeygenassist_si128 temp3 0x2
  let r := aes192_key_expansion temp1 temp2 temp3
  let temp1 := r.1
  let temp3 := r.2.2
  let key_schedule := key_schedule.set 3 temp1
  let key_schedule := key_schedule.set 4 temp3
  let temp2 := _mm_aeskeygenassist_si128 temp3 0x4
  let r := aes192_key_expansion temp1 temp2 temp3
  let temp1 := r.1
  let temp3 := r.2.2
  let key_schedule := key_schedule.set 4 (_mm_shuffle_pd (entry key_schedule 4) temp1 0)
  let key_schedule := key_schedule.set 5 (_mm_shuffle_pd temp1 temp3 1)
  let temp2 := _mm_aeskeygenassist_si128 temp3 0x8
  let r := aes192_key_expansion temp1 temp2 temp3
  let temp1 := r.1
  let temp3 := r.2.2
  let key_schedule := key_schedule.set 6 temp1
  let key_schedule := key_schedule.set 7 temp3
  let temp2 := _mm_aeskeygenassist_si128 temp3 0x10
  let r := aes192_key_expansion temp1 temp2 temp3
  let temp1 := r.1
  let temp3 := r.2.2
  let key_schedule := key_schedule.set 7 (_mm_shuffle_pd (entry key_schedule 7) temp1 0)
  let key_schedule := key_schedule.set 8 (_mm_shuffle_pd temp1 temp3 1)
  let temp2 := _mm_aeskeygenassist_si128 temp3 0x20
  let r := aes192_key_expansion temp1 temp2 temp3
  let temp1 := r.1
  let temp3 := r.2.2
  let key_schedule := key_schedule.set 9 temp1
  let key_schedule := key_schedule.set 10 temp3
  let temp2 := _mm_aeskeygenassist_si128 temp3 0x40
  let r := aes192_key_expansion temp1 temp2 temp3
  let temp1 := r.1
  let temp3 := r.2.2
  let key_schedule := key_schedule.set 10 (_mm_shuffle_pd (entry key_schedule 10) temp1 0)
  let key_schedule := key_schedule.set 11 (_mm_shuffle_pd temp1 temp3 1)
  let temp2 := _mm_aeskeygenassist_si128 temp3 0x80
  let r := aes192_key_expansion temp1 temp2 temp3
  let temp1 := r.1
  let key_schedule := key_schedule.set 12 temp1
  key_schedule

/-- `aes192_load_key (key, key_schedule)`: the encryption schedule in entries 0..12, then
`_mm_aesimc_si128` of entries 11..1 in entries 13..23. -/
def aes192_load_key (key : List Nat) (key_schedule : List M128) : List M128 :=
  let key_schedule := aes192_load_key_encrypt_only key key_schedule
  let key_schedule := key_schedule.set 13 (_mm_aesimc_si128 (entry key_schedule 11))
  let key_schedule := key_schedule.set 14 (_mm_aesimc_si128 (entry key_schedule 10))
  let key_schedule := key_schedule.set 15 (_mm_aesimc_si128 (entry key_schedule 9))
  let key_schedule := key_schedule.set 16 (_mm_aesimc_si128 (entry key_schedule 8))
  let key_schedule := key_schedule.set 17 (_mm_aesimc_si128 (entry key_schedule 7))
  let key_schedule := key_schedule.set 18 (_mm_aesimc_si128 (entry key_schedule 6))
  let key_schedule := key_schedule.set 19 (_mm_aesimc_si128 (entry key_schedule 5))
  let key_schedule := key_schedule.set 20 (_mm_aesimc_si128 (entry key_schedule 4))
  let key_schedule := key_schedule.set 21 (_mm_aesimc_si128 (entry key_schedule 3))
  let key_schedule := key_schedule.set 22 (_mm_aesimc_si128 (entry key_schedule 2))
  let key_schedule := key_schedule.set 23 (_mm_aesimc_si128 (entry key_schedule 1))
  key_schedule

/-- `aes192_encrypt (key_schedule, plain, cipher)`: returns the 16 bytes stored to `cipher`. -/
def aes192_encrypt (key_schedule : List M128) (plain : List Nat) : List Nat :=
  let m := _mm_loadu_si128 plain 0
  let m := _mm_xor_si128 m (entry key_schedule 0)
  let m := _mm_aesenc_si128 m (entry key_schedule 1)
  let m := _mm_aesenc_si128 m (entry key_schedule 2)
  let m := _mm_aesenc_si128 m (entry key_schedule 3)
  let m := _mm_aesenc_si128 m (entry key_schedule 4)
  let m := _mm_aesenc_si128 m (entry key_schedule 5)
  let m := _mm_aesenc_si128 m (entry key_schedule 6)
  let m := _mm_aesenc_si128 m (entry key_schedule 7)
  let m := _mm_aesenc_si128 m (entry key_schedule 8)
  let m := _mm_aesenc_si128 m (entry key_schedule 9)
  let m := _mm_aesenc_si128 m (entry key_schedule 10)
  let m := _mm_aesenc_si128 m (entry key_schedule 11)
  let m := _mm_aesenclast_si128 m (entry key_schedule 12)
  m

/-- `aes192_decrypt (key_schedule, cipher, plain)`: returns the 16 bytes stored to `plain`. -/
def aes192_decrypt (key_schedule : List M128) (cipher : List Nat) : List Nat :=
  let m := _mm_loadu_si128 cipher 0
  let m := _mm_xor_si128 m (entry key_schedule (12 + 0))
  let m := _mm_aesdec_si128 m (entry key_schedule (12 + 1))
  let m := _mm_aesdec_si128 m (entry key_schedule (12 + 2))
  let m := _mm_aesdec_si128 m (entry key_schedule (12 + 3))
  let m := _mm_aesdec_si128 m (entry key_schedule (12 + 4))
  let m := _mm_aesdec_si128 m (entry key_schedule (12 + 5))
  let m := _mm_aesdec_si128 m (entry key_schedule (12 + 6))
  let m := _mm_aesdec_si128 m (entry key_schedule (12 + 7))
  let m := _mm_aesdec_si128 m (entry key_schedule (12 + 8))
  let m := _mm_aesdec_si128 m (entry key_schedule (12 + 9))
  let m := _mm_aesdec_si128 m (entry key_schedule (12 + 10))
  let m := _mm_aesdec_si128 m (entry key_schedule (12 + 11))
  let m := _mm_aesdeclast_si128 m (entry key_schedule 0)
  m

/-- The values of `key_schedule[0..10]` in `aes128_load_key_encrypt_only`: entry `r + 1` is
`AES_128_key_exp` of entry `r` with the round constant of that line. -/
def key128_entry (key : List Nat) : Nat → M128
  | 0 => _mm_loadu_si128 key 0
  | r + 1 =>
    AES_128_key_exp (key128_entry key r)
      ([0x01, 0x02, 0x04, 0x08, 0x10, 0x20, 0x40, 0x80, 0x1b, 0x36].getD r 0)

/-- The values of `(temp1, temp3)` in `aes192_load_key_encrypt_only` after `r` calls of
`aes192_key_expansion`, with the round constant of call `r`. -/
def key192_pair (key : List Nat) : Nat → M128 × M128
  | 0 => (_mm_loadu_si128 key 0, _mm_loadu_si128 key 16)
  | r + 1 =>
    let res := aes192_key_expansion (key192_pair key r).1
      (_mm_aeskeygenassist_si128 (key192_pair key r).2
        ([0x1, 0x2, 0x4, 0x8, 0x10, 0x20, 0x40, 0x80].getD r 0))
      (key192_pair key r).2
    (res.1, res.2.2)

/-- Word `k` of the six words held in `(temp1, temp3)`: the four lanes of `temp1`, then the
two low lanes of `temp3`. -/
def pair_word (p : M128 × M128) (k : Nat) : List Nat :=
  if k < 4 then lane p.1 k else lane p.2 (k - 4)

/-- The inner rounds of `aes128_decrypt` (`nr = 10`) and `aes192_decrypt` (`nr = 12`) as a
loop: `_mm_aesdec_si128` with entries `nr + 1`, ..., `nr + n`, in that order. -/
def dec_rounds_at (nr : Nat) (key_schedule : List M128) : Nat → M128 → M128
  | 0, m => m
  | n + 1, m =>
    _mm_aesdec_si128 (dec_rounds_at nr key_schedule n m) (entry key_schedule (nr + (n + 1)))

/-- A schedule for `nr` rounds whose entries `0..nr` are 16-byte round keys and whose entries
`nr + 1 .. 2 nr - 1` are the `InvMixColumns` of entries `nr - 1 .. 1`. -/
def GoodScheduleAt (nr : Nat) (S : List M128) : Prop :=
  (∀ i, i ≤ nr → Bytes 16 (entry S i)) ∧
  ∀ j, 1 ≤ j → j < nr → entry S (nr + j) = InvMixColumns (entry S (nr - j))

/-! ## FIPS-197 reference cipher for every key size -/

/-- The round constant word `Rcon[j]` of FIPS-197 §5.2, `j ≥ 1`: the power `x^(j-1)` of the
field GF(2^8) in the first byte, then three zero bytes. -/
def fips_Rcon (j : Nat) : List Nat := [Nat.iterate xtime (j - 1) 1, 0, 0, 0]

/-- Word `w[i]`, `i ≥ Nk`, of the FIPS-197 `KeyExpansion` (figure 11) from `w[i - Nk]` and
`w[i - 1]`. -/
def fips_next_word (nk i : Nat) (w_back w_prev : List Nat) : List Nat :=
  let temp := w_prev
  let temp :=
    if i % nk = 0 then xor_word (SubWord (RotWord temp)) (fips_Rcon (i / nk))
    else if 6 < nk ∧ i % nk = 4 then SubWord temp
    else temp
  xor_word w_back temp

/-- The first `n` words of the FIPS-197 `KeyExpansion` (figure 11) of a key of `nk` words. -/
def fips_key_expansion (nk : Nat) (key : List Nat) : Nat → List (List Nat)
  | 0 => []
  | i + 1 =>
    let w := fips_key_expansion nk key i
    if i < nk then w ++ [key_word key i]
    else w ++ [fips_next_word nk i (w.getD (i - nk) []) (w.getD (i - 1) [])]

/-- Round key `r` of an expanded key: the words `w[4r .. 4r + 3]`. -/
def fips_round_key (w : List (List Nat)) (r : Nat) : M128 :=
  w.getD (4 * r) [] ++ w.getD (4 * r + 1) [] ++ w.getD (4 * r + 2) [] ++ w.getD (4 * r + 3) []

/-- The round keys `0..nr` of the FIPS-197 `KeyExpansion` of a key of `nk` words. -/
def fips_round_keys (nk nr : Nat) (key : List Nat) : List M128 :=
  (List.range (nr + 1)).map (fips_round_key (fips_key_expansion nk key (4 * (nr + 1))))

/-- The FIPS-197 `Cipher` (figure 5) with `nr` rounds on the round keys `w[0..nr]`:
`AddRoundKey` with `w[0]`, `nr - 1` rounds of `SubBytes`, `ShiftRows`, `MixColumns`,
`AddRoundKey`, then `SubBytes`, `ShiftRows`, `AddRoundKey` with `w[nr]`. -/
def fips_cipher_nr (nr : Nat) (w : List M128) (input : List Nat) : List Nat :=
  let state := AddRoundKey input (entry w 0)
  let state := fips_rounds w (nr - 1) state
  AddRoundKey (ShiftRows (SubBytes state)) (entry w nr)

/-- FIPS-197 encryption of a block under a key of `nk` words with `nr` rounds: `Cipher` on the
`KeyExpansion` of the key. -/
def fips_encrypt (nk nr : Nat) (key input : List Nat) : List Nat :=
  fips_cipher_nr nr (fips_round_keys nk nr key) input

/-! ## Test fixtures (`tests/aes128_tests.c`, `tests/aes192_tests.c`) -/

/-- A schedule array of 24 zeroed entries. -/
def zero_schedule_24 : List M128 := List.replicate 24 (List.replicate 16 0)

/-- The all-zero key of `aes128_keygen_tests`. -/
def zero_key_128 : List Nat := List.replicate 16 0

/-- The constants `key0` .. `key10` of `aes128_keygen_tests`. -/
def test_subkeys_128 : List M128 :=
  [[0x00, 0x00, 0x00, 0x00, 0x00, 0x00, 0x00, 0x00, 0x00, 0x00, 0x00, 0x00, 0x00, 0x00, 0x00, 0x00],
   [0x62, 0x63, 0x63, 0x63, 0x62, 0x63, 0x63, 0x63, 0x62, 0x63, 0x63, 0x63, 0x62, 0x63, 0x63, 0x63],
   [0x9b, 0x98, 0x98, 0xc9, 0xf9, 0xfb, 0xfb, 0xaa, 0x9b, 0x98, 0x98, 0xc9, 0xf9, 0xfb, 0xfb, 0xaa],
   [0x90, 0x97, 0x34, 0x50, 0x69, 0x6c, 0xcf, 0xfa, 0xf2, 0xf4, 0x57, 0x33, 0x0b, 0x0f, 0xac, 0x99],
   [0xee, 0x06, 0xda, 0x7b, 0x87, 0x6a, 0x15, 0x81, 0x75, 0x9e, 0x42, 0xb2, 0x7e, 0x91, 0xee, 0x2b],
   [0x7f, 0x2e, 0x2b, 0x88, 0xf8, 0x44, 0x3e, 0x09, 0x8d, 0xda, 0x7c, 0xbb, 0xf3, 0x4b, 0x92, 0x90],
   [0xec, 0x61, 0x4b, 0x85, 0x14, 0x25, 0x75, 0x8c, 0x99, 0xff, 0x09, 0x37, 0x6a, 0xb4, 0x9b, 0xa7],
   [0x21, 0x75, 0x17, 0x87, 0x35, 0x50, 0x62, 0x0b, 0xac, 0xaf, 0x6b, 0x3c, 0xc6, 0x1b, 0xf0, 0x9b],
   [0x0e, 0xf9, 0x03, 0x33, 0x3b, 0xa9, 0x61, 0x38, 0x97, 0x06, 0x0a, 0x04, 0x51, 0x1d, 0xfa, 0x9f],
   [0xb1, 0xd4, 0xd8, 0xe2, 0x8a, 0x7d, 0xb9, 0xda, 0x1d, 0x7b, 0xb3, 0xde, 0x4c, 0x66, 0x49, 0x41],
   [0xb4, 0xef, 0x5b, 0xcb, 0x3e, 0x92, 0xe2, 0x11, 0x23, 0xe9, 0x51, 0xcf, 0x6f, 0x8f, 0x18, 0x8e]]

/-- The key `00 01 .. 0f` of `aes128_encrypt_test` and `aes128_decrypt_test`. -/
def test_key_128 : List Nat :=
  [0x00, 0x01, 0x02, 0x03, 0x04, 0x05, 0x06, 0x07, 0x08, 0x09, 0x0a, 0x0b, 0x0c, 0x0d, 0x0e, 0x0f]

/-- The ciphertext `cipher` of `aes128_encrypt_test` and `aes128_decrypt_test`. -/
def test_cipher_128 : List Nat :=
  [0x69, 0xc4, 0xe0, 0xd8, 0x6a, 0x7b, 0x04, 0x30, 0xd8, 0xcd, 0xb7, 0x80, 0x70, 0xb4, 0xc5, 0x5a]

/-- The key of `aes128_encrypt_test2` and `aes128_decrypt_test2`. -/
def test2_key_128 : List Nat :=
  [0x2b, 0x7e, 0x15, 0x16, 0x28, 0xae, 0xd2, 0xa6, 0xab, 0xf7, 0x15, 0x88, 0x09, 0xcf, 0x4f, 0x3c]

/-- The plaintext `plain` of `aes128_encrypt_test2` and `aes128_decrypt_test2`. -/
def test2_plain_128 : List Nat :=
  [0x32, 0x43, 0xf6, 0xa8, 0x88, 0x5a, 0x30, 0x8d, 0x31, 0x31, 0x98, 0xa2, 0xe0, 0x37, 0x07, 0x34]

/-- The ciphertext `cipher` of `aes128_encrypt_test2` and `aes128_decrypt_test2`. -/
def test2_cipher_128 : List Nat :=
  [0x39, 0x25, 0x84, 0x1d, 0x02, 0xdc, 0x09, 0xfb, 0xdc, 0x11, 0x85, 0x97, 0x19, 0x6a, 0x0b, 0x32]

/-- The all-zero key of `aes192_keygen_tests`. -/
def zero_key_192 : List Nat := List.replicate 24 0

/-- Eight bytes standing for what follows a 24-byte key array in memory. -/
def test_tail : List Nat := [0xde, 0xad, 0xbe, 0xef, 0x01, 0x02, 0x03, 0x04]

/-- The constants `key0` .. `key12` of `aes192_keygen_tests`. -/
def test_subkeys_192 : List M128 :=
  [[0x00, 0x00, 0x00, 0x00, 0x00, 0x00, 0x00, 0x00, 0x00, 0x00, 0x00, 0x00, 0x00, 0x00, 0x00, 0x00],
   [0x00, 0x00, 0x00, 0x00, 0x00, 0x00, 0x00, 0x00, 0x62, 0x63, 0x63, 0x63, 0x62, 0x63, 0x63, 0x63],
   [0x62, 0x63, 0x63, 0x63, 0x62, 0x63, 0x63, 0x63, 0x62, 0x63, 0x63, 0x63, 0x62, 0x63, 0x63, 0x63],
   [0x9b, 0x98, 0x98, 0xc9, 0xf9, 0xfb, 0xfb, 0xaa, 0x9b, 0x98, 0x98, 0xc9, 0xf9, 0xfb, 0xfb, 0xaa],
   [0x9b, 0x98, 0x98, 0xc9, 0xf9, 0xfb, 0xfb, 0xaa, 0x90, 0x97, 0x34, 0x50, 0x69, 0x6c, 0xcf, 0xfa],
   [0xf2, 0xf4, 0x57, 0x33, 0x0b, 0x0f, 0xac, 0x99, 0x90, 0x97, 0x34, 0x50, 0x69, 0x6c, 0xcf, 0xfa],
   [0xc8, 0x1d, 0x19, 0xa9, 0xa1, 0x71, 0xd6, 0x53, 0x53, 0x85, 0x81, 0x60, 0x58, 0x8a, 0x2d, 0xf9],
   [0xc8, 0x1d, 0x19, 0xa9, 0xa1, 0x71, 0xd6, 0x53, 0x7b, 0xeb, 0xf4, 0x9b, 0xda, 0x9a, 0x22, 0xc8],
   [0x89, 0x1f, 0xa3, 0xa8, 0xd1, 0x95, 0x8e, 0x51, 0x19, 0x88, 0x97, 0xf8, 0xb8, 0xf9, 0x41, 0xab],
   [0xc2, 0x68, 0x96, 0xf7, 0x18, 0xf2, 0xb4, 0x3f, 0x91, 0xed, 0x17, 0x97, 0x40, 0x78, 0x99, 0xc6],
   [0x59, 0xf0, 0x0e, 0x3e, 0xe1, 0x09, 0x4f, 0x95, 0x83, 0xec, 0xbc, 0x0f, 0x9b, 0x1e, 0x08, 0x30],
   [0x0a, 0xf3, 0x1f, 0xa7, 0x4a, 0x8b, 0x86, 0x61, 0x13, 0x7b, 0x88, 0x5f, 0xf2, 0x72, 0xc7, 0xca],
   [0x43, 0x2a, 0xc8, 0x86, 0xd8, 0x34, 0xc0, 0xb6, 0xd2, 0xc7, 0xdf, 0x11, 0x98, 0x4c, 0x59, 0x70]]

/-- The key `00 01 .. 17` of `aes192_encrypt_test` and `aes192_decrypt_test`. -/
def test_key_192 : List Nat :=
  [0x00, 0x01, 0x02, 0x03, 0x04, 0x05, 0x06, 0x07, 0x08, 0x09, 0x0a, 0x0b, 0x0c, 0x0d, 0x0e, 0x0f,
   0x10, 0x11, 0x12, 0x13, 0x14, 0x15, 0x16, 0x17]

/-- The ciphertext `cipher` of `aes192_encrypt_test` and `aes192_decrypt_test`. -/
def test_cipher_192 : List Nat :=
  [0xdd, 0xa9, 0x7c, 0xa4, 0x86, 0x4c, 0xdf, 0xe0, 0x6e, 0xaf, 0x70, 0xa0, 0xec, 0x0d, 0x71, 0x91]

/-! ## Hit output (`print_256_block`) and the mask switch -/

/-- The conversion `%02x` of `fprintf` for an unsigned value: lowercase hexadecimal digits,
padded with zeros on the left to at least two characters. -/
def fmt_02x (v : Nat) : String :=
  let digits := Nat.toDigits 16 v
  String.mk (List.replicate (2 - digits.length) '0' ++ digits)

/-- `print_256_block (block_name, block)` of `aes-bruteforce.c`: returns the text written to
`stdout` by its calls of `fprintf`, in order. -/
def print_256_block (block_name : String) (block : List Nat) : String :=
  let out := block_name ++ ":\n"
  let out := (List.range 32).foldl (fun out i =>
    let out := out ++ (fmt_02x (block.getD i 0) ++ " ")
    if i % 8 = 7 then out ++ "\n" else out) out
  out ++ "\n"

/-- `print_256_block (block_name, block)` of `tests/aes-bruteforce_tests.c`, whose format for
a byte is `"0x%02x "`: returns the text written to `stdout`. -/
def tests_print_256_block (block_name : String) (block : List Nat) : String :=
  let out := block_name ++ ":\n"
  let out := (List.range 32).foldl (fun out i =>
    let out := out ++ ("0x" ++ fmt_02x (block.getD i 0) ++ " ")
    if i % 8 = 7 then out ++ "\n" else out) out
  out ++ "\n"

/-- A byte as two lowercase hexadecimal digits. -/
def hex_pair (b : Nat) : String :=
  String.mk [Char.ofNat (hex_digit (b / 16)), Char.ofNat (hex_digit (b % 16))]

/-- Row `r` of a hit: bytes `8r .. 8r + 7` of the key as two-digit lowercase hexadecimal
numbers, each followed by a space, then a line end. -/
def hit_row (key : List Nat) (r : Nat) : String :=
  hex_pair (key.getD (8 * r) 0) ++ " " ++ hex_pair (key.getD (8 * r + 1) 0) ++ " "
    ++ hex_pair (key.getD (8 * r + 2) 0) ++ " " ++ hex_pair (key.getD (8 * r + 3) 0) ++ " "
    ++ hex_pair (key.getD (8 * r + 4) 0) ++ " " ++ hex_pair (key.getD (8 * r + 5) 0) ++ " "
    ++ hex_pair (key.getD (8 * r + 6) 0) ++ " " ++ hex_pair (key.getD (8 * r + 7) 0) ++ " "
    ++ "\n"

/-- The text of a hit: the label line, four rows of eight bytes in key order, then an empty
line. -/
def hit_text (label : String) (key : List Nat) : String :=
  label ++ ":\n" ++ hit_row key 0 ++ hit_row key 1 ++ hit_row key 2 ++ hit_row key 3 ++ "\n"

/-- Row `r` of a hit with each byte written as `0x` and its two lowercase hexadecimal digits,
followed by a space. -/
def hit_row_0x (key : List Nat) (r : Nat) : String :=
  "0x" ++ hex_pair (key.getD (8 * r) 0) ++ " " ++ "0x" ++ hex_pair (key.getD (8 * r + 1) 0) ++ " "
    ++ "0x" ++ hex_pair (key.getD (8 * r + 2) 0) ++ " "
    ++ "0x" ++ hex_pair (key.getD (8 * r + 3) 0) ++ " "
    ++ "0x" ++ hex_pair (key.getD (8 * r + 4) 0) ++ " "
    ++ "0x" ++ hex_pair (key.getD (8 * r + 5) 0) ++ " "
    ++ "0x" ++ hex_pair (key.getD (8 * r + 6) 0) ++ " "
    ++ "0x" ++ hex_pair (key.getD (8 * r + 7) 0) ++ " "
    ++ "\n"

/-- The text of a hit with the bytes written as in `hit_row_0x`. -/
def hit_text_0x (label : String) (key : List Nat) : String :=
  label ++ ":\n" ++ hit_row_0x key 0 ++ hit_row_0x key 1 ++ hit_row_0x key 2
    ++ hit_row_0x key 3 ++ "\n"

/-- Modelled from the spec: the mask step `mask (K, s)` with its switch `use_prng_mask`; the
masked key is `key_xor_prng (K, s)`, and without the mask the base key is passed through. -/
def mask (use_prng_mask : Bool) (K : List Nat) (s : Nat) : List Nat :=
  if use_prng_mask then key_xor_prng K s else K

/-- A hit of the driver without the mask at a counter: its key decrypts the ciphertext to the
16-byte zero block. -/
def tests_is_hit (ciphertext : List Nat) (key_counter : Nat) : Bool :=
  is_hit ciphertext (get_key_bytes key_counter)
/-! ## Byte-level facts -/

theorem and_128_eq_zero_iff (z : Nat) : z &&& 0x80 = 0 ↔ z.testBit 7 = false := by
  constructor
  · intro h
    have h1 : (z &&& 0x80).testBit 7 = false := by rw [h]; simp
    rw [Nat.testBit_and] at h1
    have h2 : Nat.testBit 0x80 7 = true := by decide
    rw [h2] at h1
    simpa using h1
  · intro h
    apply Nat.eq_of_testBit_eq
    intro i
    rw [Nat.testBit_and]
    by_cases hi : i = 7
    · subst hi; simp [h]
    · have h2 : Nat.testBit 0x80 i = false := by
        have : (0x80 : Nat) = 2 ^ 7 := by norm_num
        rw [this, Nat.testBit_two_pow]
        simp; omega
      simp [h2]

theorem shiftLeft_one_xor (x y : Nat) : (x ^^^ y) <<< 1 = (x <<< 1) ^^^ (y <<< 1) := by
  apply Nat.eq_of_testBit_eq
  intro i
  simp only [Nat.testBit_shiftLeft, Nat.testBit_xor]
  by_cases h : 1 ≤ i <;> simp [h]

theorem xtime_xor (x y : Nat) : xtime (x ^^^ y) = xtime x ^^^ xtime y := by
  unfold xtime
  rw [shiftLeft_one_xor, Nat.and_xor_distrib_right]
  have hx := and_128_eq_zero_iff x
  have hy := and_128_eq_zero_iff y
  have hxy := and_128_eq_zero_iff (x ^^^ y)
  rw [Nat.testBit_xor] at hxy
  generalize (x <<< 1 &&& 0xff) = p at *
  generalize (y <<< 1 &&& 0xff) = q at *
  cases hbx : x.testBit 7 <;> cases hby : y.testBit 7 <;>
    simp only [hbx, hby, Bool.xor_false, Bool.xor_true, Bool.not_false, Bool.not_true,
      Bool.false_xor, Bool.true_xor, iff_true, true_iff, iff_false, false_iff,
      Bool.true_eq_false, Bool.false_eq_true, not_false_eq_true, not_true_eq_false] at hx hy hxy <;>
    simp only [hx, hy, hxy, if_true, if_false, Nat.xor_zero] 
  · ac_rfl
  · ac_rfl
  · have h : p ^^^ 27 ^^^ (q ^^^ 27) = p ^^^ q ^^^ (27 ^^^ 27) := by ac_rfl
    rw [h, Nat.xor_self, Nat.xor_zero]

theorem gf_mul_aux_xor (n : Nat) : ∀ a a' b : Nat,
    gf_mul_aux n (a ^^^ a') b = gf_mul_aux n a b ^^^ gf_mul_aux n a' b := by
  induction n with
  | zero => intro a a' b; simp [gf_mul_aux]
  | succ n ih =>
    intro a a' b
    simp only [gf_mul_aux, xtime_xor, ih]
    by_cases hb : b % 2 = 1
    · simp only [hb, if_true]
      ac_rfl
    · simp only [hb, if_false, Nat.zero_xor]

theorem gf_mul_xor (c x y : Nat) : gf_mul c (x ^^^ y) = gf_mul c x ^^^ gf_mul c y :=
  gf_mul_aux_xor 8 x y c

set_option maxRecDepth 100000 in
/-- The byte coefficients of `InvMixColumns ∘ MixColumns`: the product of the two circulant
matrices is the identity. -/
theorem inv_mix_mix_coeff : ∀ x < 256,
    (gf_mul 14 (gf_mul 2 x) ^^^ gf_mul 11 x ^^^ gf_mul 13 x ^^^ gf_mul 9 (gf_mul 3 x) = x) ∧
    (gf_mul 14 (gf_mul 3 x) ^^^ gf_mul 11 (gf_mul 2 x) ^^^ gf_mul 13 x ^^^ gf_mul 9 x = 0) ∧
    (gf_mul 14 x ^^^ gf_mul 11 (gf_mul 3 x) ^^^ gf_mul 13 (gf_mul 2 x) ^^^ gf_mul 9 x = 0) ∧
    (gf_mul 14 x ^^^ gf_mul 11 x ^^^ gf_mul 13 (gf_mul 3 x) ^^^ gf_mul 9 (gf_mul 2 x) = 0) ∧
    (gf_mul 9 (gf_mul 2 x) ^^^ gf_mul 14 x ^^^ gf_mul 11 x ^^^ gf_mul 13 (gf_mul 3 x) = 0) ∧
    (gf_mul 9 (gf_mul 3 x) ^^^ gf_mul 14 (gf_mul 2 x) ^^^ gf_mul 11 x ^^^ gf_mul 13 x = x) ∧
    (gf_mul 9 x ^^^ gf_mul 14 (gf_mul 3 x) ^^^ gf_mul 11 (gf_mul 2 x) ^^^ gf_mul 13 x = 0) ∧
    (gf_mul 9 x ^^^ gf_mul 14 x ^^^ gf_mul 11 (gf_mul 3 x) ^^^ gf_mul 13 (gf_mul 2 x) = 0) ∧
    (gf_mul 13 (gf_mul 2 x) ^^^ gf_mul 9 x ^^^ gf_mul 14 x ^^^ gf_mul 11 (gf_mul 3 x) = 0) ∧
    (gf_mul 13 (gf_mul 3 x) ^^^ gf_mul 9 (gf_mul 2 x) ^^^ gf_mul 14 x ^^^ gf_mul 11 x = 0) ∧
    (gf_mul 13 x ^^^ gf_mul 9 (gf_mul 3 x) ^^^ gf_mul 14 (gf_mul 2 x) ^^^ gf_mul 11 x = x) ∧
    (gf_mul 13 x ^^^ gf_mul 9 x ^^^ gf_mul 14 (gf_mul 3 x) ^^^ gf_mul 11 (gf_mul 2 x) = 0) ∧
    (gf_mul 11 (gf_mul 2 x) ^^^ gf_mul 13 x ^^^ gf_mul 9 x ^^^ gf_mul 14 (gf_mul 3 x) = 0) ∧
    (gf_mul 11 (gf_mul 3 x) ^^^ gf_mul 13 (gf_mul 2 x) ^^^ gf_mul 9 x ^^^ gf_mul 14 x = 0) ∧
    (gf_mul 11 x ^^^ gf_mul 13 (gf_mul 3 x) ^^^ gf_mul 9 (gf_mul 2 x) ^^^ gf_mul 14 x = 0) ∧
    (gf_mul 11 x ^^^ gf_mul 13 x ^^^ gf_mul 9 (gf_mul 3 x) ^^^ gf_mul 14 (gf_mul 2 x) = x) := by
  decide!

set_option maxRecDepth 100000 in
/-- The byte coefficients of `MixColumns ∘ InvMixColumns`. -/
theorem mix_inv_mix_coeff : ∀ x < 256,
    (gf_mul 2 (gf_mul 14 x) ^^^ gf_mul 3 (gf_mul 9 x) ^^^ gf_mul 13 x ^^^ gf_mul 11 x = x) ∧
    (gf_mul 2 (gf_mul 11 x) ^^^ gf_mul 3 (gf_mul 14 x) ^^^ gf_mul 9 x ^^^ gf_mul 13 x = 0) ∧
    (gf_mul 2 (gf_mul 13 x) ^^^ gf_mul 3 (gf_mul 11 x) ^^^ gf_mul 14 x ^^^ gf_mul 9 x = 0) ∧
    (gf_mul 2 (gf_mul 9 x) ^^^ gf_mul 3 (gf_mul 13 x) ^^^ gf_mul 11 x ^^^ gf_mul 14 x = 0) ∧
    (gf_mul 14 x ^^^ gf_mul 2 (gf_mul 9 x) ^^^ gf_mul 3 (gf_mul 13 x) ^^^ gf_mul 11 x = 0) ∧
    (gf_mul 11 x ^^^ gf_mul 2 (gf_mul 14 x) ^^^ gf_mul 3 (gf_mul 9 x) ^^^ gf_mul 13 x = x) ∧
    (gf_mul 13 x ^^^ gf_mul 2 (gf_mul 11 x) ^^^ gf_mul 3 (gf_mul 14 x) ^^^ gf_mul 9 x = 0) ∧
    (gf_mul 9 x ^^^ gf_mul 2 (gf_mul 13 x) ^^^ gf_mul 3 (gf_mul 11 x) ^^^ gf_mul 14 x = 0) ∧
    (gf_mul 14 x ^^^ gf_mul 9 x ^^^ gf_mul 2 (gf_mul 13 x) ^^^ gf_mul 3 (gf_mul 11 x) = 0) ∧
    (gf_mul 11 x ^^^ gf_mul 14 x ^^^ gf_mul 2 (gf_mul 9 x) ^^^ gf_mul 3 (gf_mul 13 x) = 0) ∧
    (gf_mul 13 x ^^^ gf_mul 11 x ^^^ gf_mul 2 (gf_mul 14 x) ^^^ gf_mul 3 (gf_mul 9 x) = x) ∧
    (gf_mul 9 x ^^^ gf_mul 13 x ^^^ gf_mul 2 (gf_mul 11 x) ^^^ gf_mul 3 (gf_mul 14 x) = 0) ∧
    (gf_mul 3 (gf_mul 14 x) ^^^ gf_mul 9 x ^^^ gf_mul 13 x ^^^ gf_mul 2 (gf_mul 11 x) = 0) ∧
    (gf_mul 3 (gf_mul 11 x) ^^^ gf_mul 14 x ^^^ gf_mul 9 x ^^^ gf_mul 2 (gf_mul 13 x) = 0) ∧
    (gf_mul 3 (gf_mul 13 x) ^^^ gf_mul 11 x ^^^ gf_mul 14 x ^^^ gf_mul 2 (gf_mul 9 x) = 0) ∧
    (gf_mul 3 (gf_mul 9 x) ^^^ gf_mul 13 x ^^^ gf_mul 11 x ^^^ gf_mul 2 (gf_mul 14 x) = x) := by
  decide!

set_option maxRecDepth 100000 in
theorem sbox_facts : ∀ x < 256, inv_sub_byte (sub_byte x) = x ∧ sub_byte (inv_sub_byte x) = x ∧
    sub_byte x < 256 ∧ inv_sub_byte x < 256 := by
  decide!

theorem inv_sub_byte_sub_byte {x : Nat} (h : x < 256) : inv_sub_byte (sub_byte x) = x :=
  (sbox_facts x h).1

theorem sub_byte_inv_sub_byte {x : Nat} (h : x < 256) : sub_byte (inv_sub_byte x) = x :=
  (sbox_facts x h).2.1

set_option maxRecDepth 100000 in
theorem SBOX_length : SBOX.length = 256 ∧ INV_SBOX.length = 256 := by
  decide!

theorem sub_byte_lt (x : Nat) : sub_byte x < 256 := by
  by_cases h : x < 256
  · exact (sbox_facts x h).2.2.1
  · have hl : SBOX.length ≤ x := by
      have := SBOX_length.1
      omega
    rw [sub_byte, List.getD_eq_default _ _ hl]
    norm_num

theorem inv_sub_byte_lt (x : Nat) : inv_sub_byte x < 256 := by
  by_cases h : x < 256
  · exact (sbox_facts x h).2.2.2
  · have hl : INV_SBOX.length ≤ x := by
      have := SBOX_length.2
      omega
    rw [inv_sub_byte, List.getD_eq_default _ _ hl]
    norm_num

theorem xtime_lt (x : Nat) : xtime x < 256 := by
  unfold xtime
  apply Nat.xor_lt_two_pow (n := 8)
  · exact Nat.and_lt_two_pow _ (by norm_num)
  · split <;> norm_num

theorem gf_mul_aux_lt (n : Nat) : ∀ a b : Nat, a < 256 → gf_mul_aux n a b < 256 := by
  induction n with
  | zero => intro a b _; simp [gf_mul_aux]
  | succ n ih =>
    intro a b ha
    simp only [gf_mul_aux]
    apply Nat.xor_lt_two_pow (n := 8)
    · split
      · exact ha
      · norm_num
    · exact ih _ _ (xtime_lt a)

theorem gf_mul_lt (c : Nat) {x : Nat} (h : x < 256) : gf_mul c x < 256 :=
  gf_mul_aux_lt 8 x c h

theorem xor_lt {x y : Nat} (hx : x < 256) (hy : y < 256) : x ^^^ y < 256 :=
  Nat.xor_lt_two_pow (n := 8) hx hy

/-- Regrouping a XOR of four four-term sums by position. -/
theorem xor_regroup {p0 p1 p2 p3 q0 q1 q2 q3 r0 r1 r2 r3 s0 s1 s2 s3 t0 t1 t2 t3 : Nat}
    (h0 : p0 ^^^ q0 ^^^ r0 ^^^ s0 = t0) (h1 : p1 ^^^ q1 ^^^ r1 ^^^ s1 = t1)
    (h2 : p2 ^^^ q2 ^^^ r2 ^^^ s2 = t2) (h3 : p3 ^^^ q3 ^^^ r3 ^^^ s3 = t3) :
    (p0 ^^^ p1 ^^^ p2 ^^^ p3) ^^^ (q0 ^^^ q1 ^^^ q2 ^^^ q3) ^^^ (r0 ^^^ r1 ^^^ r2 ^^^ r3)
      ^^^ (s0 ^^^ s1 ^^^ s2 ^^^ s3) = t0 ^^^ t1 ^^^ t2 ^^^ t3 := by
  subst h0 h1 h2 h3
  ac_rfl

theorem inv_mix_column_mix_column {a0 a1 a2 a3 : Nat} (h0 : a0 < 256) (h1 : a1 < 256)
    (h2 : a2 < 256) (h3 : a3 < 256) :
    inv_mix_column (mix_column [a0, a1, a2, a3]) = [a0, a1, a2, a3] := by
  obtain ⟨c00, c01, c02, c03, c10, c11, c12, c13, c20, c21, c22, c23, c30, c31, c32, c33⟩ :=
    inv_mix_mix_coeff a0 h0
  obtain ⟨d00, d01, d02, d03, d10, d11, d12, d13, d20, d21, d22, d23, d30, d31, d32, d33⟩ :=
    inv_mix_mix_coeff a1 h1
  obtain ⟨e00, e01, e02, e03, e10, e11, e12, e13, e20, e21, e22, e23, e30, e31, e32, e33⟩ :=
    inv_mix_mix_coeff a2 h2
  obtain ⟨f00, f01, f02, f03, f10, f11, f12, f13, f20, f21, f22, f23, f30, f31, f32, f33⟩ :=
    inv_mix_mix_coeff a3 h3
  simp only [mix_column, inv_mix_column, gf_mul_xor]
  rw [xor_regroup c00 d01 e02 f03, xor_regroup c10 d11 e12 f13, xor_regroup c20 d21 e22 f23,
    xor_regroup c30 d31 e32 f33]
  simp only [Nat.xor_zero, Nat.zero_xor]

theorem mix_column_inv_mix_column {a0 a1 a2 a3 : Nat} (h0 : a0 < 256) (h1 : a1 < 256)
    (h2 : a2 < 256) (h3 : a3 < 256) :
    mix_column (inv_mix_column [a0, a1, a2, a3]) = [a0, a1, a2, a3] := by
  obtain ⟨c00, c01, c02, c03, c10, c11, c12, c13, c20, c21, c22, c23, c30, c31, c32, c33⟩ :=
    mix_inv_mix_coeff a0 h0
  obtain ⟨d00, d01, d02, d03, d10, d11, d12, d13, d20, d21, d22, d23, d30, d31, d32, d33⟩ :=
    mix_inv_mix_coeff a1 h1
  obtain ⟨e00, e01, e02, e03, e10, e11, e12, e13, e20, e21, e22, e23, e30, e31, e32, e33⟩ :=
    mix_inv_mix_coeff a2 h2
  obtain ⟨f00, f01, f02, f03, f10, f11, f12, f13, f20, f21, f22, f23, f30, f31, f32, f33⟩ :=
    mix_inv_mix_coeff a3 h3
  simp only [mix_column, inv_mix_column, gf_mul_xor]
  rw [xor_regroup c00 d01 e02 f03, xor_regroup c10 d11 e12 f13, xor_regroup c20 d21 e22 f23,
    xor_regroup c30 d31 e32 f33]
  simp only [Nat.xor_zero, Nat.zero_xor]


/-! ## State-level facts -/
theorem length_16 {α : Type} {l : List α} (h : l.length = 16) :
    ∃ a0 a1 a2 a3 a4 a5 a6 a7 a8 a9 a10 a11 a12 a13 a14 a15 : α,
      l = [a0, a1, a2, a3, a4, a5, a6, a7, a8, a9, a10, a11, a12, a13, a14, a15] := by
  match l, h with
  | [a0, a1, a2, a3, a4, a5, a6, a7, a8, a9, a10, a11, a12, a13, a14, a15], _ =>
    exact ⟨a0, a1, a2, a3, a4, a5, a6, a7, a8, a9, a10, a11, a12, a13, a14, a15, rfl⟩

theorem loadu_zero {l : List Nat} (h : l.length = 16) : _mm_loadu_si128 l 0 = l := by
  simp [_mm_loadu_si128, List.take_of_length_le (Nat.le_of_eq h)]

theorem xor_length {a b : M128} (ha : a.length = 16) (hb : b.length = 16) :
    (_mm_xor_si128 a b).length = 16 := by
  simp [_mm_xor_si128, ha, hb]

theorem xor_mem_lt : ∀ (a b : List Nat), (∀ x ∈ a, x < 256) → (∀ y ∈ b, y < 256) →
    ∀ z ∈ _mm_xor_si128 a b, z < 256
  | [], _, _, _ => by simp [_mm_xor_si128]
  | _ :: _, [], _, _ => by simp [_mm_xor_si128]
  | x :: a, y :: b, ha, hb => by
    have ih := xor_mem_lt a b (fun z hz => ha z (List.mem_cons_of_mem _ hz))
      (fun z hz => hb z (List.mem_cons_of_mem _ hz))
    simp only [_mm_xor_si128, List.zipWith_cons_cons, List.forall_mem_cons] at ih ⊢
    exact ⟨xor_lt (ha x (List.mem_cons_self _ _)) (hb y (List.mem_cons_self _ _)), ih⟩

theorem xor_bytes {a b : M128} (ha : Bytes 16 a) (hb : Bytes 16 b) :
    Bytes 16 (_mm_xor_si128 a b) :=
  ⟨xor_length ha.1 hb.1, xor_mem_lt a b ha.2 hb.2⟩

theorem xor_xor_cancel : ∀ (a b : List Nat), a.length = b.length →
    _mm_xor_si128 (_mm_xor_si128 a b) b = a
  | [], [], _ => rfl
  | [], _ :: _, h => by simp at h
  | _ :: _, [], h => by simp at h
  | x :: a, y :: b, h => by
    have ih := xor_xor_cancel a b (by simpa using h)
    simp only [_mm_xor_si128, List.zipWith_cons_cons] at ih ⊢
    rw [ih, Nat.xor_cancel_right]

theorem SubBytes_length (s : M128) : (SubBytes s).length = s.length := by simp [SubBytes]

theorem InvSubBytes_length (s : M128) : (InvSubBytes s).length = s.length := by
  simp [InvSubBytes]

theorem SubBytes_bytes {s : M128} (h : s.length = 16) : Bytes 16 (SubBytes s) := by
  refine ⟨by simp [SubBytes, h], ?_⟩
  intro x hx
  obtain ⟨y, _, rfl⟩ := List.mem_map.mp hx
  exact sub_byte_lt y

theorem InvSubBytes_bytes {s : M128} (h : s.length = 16) : Bytes 16 (InvSubBytes s) := by
  refine ⟨by simp [InvSubBytes, h], ?_⟩
  intro x hx
  obtain ⟨y, _, rfl⟩ := List.mem_map.mp hx
  exact inv_sub_byte_lt y

theorem InvSubBytes_SubBytes {s : M128} (h : ∀ b ∈ s, b < 256) : InvSubBytes (SubBytes s) = s := by
  simp only [InvSubBytes, SubBytes, List.map_map]
  conv_rhs => rw [← List.map_id s]
  exact List.map_congr_left (fun b hb => inv_sub_byte_sub_byte (h b hb))

theorem SubBytes_InvSubBytes {s : M128} (h : ∀ b ∈ s, b < 256) : SubBytes (InvSubBytes s) = s := by
  simp only [InvSubBytes, SubBytes, List.map_map]
  conv_rhs => rw [← List.map_id s]
  exact List.map_congr_left (fun b hb => sub_byte_inv_sub_byte (h b hb))

theorem ShiftRows_length (s : M128) : (ShiftRows s).length = 16 := by simp [ShiftRows]

theorem InvShiftRows_length (s : M128) : (InvShiftRows s).length = 16 := by simp [InvShiftRows]

theorem InvShiftRows_ShiftRows {s : M128} (h : s.length = 16) : InvShiftRows (ShiftRows s) = s := by
  obtain ⟨a0, a1, a2, a3, a4, a5, a6, a7, a8, a9, a10, a11, a12, a13, a14, a15, rfl⟩ := length_16 h
  rfl

theorem ShiftRows_InvShiftRows {s : M128} (h : s.length = 16) : ShiftRows (InvShiftRows s) = s := by
  obtain ⟨a0, a1, a2, a3, a4, a5, a6, a7, a8, a9, a10, a11, a12, a13, a14, a15, rfl⟩ := length_16 h
  rfl

theorem ShiftRows_map (f : Nat → Nat) {s : M128} (h : s.length = 16) :
    ShiftRows (s.map f) = (ShiftRows s).map f := by
  obtain ⟨a0, a1, a2, a3, a4, a5, a6, a7, a8, a9, a10, a11, a12, a13, a14, a15, rfl⟩ := length_16 h
  rfl

theorem InvShiftRows_map (f : Nat → Nat) {s : M128} (h : s.length = 16) :
    InvShiftRows (s.map f) = (InvShiftRows s).map f := by
  obtain ⟨a0, a1, a2, a3, a4, a5, a6, a7, a8, a9, a10, a11, a12, a13, a14, a15, rfl⟩ := length_16 h
  rfl

theorem ShiftRows_bytes {s : M128} (h : Bytes 16 s) : Bytes 16 (ShiftRows s) := by
  obtain ⟨a0, a1, a2, a3, a4, a5, a6, a7, a8, a9, a10, a11, a12, a13, a14, a15, rfl⟩ :=
    length_16 h.1
  have h2 := h.2
  simp only [List.forall_mem_cons] at h2
  refine ⟨rfl, ?_⟩
  simp only [ShiftRows, List.map, List.getD_cons_zero, List.getD_cons_succ, List.forall_mem_cons]
  tauto

theorem InvShiftRows_bytes {s : M128} (h : Bytes 16 s) : Bytes 16 (InvShiftRows s) := by
  obtain ⟨a0, a1, a2, a3, a4, a5, a6, a7, a8, a9, a10, a11, a12, a13, a14, a15, rfl⟩ :=
    length_16 h.1
  have h2 := h.2
  simp only [List.forall_mem_cons] at h2
  refine ⟨rfl, ?_⟩
  simp only [InvShiftRows, List.map, List.getD_cons_zero, List.getD_cons_succ,
    List.forall_mem_cons]
  tauto


theorem MixColumns_cons (a0 a1 a2 a3 a4 a5 a6 a7 a8 a9 a10 a11 a12 a13 a14 a15 : Nat) :
    MixColumns [a0, a1, a2, a3, a4, a5, a6, a7, a8, a9, a10, a11, a12, a13, a14, a15] =
      mix_column [a0, a1, a2, a3] ++ mix_column [a4, a5, a6, a7] ++ mix_column [a8, a9, a10, a11]
        ++ mix_column [a12, a13, a14, a15] := rfl

theorem InvMixColumns_cons (a0 a1 a2 a3 a4 a5 a6 a7 a8 a9 a10 a11 a12 a13 a14 a15 : Nat) :
    InvMixColumns [a0, a1, a2, a3, a4, a5, a6, a7, a8, a9, a10, a11, a12, a13, a14, a15] =
      inv_mix_column [a0, a1, a2, a3] ++ inv_mix_column [a4, a5, a6, a7]
        ++ inv_mix_column [a8, a9, a10, a11] ++ inv_mix_column [a12, a13, a14, a15] := rfl

theorem mix_column_cons (a0 a1 a2 a3 : Nat) : ∃ b0 b1 b2 b3, mix_column [a0, a1, a2, a3] =
    [b0, b1, b2, b3] := ⟨_, _, _, _, rfl⟩

theorem inv_mix_column_cons (a0 a1 a2 a3 : Nat) : ∃ b0 b1 b2 b3,
    inv_mix_column [a0, a1, a2, a3] = [b0, b1, b2, b3] := ⟨_, _, _, _, rfl⟩

theorem MixColumns_length {s : M128} (h : s.length = 16) : (MixColumns s).length = 16 := by
  obtain ⟨a0, a1, a2, a3, a4, a5, a6, a7, a8, a9, a10, a11, a12, a13, a14, a15, rfl⟩ := length_16 h
  rfl

theorem InvMixColumns_length {s : M128} (h : s.length = 16) : (InvMixColumns s).length = 16 := by
  obtain ⟨a0, a1, a2, a3, a4, a5, a6, a7, a8, a9, a10, a11, a12, a13, a14, a15, rfl⟩ := length_16 h
  rfl

theorem mix_column_bytes {a0 a1 a2 a3 : Nat} (h0 : a0 < 256) (h1 : a1 < 256) (h2 : a2 < 256)
    (h3 : a3 < 256) : ∀ b ∈ mix_column [a0, a1, a2, a3], b < 256 := by
  simp only [mix_column, List.forall_mem_cons, List.not_mem_nil, false_implies, implies_true,
    and_true]
  refine ⟨?_, ?_, ?_, ?_⟩ <;>
    exact xor_lt (xor_lt (xor_lt (by first | assumption | exact gf_mul_lt _ ‹_›)
      (by first | assumption | exact gf_mul_lt _ ‹_›))
      (by first | assumption | exact gf_mul_lt _ ‹_›))
      (by first | assumption | exact gf_mul_lt _ ‹_›)

theorem inv_mix_column_bytes {a0 a1 a2 a3 : Nat} (h0 : a0 < 256) (h1 : a1 < 256) (h2 : a2 < 256)
    (h3 : a3 < 256) : ∀ b ∈ inv_mix_column [a0, a1, a2, a3], b < 256 := by
  simp only [inv_mix_column, List.forall_mem_cons, List.not_mem_nil, false_implies, implies_true,
    and_true]
  refine ⟨?_, ?_, ?_, ?_⟩ <;>
    exact xor_lt (xor_lt (xor_lt (gf_mul_lt _ ‹_›) (gf_mul_lt _ ‹_›)) (gf_mul_lt _ ‹_›))
      (gf_mul_lt _ ‹_›)

theorem MixColumns_bytes {s : M128} (h : Bytes 16 s) : Bytes 16 (MixColumns s) := by
  refine ⟨MixColumns_length h.1, ?_⟩
  obtain ⟨a0, a1, a2, a3, a4, a5, a6, a7, a8, a9, a10, a11, a12, a13, a14, a15, rfl⟩ :=
    length_16 h.1
  have h2 := h.2
  simp only [List.forall_mem_cons] at h2
  obtain ⟨h0, h1, h2, h3, h4, h5, h6, h7, h8, h9, h10, h11, h12, h13, h14, h15, -⟩ := h2
  rw [MixColumns_cons]
  intro b hb
  simp only [List.mem_append] at hb
  rcases hb with ((hb | hb) | hb) | hb
  · exact mix_column_bytes h0 h1 h2 h3 b hb
  · exact mix_column_bytes h4 h5 h6 h7 b hb
  · exact mix_column_bytes h8 h9 h10 h11 b hb
  · exact mix_column_bytes h12 h13 h14 h15 b hb

theorem InvMixColumns_bytes {s : M128} (h : Bytes 16 s) : Bytes 16 (InvMixColumns s) := by
  refine ⟨InvMixColumns_length h.1, ?_⟩
  obtain ⟨a0, a1, a2, a3, a4, a5, a6, a7, a8, a9, a10, a11, a12, a13, a14, a15, rfl⟩ :=
    length_16 h.1
  have h2 := h.2
  simp only [List.forall_mem_cons] at h2
  obtain ⟨h0, h1, h2, h3, h4, h5, h6, h7, h8, h9, h10, h11, h12, h13, h14, h15, -⟩ := h2
  rw [InvMixColumns_cons]
  intro b hb
  simp only [List.mem_append] at hb
  rcases hb with ((hb | hb) | hb) | hb
  · exact inv_mix_column_bytes h0 h1 h2 h3 b hb
  · exact inv_mix_column_bytes h4 h5 h6 h7 b hb
  · exact inv_mix_column_bytes h8 h9 h10 h11 b hb
  · exact inv_mix_column_bytes h12 h13 h14 h15 b hb

theorem InvMixColumns_MixColumns {s : M128} (h : Bytes 16 s) :
    InvMixColumns (MixColumns s) = s := by
  obtain ⟨a0, a1, a2, a3, a4, a5, a6, a7, a8, a9, a10, a11, a12, a13, a14, a15, rfl⟩ :=
    length_16 h.1
  have h2 := h.2
  simp only [List.forall_mem_cons] at h2
  obtain ⟨h0, h1, h2, h3, h4, h5, h6, h7, h8, h9, h10, h11, h12, h13, h14, h15, -⟩ := h2
  have e0 := inv_mix_column_mix_column h0 h1 h2 h3
  have e1 := inv_mix_column_mix_column h4 h5 h6 h7
  have e2 := inv_mix_column_mix_column h8 h9 h10 h11
  have e3 := inv_mix_column_mix_column h12 h13 h14 h15
  rw [MixColumns_cons]
  obtain ⟨b0, b1, b2, b3, hb⟩ := mix_column_cons a0 a1 a2 a3
  obtain ⟨b4, b5, b6, b7, hc1⟩ := mix_column_cons a4 a5 a6 a7
  obtain ⟨b8, b9, b10, b11, hc2⟩ := mix_column_cons a8 a9 a10 a11
  obtain ⟨b12, b13, b14, b15, hc3⟩ := mix_column_cons a12 a13 a14 a15
  rw [hb] at e0 ⊢
  rw [hc1] at e1 ⊢
  rw [hc2] at e2 ⊢
  rw [hc3] at e3 ⊢
  show InvMixColumns [b0, b1, b2, b3, b4, b5, b6, b7, b8, b9, b10, b11, b12, b13, b14, b15] = _
  rw [InvMixColumns_cons, e0, e1, e2, e3]
  rfl

theorem MixColumns_InvMixColumns {s : M128} (h : Bytes 16 s) :
    MixColumns (InvMixColumns s) = s := by
  obtain ⟨a0, a1, a2, a3, a4, a5, a6, a7, a8, a9, a10, a11, a12, a13, a14, a15, rfl⟩ :=
    length_16 h.1
  have h2 := h.2
  simp only [List.forall_mem_cons] at h2
  obtain ⟨h0, h1, h2, h3, h4, h5, h6, h7, h8, h9, h10, h11, h12, h13, h14, h15, -⟩ := h2
  have e0 := mix_column_inv_mix_column h0 h1 h2 h3
  have e1 := mix_column_inv_mix_column h4 h5 h6 h7
  have e2 := mix_column_inv_mix_column h8 h9 h10 h11
  have e3 := mix_column_inv_mix_column h12 h13 h14 h15
  rw [InvMixColumns_cons]
  obtain ⟨b0, b1, b2, b3, hb⟩ := inv_mix_column_cons a0 a1 a2 a3
  obtain ⟨b4, b5, b6, b7, hc1⟩ := inv_mix_column_cons a4 a5 a6 a7
  obtain ⟨b8, b9, b10, b11, hc2⟩ := inv_mix_column_cons a8 a9 a10 a11
  obtain ⟨b12, b13, b14, b15, hc3⟩ := inv_mix_column_cons a12 a13 a14 a15
  rw [hb] at e0 ⊢
  rw [hc1] at e1 ⊢
  rw [hc2] at e2 ⊢
  rw [hc3] at e3 ⊢
  show MixColumns [b0, b1, b2, b3, b4, b5, b6, b7, b8, b9, b10, b11, b12, b13, b14, b15] = _
  rw [MixColumns_cons, e0, e1, e2, e3]
  rfl

theorem inv_mix_column_xor (a0 a1 a2 a3 b0 b1 b2 b3 : Nat) :
    inv_mix_column [a0 ^^^ b0, a1 ^^^ b1, a2 ^^^ b2, a3 ^^^ b3] =
      List.zipWith (fun x y => x ^^^ y) (inv_mix_column [a0, a1, a2, a3])
        (inv_mix_column [b0, b1, b2, b3]) := by
  simp only [inv_mix_column, gf_mul_xor, List.zipWith_cons_cons, List.zipWith_nil_right,
    List.cons.injEq, and_true]
  refine ⟨?_, ?_, ?_, ?_⟩ <;> ac_rfl

theorem InvMixColumns_xor {a b : M128} (ha : a.length = 16) (hb : b.length = 16) :
    InvMixColumns (_mm_xor_si128 a b) = _mm_xor_si128 (InvMixColumns a) (InvMixColumns b) := by
  obtain ⟨a0, a1, a2, a3, a4, a5, a6, a7, a8, a9, a10, a11, a12, a13, a14, a15, rfl⟩ :=
    length_16 ha
  obtain ⟨b0, b1, b2, b3, b4, b5, b6, b7, b8, b9, b10, b11, b12, b13, b14, b15, rfl⟩ :=
    length_16 hb
  show InvMixColumns [a0 ^^^ b0, a1 ^^^ b1, a2 ^^^ b2, a3 ^^^ b3, a4 ^^^ b4, a5 ^^^ b5,
    a6 ^^^ b6, a7 ^^^ b7, a8 ^^^ b8, a9 ^^^ b9, a10 ^^^ b10, a11 ^^^ b11, a12 ^^^ b12,
    a13 ^^^ b13, a14 ^^^ b14, a15 ^^^ b15] = _
  rw [InvMixColumns_cons, InvMixColumns_cons, InvMixColumns_cons, inv_mix_column_xor,
    inv_mix_column_xor, inv_mix_column_xor, inv_mix_column_xor]
  rfl


/-! ## Rounds -/

theorem SubBytes_ShiftRows_inv (y : M128) (h : Bytes 16 y) :
    SubBytes (ShiftRows (InvSubBytes (InvShiftRows y))) = y := by
  have h1 : ShiftRows (InvSubBytes (InvShiftRows y)) = InvSubBytes y := by
    rw [InvSubBytes, ShiftRows_map _ (InvShiftRows_length y), ShiftRows_InvShiftRows h.1]
    rfl
  rw [h1, SubBytes_InvSubBytes h.2]

theorem InvSubBytes_InvShiftRows_inv (y : M128) (h : Bytes 16 y) :
    InvSubBytes (InvShiftRows (SubBytes (ShiftRows y))) = y := by
  have h1 : InvShiftRows (SubBytes (ShiftRows y)) = SubBytes y := by
    rw [SubBytes, InvShiftRows_map _ (ShiftRows_length y), InvShiftRows_ShiftRows h.1]
    rfl
  rw [h1, InvSubBytes_SubBytes h.2]

theorem inv_half_bytes (m : M128) : Bytes 16 (InvSubBytes (InvShiftRows m)) :=
  InvSubBytes_bytes (InvShiftRows_length m)

theorem half_bytes (m : M128) : Bytes 16 (SubBytes (ShiftRows m)) :=
  SubBytes_bytes (ShiftRows_length m)

/-- With an `InvMixColumns`-preprocessed key, `_mm_aesdec_si128` is one round of the
straightforward inverse cipher: `InvShiftRows`, `InvSubBytes`, `AddRoundKey`, `InvMixColumns`. -/
theorem aesdec_imc (m k : M128) (hk : k.length = 16) :
    _mm_aesdec_si128 m (InvMixColumns k) =
      InvMixColumns (_mm_xor_si128 (InvSubBytes (InvShiftRows m)) k) := by
  rw [_mm_aesdec_si128, InvMixColumns_xor (inv_half_bytes m).1 hk]

theorem aesdec_bytes (m k : M128) (hk : Bytes 16 k) : Bytes 16 (_mm_aesdec_si128 m k) :=
  xor_bytes (InvMixColumns_bytes (inv_half_bytes m)) hk

theorem aesenc_bytes (m k : M128) (hk : Bytes 16 k) : Bytes 16 (_mm_aesenc_si128 m k) :=
  xor_bytes (MixColumns_bytes (half_bytes m)) hk

/-- One encryption round undoes one decryption round (up to the half round that the
next round absorbs). -/
theorem aesenc_undoes_aesdec (m k : M128) (hk : Bytes 16 k) :
    _mm_aesenc_si128 (InvSubBytes (InvShiftRows (_mm_aesdec_si128 m (InvMixColumns k)))) k =
      InvSubBytes (InvShiftRows m) := by
  have hx := inv_half_bytes m
  have hxk : Bytes 16 (_mm_xor_si128 (InvSubBytes (InvShiftRows m)) k) := xor_bytes hx hk
  rw [aesdec_imc m k hk.1, _mm_aesenc_si128, SubBytes_ShiftRows_inv _ (InvMixColumns_bytes hxk),
    MixColumns_InvMixColumns hxk, xor_xor_cancel _ _ (hx.1.trans hk.1.symm)]

/-- One decryption round undoes one encryption round. -/
theorem aesdec_undoes_aesenc (x k : M128) (hk : Bytes 16 k) :
    _mm_aesdec_si128 (SubBytes (ShiftRows (_mm_aesenc_si128 x k))) (InvMixColumns k) =
      SubBytes (ShiftRows x) := by
  have hz := half_bytes x
  have hw : Bytes 16 (_mm_aesenc_si128 x k) := aesenc_bytes x k hk
  rw [aesdec_imc _ k hk.1, InvSubBytes_InvShiftRows_inv _ hw, _mm_aesenc_si128,
    xor_xor_cancel _ _ ((MixColumns_bytes hz).1.trans hk.1.symm), InvMixColumns_MixColumns hz]

theorem aes256_decrypt_eq (S : List M128) (C : List Nat) :
    aes256_decrypt S C = _mm_aesdeclast_si128
      (dec_rounds S 13 (_mm_xor_si128 (_mm_loadu_si128 C 0) (entry S 14))) (entry S 0) := rfl

theorem aes256_encrypt_eq (S : List M128) (P : List Nat) :
    aes256_encrypt S P = _mm_aesenclast_si128
      (enc_rounds S 13 (_mm_xor_si128 (_mm_loadu_si128 P 0) (entry S 0))) (entry S 14) := rfl

theorem enc_rounds_dec_rounds (S : List M128) (hS : GoodSchedule S) (m0 : M128) :
    ∀ n, n ≤ 13 → enc_rounds S n (InvSubBytes (InvShiftRows (dec_rounds S 13 m0))) =
      InvSubBytes (InvShiftRows (dec_rounds S (13 - n) m0)) := by
  intro n
  induction n with
  | zero => intro _; rfl
  | succ n ih =>
    intro hn
    have e : 13 - n = (12 - n) + 1 := by omega
    rw [enc_rounds, ih (by omega), e, dec_rounds, hS.2 (12 - n + 1) (by omega) (by omega)]
    have e2 : 14 - (12 - n + 1) = n + 1 := by omega
    have e3 : 13 - (n + 1) = 12 - n := by omega
    rw [e2, e3]
    exact aesenc_undoes_aesdec _ _ (hS.1 (n + 1) (by omega))

theorem dec_rounds_enc_rounds (S : List M128) (hS : GoodSchedule S) (x0 : M128) :
    ∀ n, n ≤ 13 → dec_rounds S n (SubBytes (ShiftRows (enc_rounds S 13 x0))) =
      SubBytes (ShiftRows (enc_rounds S (13 - n) x0)) := by
  intro n
  induction n with
  | zero => intro _; rfl
  | succ n ih =>
    intro hn
    have e : 13 - n = (12 - n) + 1 := by omega
    rw [dec_rounds, ih (by omega), e, enc_rounds, hS.2 (n + 1) (by omega) (by omega)]
    have e2 : 14 - (n + 1) = 12 - n + 1 := by omega
    have e3 : 13 - (n + 1) = 12 - n := by omega
    rw [e2, e3]
    exact aesdec_undoes_aesenc _ _ (hS.1 (12 - n + 1) (by omega))

theorem encrypt_decrypt_of_good (S : List M128) (hS : GoodSchedule S) (C : List Nat)
    (hC : Bytes 16 C) : aes256_encrypt S (aes256_decrypt S C) = C := by
  have h14 := hS.1 14 (by omega)
  have h0 := hS.1 0 (by omega)
  have hm0 : Bytes 16 (_mm_xor_si128 C (entry S 14)) := xor_bytes hC h14
  rw [aes256_encrypt_eq, aes256_decrypt_eq, loadu_zero hC.1, _mm_aesdeclast_si128]
  have hx := inv_half_bytes (dec_rounds S 13 (_mm_xor_si128 C (entry S 14)))
  rw [loadu_zero (xor_length hx.1 h0.1), xor_xor_cancel _ _ (hx.1.trans h0.1.symm),
    enc_rounds_dec_rounds S hS _ 13 (le_refl _)]
  show _mm_aesenclast_si128 (InvSubBytes (InvShiftRows (_mm_xor_si128 C (entry S 14))))
    (entry S 14) = C
  rw [_mm_aesenclast_si128, SubBytes_ShiftRows_inv _ hm0, xor_xor_cancel _ _ (hC.1.trans h14.1.symm)]

theorem decrypt_encrypt_of_good (S : List M128) (hS : GoodSchedule S) (P : List Nat)
    (hP : Bytes 16 P) : aes256_decrypt S (aes256_encrypt S P) = P := by
  have h14 := hS.1 14 (by omega)
  have h0 := hS.1 0 (by omega)
  have hx0 : Bytes 16 (_mm_xor_si128 P (entry S 0)) := xor_bytes hP h0
  rw [aes256_decrypt_eq, aes256_encrypt_eq, loadu_zero hP.1, _mm_aesenclast_si128]
  have hx := half_bytes (enc_rounds S 13 (_mm_xor_si128 P (entry S 0)))
  rw [loadu_zero (xor_length hx.1 h14.1), xor_xor_cancel _ _ (hx.1.trans h14.1.symm),
    dec_rounds_enc_rounds S hS _ 13 (le_refl _)]
  show _mm_aesdeclast_si128 (SubBytes (ShiftRows (_mm_xor_si128 P (entry S 0))))
    (entry S 0) = P
  rw [_mm_aesdeclast_si128, InvSubBytes_InvShiftRows_inv _ hx0,
    xor_xor_cancel _ _ (hP.1.trans h0.1.symm)]


/-! ## Key schedule -/

theorem lane_bytes {a : M128} (h : Bytes 16 a) {i : Nat} (hi : i < 4) : Bytes 4 (lane a i) := by
  refine ⟨?_, fun b hb => h.2 b (List.mem_of_mem_drop (List.mem_of_mem_take hb))⟩
  simp only [lane, List.length_take, List.length_drop, h.1]
  omega

theorem loadu_bytes {p : List Nat} {off : Nat} (h : ∀ b ∈ p, b < 256)
    (hl : off + 16 ≤ p.length) : Bytes 16 (_mm_loadu_si128 p off) := by
  refine ⟨?_, fun b hb => h b (List.mem_of_mem_drop (List.mem_of_mem_take hb))⟩
  simp only [_mm_loadu_si128, List.length_take, List.length_drop]
  omega

theorem slli_bytes {a : M128} (h : Bytes 16 a) (imm : Nat) : Bytes 16 (_mm_slli_si128 a imm) := by
  refine ⟨?_, ?_⟩
  · simp only [_mm_slli_si128, List.length_take, List.length_append, List.length_replicate, h.1]
    omega
  · intro b hb
    have hb' := List.mem_of_mem_take hb
    rcases List.mem_append.mp hb' with h1 | h1
    · rw [(List.mem_replicate.mp h1).2]; norm_num
    · exact h.2 b h1

theorem shuffle_bytes {a : M128} (h : Bytes 16 a) (imm : Nat) :
    Bytes 16 (_mm_shuffle_epi32 a imm) := by
  have l0 := lane_bytes h (Nat.mod_lt imm (by norm_num : 4 > 0))
  have l1 := lane_bytes h (Nat.mod_lt (imm / 4) (by norm_num : 4 > 0))
  have l2 := lane_bytes h (Nat.mod_lt (imm / 16) (by norm_num : 4 > 0))
  have l3 := lane_bytes h (Nat.mod_lt (imm / 64) (by norm_num : 4 > 0))
  refine ⟨?_, ?_⟩
  · simp only [_mm_shuffle_epi32, List.length_append, l0.1, l1.1, l2.1, l3.1]
  · intro b hb
    simp only [_mm_shuffle_epi32, List.mem_append] at hb
    rcases hb with ((hb | hb) | hb) | hb
    · exact l0.2 b hb
    · exact l1.2 b hb
    · exact l2.2 b hb
    · exact l3.2 b hb

theorem SubWord_bytes {w : List Nat} (h : w.length = 4) : Bytes 4 (SubWord w) := by
  refine ⟨by simp [SubWord, h], ?_⟩
  intro x hx
  obtain ⟨y, _, rfl⟩ := List.mem_map.mp hx
  exact sub_byte_lt y

theorem rot_rcon_bytes {w : List Nat} (h : Bytes 4 w) {rcon : Nat} (hr : rcon < 256) :
    Bytes 4 (xor_word (RotWord w) [rcon, 0, 0, 0]) := by
  refine ⟨?_, ?_⟩
  · simp only [xor_word, RotWord, List.length_zipWith, List.length_append, List.length_drop,
      List.length_take, h.1, List.length_cons, List.length_nil]
    rfl
  · apply xor_mem_lt
    · intro x hx
      rcases List.mem_append.mp hx with h1 | h1
      · exact h.2 x (List.mem_of_mem_drop h1)
      · exact h.2 x (List.mem_of_mem_take h1)
    · intro y hy
      simp only [List.mem_cons, List.mem_singleton, List.not_mem_nil, or_false] at hy
      rcases hy with rfl | rfl | rfl | rfl
      · exact hr
      all_goals norm_num

theorem keygenassist_bytes {a : M128} (h : Bytes 16 a) {rcon : Nat} (hr : rcon < 256) :
    Bytes 16 (_mm_aeskeygenassist_si128 a rcon) := by
  have s1 := SubWord_bytes (lane_bytes h (by norm_num : 1 < 4)).1
  have s3 := SubWord_bytes (lane_bytes h (by norm_num : 3 < 4)).1
  have r1 := rot_rcon_bytes s1 hr
  have r3 := rot_rcon_bytes s3 hr
  refine ⟨?_, ?_⟩
  · simp only [_mm_aeskeygenassist_si128, List.length_append, s1.1, s3.1, r1.1, r3.1]
  · intro b hb
    simp only [_mm_aeskeygenassist_si128, List.mem_append] at hb
    rcases hb with ((hb | hb) | hb) | hb
    · exact s1.2 b hb
    · exact r1.2 b hb
    · exact s3.2 b hb
    · exact r3.2 b hb

theorem KEY_256_ASSIST_1_bytes {temp1 temp2 : M128} (h1 : Bytes 16 temp1) (h2 : Bytes 16 temp2) :
    Bytes 16 (KEY_256_ASSIST_1 temp1 temp2).1 := by
  have a := slli_bytes h1 0x4
  have b := slli_bytes a 0x4
  have c := slli_bytes b 0x4
  exact xor_bytes (xor_bytes (xor_bytes (xor_bytes h1 a) b) c) (shuffle_bytes h2 0xff)

theorem KEY_256_ASSIST_2_bytes {temp1 temp3 : M128} (h1 : Bytes 16 temp1) (h3 : Bytes 16 temp3) :
    Bytes 16 (KEY_256_ASSIST_2 temp1 temp3) := by
  have a := slli_bytes h3 0x4
  have b := slli_bytes a 0x4
  have c := slli_bytes b 0x4
  exact xor_bytes (xor_bytes (xor_bytes (xor_bytes h3 a) b) c)
    (shuffle_bytes (keygenassist_bytes h1 (by norm_num : 0x0 < 256)) 0xaa)

theorem assist_rcon_lt (r : Nat) : assist_rcon r < 256 := by
  unfold assist_rcon
  rcases r with _ | _ | _ | _ | _ | _ | _ | r <;> simp [List.getD]

theorem key_pair_bytes {key : List Nat} (h : Bytes 32 key) :
    ∀ r, Bytes 16 (key_pair key r).1 ∧ Bytes 16 (key_pair key r).2 := by
  intro r
  induction r with
  | zero =>
    have hl := h.1
    exact ⟨loadu_bytes h.2 (by omega), loadu_bytes h.2 (by omega)⟩
  | succ r ih =>
    have h1 := KEY_256_ASSIST_1_bytes ih.1 (keygenassist_bytes ih.2 (assist_rcon_lt r))
    exact ⟨h1, KEY_256_ASSIST_2_bytes h1 ih.2⟩



theorem length_28 {α : Type} {l : List α} (h : l.length = 28) :
    ∃ e0 e1 e2 e3 e4 e5 e6 e7 e8 e9 e10 e11 e12 e13 e14 e15 e16 e17 e18 e19 e20 e21 e22 e23 e24
      e25 e26 e27 : α,
      l = [e0, e1, e2, e3, e4, e5, e6, e7, e8, e9, e10, e11, e12, e13, e14, e15, e16, e17, e18,
        e19, e20, e21, e22, e23, e24, e25, e26, e27] := by
  match l, h with
  | [e0, e1, e2, e3, e4, e5, e6, e7, e8, e9, e10, e11, e12, e13, e14, e15, e16, e17, e18, e19,
      e20, e21, e22, e23, e24, e25, e26, e27], _ =>
    exact ⟨e0, e1, e2, e3, e4, e5, e6, e7, e8, e9, e10, e11, e12, e13, e14, e15, e16, e17, e18,
      e19, e20, e21, e22, e23, e24, e25, e26, e27, rfl⟩

theorem length_ge_28 {α : Type} {l : List α} (h : 28 ≤ l.length) :
    ∃ e0 e1 e2 e3 e4 e5 e6 e7 e8 e9 e10 e11 e12 e13 e14 e15 e16 e17 e18 e19 e20 e21 e22 e23 e24
      e25 e26 e27 : α, ∃ rest : List α,
      l = [e0, e1, e2, e3, e4, e5, e6, e7, e8, e9, e10, e11, e12, e13, e14, e15, e16, e17, e18,
        e19, e20, e21, e22, e23, e24, e25, e26, e27] ++ rest := by
  have h1 : (l.take 28).length = 28 := by rw [List.length_take]; omega
  obtain ⟨e0, e1, e2, e3, e4, e5, e6, e7, e8, e9, e10, e11, e12, e13, e14, e15, e16, e17, e18,
    e19, e20, e21, e22, e23, e24, e25, e26, e27, ht⟩ := length_28 h1
  refine ⟨e0, e1, e2, e3, e4, e5, e6, e7, e8, e9, e10, e11, e12, e13, e14, e15, e16, e17, e18,
    e19, e20, e21, e22, e23, e24, e25, e26, e27, l.drop 28, ?_⟩
  rw [← ht, List.take_append_drop]

/-- The entries written by `aes256_load_key_encrypt_only`, in terms of `key_pair`. -/
theorem aes256_load_key_encrypt_only_eq (key : List Nat) {ks : List M128} (h : 28 ≤ ks.length) :
    aes256_load_key_encrypt_only key ks =
      [(key_pair key 0).1, (key_pair key 0).2, (key_pair key 1).1, (key_pair key 1).2,
        (key_pair key 2).1, (key_pair key 2).2, (key_pair key 3).1, (key_pair key 3).2,
        (key_pair key 4).1, (key_pair key 4).2, (key_pair key 5).1, (key_pair key 5).2,
        (key_pair key 6).1, (key_pair key 6).2, (key_pair key 7).1] ++ ks.drop 15 := by
  obtain ⟨e0, e1, e2, e3, e4, e5, e6, e7, e8, e9, e10, e11, e12, e13, e14, e15, e16, e17, e18,
    e19, e20, e21, e22, e23, e24, e25, e26, e27, rest, rfl⟩ := length_ge_28 h
  unfold aes256_load_key_encrypt_only
  simp only [List.set_cons_zero, List.set_cons_succ, List.drop_succ_cons, List.drop_zero,
    List.cons_append, List.nil_append]
  simp only [key_pair]
  simp only [assist_rcon, List.getD_cons_zero, List.getD_cons_succ]

/-- The entries written by `aes256_load_key`: all of the first 28, whatever the array held. -/
theorem aes256_load_key_eq (key : List Nat) {ks : List M128} (h : 28 ≤ ks.length) :
    aes256_load_key key ks =
      [(key_pair key 0).1, (key_pair key 0).2, (key_pair key 1).1, (key_pair key 1).2,
        (key_pair key 2).1, (key_pair key 2).2, (key_pair key 3).1, (key_pair key 3).2,
        (key_pair key 4).1, (key_pair key 4).2, (key_pair key 5).1, (key_pair key 5).2,
        (key_pair key 6).1, (key_pair key 6).2, (key_pair key 7).1,
        InvMixColumns (key_pair key 6).2, InvMixColumns (key_pair key 6).1,
        InvMixColumns (key_pair key 5).2, InvMixColumns (key_pair key 5).1,
        InvMixColumns (key_pair key 4).2, InvMixColumns (key_pair key 4).1,
        InvMixColumns (key_pair key 3).2, InvMixColumns (key_pair key 3).1,
        InvMixColumns (key_pair key 2).2, InvMixColumns (key_pair key 2).1,
        InvMixColumns (key_pair key 1).2, InvMixColumns (key_pair key 1).1,
        InvMixColumns (key_pair key 0).2] ++ ks.drop 28 := by
  rw [aes256_load_key, aes256_load_key_encrypt_only_eq key h]
  obtain ⟨e0, e1, e2, e3, e4, e5, e6, e7, e8, e9, e10, e11, e12, e13, e14, e15, e16, e17, e18,
    e19, e20, e21, e22, e23, e24, e25, e26, e27, rest, rfl⟩ := length_ge_28 h
  simp only [entry, _mm_aesimc_si128, List.getD_cons_zero, List.getD_cons_succ,
    List.set_cons_zero, List.set_cons_succ, List.drop_succ_cons, List.drop_zero,
    List.cons_append, List.nil_append]

/-- The first 28 entries after `aes256_load_key` do not depend on what the array held. -/
theorem aes256_load_key_entry (key : List Nat) {ks ks' : List M128} (h : 28 ≤ ks.length)
    (h' : 28 ≤ ks'.length) {i : Nat} (hi : i < 28) :
    entry (aes256_load_key key ks) i = entry (aes256_load_key key ks') i := by
  rw [aes256_load_key_eq key h, aes256_load_key_eq key h']
  interval_cases i <;> rfl

/-- The schedule of `aes256_load_key` for a 32-byte key is a good schedule. -/
theorem aes256_load_key_good {key : List Nat} (hk : Bytes 32 key) {ks : List M128}
    (h : 28 ≤ ks.length) : GoodSchedule (aes256_load_key key ks) := by
  have hb := key_pair_bytes hk
  rw [aes256_load_key_eq key h]
  constructor
  · intro i hi
    interval_cases i
    · exact (hb 0).1
    · exact (hb 0).2
    · exact (hb 1).1
    · exact (hb 1).2
    · exact (hb 2).1
    · exact (hb 2).2
    · exact (hb 3).1
    · exact (hb 3).2
    · exact (hb 4).1
    · exact (hb 4).2
    · exact (hb 5).1
    · exact (hb 5).2
    · exact (hb 6).1
    · exact (hb 6).2
    · exact (hb 7).1
  · intro j h1 h13
    interval_cases j <;> rfl

theorem dec_rounds_congr {S S' : List M128}
    (h : ∀ j, 1 ≤ j → j ≤ 13 → entry S (14 + j) = entry S' (14 + j)) (m : M128) :
    ∀ n, n ≤ 13 → dec_rounds S n m = dec_rounds S' n m := by
  intro n
  induction n with
  | zero => intro _; rfl
  | succ n ih =>
    intro hn
    rw [dec_rounds, dec_rounds, ih (by omega), h (n + 1) (by omega) hn]

/-- `aes256_decrypt` reads only entries 0 and 14..27 of the schedule. -/
theorem aes256_decrypt_congr {S S' : List M128} (h0 : entry S 0 = entry S' 0)
    (h : ∀ j, j ≤ 13 → entry S (14 + j) = entry S' (14 + j)) (C : List Nat) :
    aes256_decrypt S C = aes256_decrypt S' C := by
  rw [aes256_decrypt_eq, aes256_decrypt_eq, h0, h 0 (by omega),
    dec_rounds_congr (fun j _ hj => h j hj) _ 13 (le_refl _)]

theorem enc_rounds_congr {S S' : List M128}
    (h : ∀ j, 1 ≤ j → j ≤ 13 → entry S j = entry S' j) (m : M128) :
    ∀ n, n ≤ 13 → enc_rounds S n m = enc_rounds S' n m := by
  intro n
  induction n with
  | zero => intro _; rfl
  | succ n ih =>
    intro hn
    rw [enc_rounds, enc_rounds, ih (by omega), h (n + 1) (by omega) hn]

/-- `aes256_encrypt` reads only entries 0..14 of the schedule. -/
theorem aes256_encrypt_congr {S S' : List M128} (h : ∀ j, j ≤ 14 → entry S j = entry S' j)
    (P : List Nat) : aes256_encrypt S P = aes256_encrypt S' P := by
  rw [aes256_encrypt_eq, aes256_encrypt_eq, h 0 (by omega), h 14 (by omega),
    enc_rounds_congr (fun j _ hj => h j (by omega)) _ 13 (le_refl _)]


theorem aes256_load_key_encrypt_only_entry (key : List Nat) {ks ks' : List M128}
    (h : 28 ≤ ks.length) (h' : 28 ≤ ks'.length) {i : Nat} (hi : i ≤ 14) :
    entry (aes256_load_key_encrypt_only key ks) i =
      entry (aes256_load_key_encrypt_only key ks') i := by
  rw [aes256_load_key_encrypt_only_eq key h, aes256_load_key_encrypt_only_eq key h']
  interval_cases i <;> rfl

/-! ## AES-256 round trip, conformance vectors and key expansion -/

/-- C1: AES-256 round trip. For every 32-byte key `K`, every 16-byte block `C` and every
schedule array of at least 28 entries, encrypting the decryption of `C` under the schedule
written by `aes256_load_key` for `K` gives `C` back. -/
theorem aes256_encrypt_decrypt (K C : List Nat) (ks : List M128) (hK : Bytes 32 K)
    (hC : Bytes 16 C) (hks : 28 ≤ ks.length) :
    aes256_encrypt (aes256_load_key K ks) (aes256_decrypt (aes256_load_key K ks) C) = C :=
  encrypt_decrypt_of_good _ (aes256_load_key_good hK hks) C hC

theorem aes256_encrypt_decrypt_witness :
    Bytes 32 test_key ∧ Bytes 16 test_cipher ∧ 28 ≤ zero_schedule.length ∧
      aes256_encrypt (aes256_load_key test_key zero_schedule)
        (aes256_decrypt (aes256_load_key test_key zero_schedule) test_cipher) = test_cipher :=
  ⟨by decide, by decide, by decide,
    aes256_encrypt_decrypt test_key test_cipher zero_schedule (by decide) (by decide) (by decide)⟩

set_option maxRecDepth 100000 in
theorem aes256_encrypt_test_zero :
    aes256_encrypt (aes256_load_key_encrypt_only test_key zero_schedule) test_plain =
      test_cipher := by
  decide!

/-- C6: AES-256 encryption conformance vector (`aes256_encrypt_test`). With the key
`00 01 .. 1f` and the plaintext `00 11 .. ff`, `aes256_encrypt` on the schedule written by
`aes256_load_key_encrypt_only` into any array of at least 28 entries gives
`8e a2 b7 ca 51 67 45 bf ea fc 49 90 4b 49 60 89`. -/
theorem aes256_encrypt_test (ks : List M128) (hks : 28 ≤ ks.length) :
    aes256_encrypt (aes256_load_key_encrypt_only test_key ks) test_plain = test_cipher := by
  rw [← aes256_encrypt_test_zero]
  exact aes256_encrypt_congr
    (fun j hj => aes256_load_key_encrypt_only_entry test_key hks (by decide) hj) test_plain

theorem aes256_encrypt_test_witness :
    28 ≤ zero_schedule.length ∧
      aes256_encrypt (aes256_load_key_encrypt_only test_key zero_schedule) test_plain =
        test_cipher :=
  ⟨by decide, aes256_encrypt_test zero_schedule (by decide)⟩

set_option maxRecDepth 100000 in
theorem aes256_keygen_tests_zero :
    (aes256_load_key zero_key zero_schedule).take 15 = test_subkeys := by
  decide!

/-- C7: AES-256 key-schedule conformance vector (`aes256_keygen_tests`). For the all-zero
32-byte key, entries 0..14 written by `aes256_load_key` into any array of at least 28 entries
are the constants `key0` .. `key14` of the test. -/
theorem aes256_keygen_tests (ks : List M128) (hks : 28 ≤ ks.length) :
    (aes256_load_key zero_key ks).take 15 = test_subkeys := by
  rw [← aes256_keygen_tests_zero, aes256_load_key_eq zero_key hks,
    aes256_load_key_eq zero_key (by decide : 28 ≤ zero_schedule.length)]
  rfl

theorem aes256_keygen_tests_witness :
    28 ≤ zero_schedule.length ∧ (aes256_load_key zero_key zero_schedule).take 15 = test_subkeys :=
  ⟨by decide, aes256_keygen_tests zero_schedule (by decide)⟩

set_option maxRecDepth 100000 in
theorem aes256_decrypt_test_zero :
    aes256_decrypt (aes256_load_key test_key zero_schedule) test_cipher = test_plain := by
  decide!

/-- C9: AES-256 decryption undoes encryption. For every 32-byte key `K`, every 16-byte block
`P` and every schedule array of at least 28 entries, decrypting the encryption of `P` under
the schedule written by `aes256_load_key` for `K` gives `P` back; and under the key
`00 01 .. 1f` the ciphertext `8e a2 b7 ca 51 67 45 bf ea fc 49 90 4b 49 60 89` decrypts to
`00 11 22 33 44 55 66 77 88 99 aa bb cc dd ee ff` (`aes256_decrypt_test`). -/
theorem aes256_decrypt_encrypt (K P : List Nat) (ks : List M128) (hK : Bytes 32 K)
    (hP : Bytes 16 P) (hks : 28 ≤ ks.length) :
    aes256_decrypt (aes256_load_key K ks) (aes256_encrypt (aes256_load_key K ks) P) = P ∧
      aes256_decrypt (aes256_load_key test_key ks) test_cipher = test_plain := by
  refine ⟨decrypt_encrypt_of_good _ (aes256_load_key_good hK hks) P hP, ?_⟩
  rw [← aes256_decrypt_test_zero]
  exact aes256_decrypt_congr (aes256_load_key_entry test_key hks (by decide) (by decide))
    (fun j hj => aes256_load_key_entry test_key hks (by decide) (by omega)) test_cipher

theorem aes256_decrypt_encrypt_witness :
    Bytes 32 test_key ∧ Bytes 16 test_plain ∧ 28 ≤ zero_schedule.length ∧
      aes256_decrypt (aes256_load_key test_key zero_schedule)
        (aes256_encrypt (aes256_load_key test_key zero_schedule) test_plain) = test_plain ∧
      aes256_decrypt (aes256_load_key test_key zero_schedule) test_cipher = test_plain :=
  ⟨by decide, by decide, by decide,
    aes256_decrypt_encrypt test_key test_plain zero_schedule (by decide) (by decide) (by decide)⟩


/-- Entries 0..14 after `aes256_load_key` are those of `aes256_load_key_encrypt_only`. -/
theorem aes256_load_key_entry_low (key : List Nat) {ks : List M128} (h : 28 ≤ ks.length)
    {i : Nat} (hi : i ≤ 14) :
    entry (aes256_load_key key ks) i = entry (aes256_load_key_encrypt_only key ks) i := by
  rw [aes256_load_key_eq key h, aes256_load_key_encrypt_only_eq key h]
  interval_cases i <;> rfl

theorem dec_rounds_eq_fips (S W : List M128) (hS : GoodSchedule S)
    (hW : ∀ i, i ≤ 14 → entry S i = entry W i) (m : M128) :
    ∀ n, n ≤ 13 → dec_rounds S n m = fips_inv_rounds W n m := by
  intro n
  induction n with
  | zero => intro _; rfl
  | succ n ih =>
    intro hn
    have e : 14 - (n + 1) = 13 - n := by omega
    rw [dec_rounds, fips_inv_rounds, ih (by omega), hS.2 (n + 1) (by omega) hn, e,
      aesdec_imc _ _ (hS.1 (13 - n) (by omega)).1, hW (13 - n) (by omega)]
    rfl

/-- C10: AES-256 decryption equals the FIPS-197 inverse cipher. For every 32-byte key `K`,
16-byte block `C` and schedule array of at least 28 entries, `aes256_decrypt` on the schedule
of `aes256_load_key` (the equivalent inverse cipher on the `InvMixColumns`-preprocessed
entries 15..27) equals the straightforward `InvCipher` of FIPS-197 run on the unmodified
encryption round keys written by `aes256_load_key_encrypt_only`; and `aes256_decrypt` reads
only entries 0 and 14..27: any schedule agreeing on those gives the same result. -/
theorem aes256_decrypt_eq_fips_inv_cipher (K C : List Nat) (ks : List M128) (hK : Bytes 32 K)
    (hC : Bytes 16 C) (hks : 28 ≤ ks.length) :
    aes256_decrypt (aes256_load_key K ks) C =
        fips_inv_cipher (aes256_load_key_encrypt_only K ks) C ∧
      ∀ S : List M128, entry S 0 = entry (aes256_load_key K ks) 0 →
        (∀ j, j ≤ 13 → entry S (14 + j) = entry (aes256_load_key K ks) (14 + j)) →
        aes256_decrypt S C = aes256_decrypt (aes256_load_key K ks) C := by
  refine ⟨?_, fun S h0 h => aes256_decrypt_congr h0 h C⟩
  have hS := aes256_load_key_good hK hks
  have hW : ∀ i, i ≤ 14 → entry (aes256_load_key K ks) i =
      entry (aes256_load_key_encrypt_only K ks) i :=
    fun i hi => aes256_load_key_entry_low K hks hi
  rw [aes256_decrypt_eq, loadu_zero hC.1, dec_rounds_eq_fips _ _ hS hW _ 13 (le_refl _),
    hW 14 (by omega), hW 0 (by omega)]
  rfl

theorem aes256_decrypt_eq_fips_inv_cipher_witness :
    Bytes 32 test_key ∧ Bytes 16 test_cipher ∧ 28 ≤ zero_schedule.length ∧
      (aes256_decrypt (aes256_load_key test_key zero_schedule) test_cipher =
        fips_inv_cipher (aes256_load_key_encrypt_only test_key zero_schedule) test_cipher ∧
      ∀ S : List M128, entry S 0 = entry (aes256_load_key test_key zero_schedule) 0 →
        (∀ j, j ≤ 13 → entry S (14 + j) = entry (aes256_load_key test_key zero_schedule) (14 + j)) →
        aes256_decrypt S test_cipher =
          aes256_decrypt (aes256_load_key test_key zero_schedule) test_cipher) :=
  ⟨by decide, by decide, by decide,
    aes256_decrypt_eq_fips_inv_cipher test_key test_cipher zero_schedule (by decide) (by decide)
      (by decide)⟩


/-- `KEY_256_ASSIST_1` after `_mm_aeskeygenassist_si128`, lane by lane: the FIPS-197 recurrence
for the four words of an even round key. -/
theorem KEY_256_ASSIST_1_lanes {t1 t3 : M128} (h1 : t1.length = 16) (h3 : t3.length = 16)
    (rc : Nat) :
    lane (KEY_256_ASSIST_1 t1 (_mm_aeskeygenassist_si128 t3 rc)).1 0 =
        xor_word (xor_word (lane t1 0) (SubWord (RotWord (lane t3 3)))) [rc, 0, 0, 0] ∧
      lane (KEY_256_ASSIST_1 t1 (_mm_aeskeygenassist_si128 t3 rc)).1 1 =
        xor_word (lane t1 1) (lane (KEY_256_ASSIST_1 t1 (_mm_aeskeygenassist_si128 t3 rc)).1 0) ∧
      lane (KEY_256_ASSIST_1 t1 (_mm_aeskeygenassist_si128 t3 rc)).1 2 =
        xor_word (lane t1 2) (lane (KEY_256_ASSIST_1 t1 (_mm_aeskeygenassist_si128 t3 rc)).1 1) ∧
      lane (KEY_256_ASSIST_1 t1 (_mm_aeskeygenassist_si128 t3 rc)).1 3 =
        xor_word (lane t1 3) (lane (KEY_256_ASSIST_1 t1 (_mm_aeskeygenassist_si128 t3 rc)).1 2) := by
  obtain ⟨a0, a1, a2, a3, a4, a5, a6, a7, a8, a9, a10, a11, a12, a13, a14, a15, rfl⟩ :=
    length_16 h1
  obtain ⟨b0, b1, b2, b3, b4, b5, b6, b7, b8, b9, b10, b11, b12, b13, b14, b15, rfl⟩ :=
    length_16 h3
  simp only [KEY_256_ASSIST_1, _mm_aeskeygenassist_si128, _mm_shuffle_epi32, _mm_slli_si128,
    _mm_xor_si128, lane, SubWord, RotWord, xor_word, List.replicate, List.cons_append,
    List.nil_append, List.take, List.drop, List.map, List.zipWith, Nat.reduceMul, Nat.reduceDiv,
    Nat.reduceMod, Nat.xor_zero, Nat.zero_xor, List.append_nil, List.cons.injEq, and_true]
  simp only [Nat.xor_assoc, and_self]

/-- `KEY_256_ASSIST_2`, lane by lane: the FIPS-197 recurrence for the four words of an odd
round key. -/
theorem KEY_256_ASSIST_2_lanes {t1 t3 : M128} (h1 : t1.length = 16) (h3 : t3.length = 16) :
    lane (KEY_256_ASSIST_2 t1 t3) 0 = xor_word (lane t3 0) (SubWord (lane t1 3)) ∧
      lane (KEY_256_ASSIST_2 t1 t3) 1 = xor_word (lane t3 1) (lane (KEY_256_ASSIST_2 t1 t3) 0) ∧
      lane (KEY_256_ASSIST_2 t1 t3) 2 = xor_word (lane t3 2) (lane (KEY_256_ASSIST_2 t1 t3) 1) ∧
      lane (KEY_256_ASSIST_2 t1 t3) 3 = xor_word (lane t3 3) (lane (KEY_256_ASSIST_2 t1 t3) 2) := by
  obtain ⟨a0, a1, a2, a3, a4, a5, a6, a7, a8, a9, a10, a11, a12, a13, a14, a15, rfl⟩ :=
    length_16 h1
  obtain ⟨b0, b1, b2, b3, b4, b5, b6, b7, b8, b9, b10, b11, b12, b13, b14, b15, rfl⟩ :=
    length_16 h3
  simp only [KEY_256_ASSIST_2, _mm_aeskeygenassist_si128, _mm_shuffle_epi32, _mm_slli_si128,
    _mm_xor_si128, lane, SubWord, RotWord, xor_word, List.replicate, List.cons_append,
    List.nil_append, List.take, List.drop, List.map, List.zipWith, Nat.reduceMul, Nat.reduceDiv,
    Nat.reduceMod, Nat.xor_zero, Nat.zero_xor, List.append_nil, List.cons.injEq, and_true]
  simp only [Nat.xor_assoc, and_self]

/-- The FIPS-197 recurrence between consecutive values of `(temp1, temp3)`. -/
theorem key_pair_lanes {key : List Nat} (hk : Bytes 32 key) (r : Nat) :
    (lane (key_pair key (r + 1)).1 0 =
        xor_word (xor_word (lane (key_pair key r).1 0) (SubWord (RotWord (lane (key_pair key r).2 3))))
          [assist_rcon r, 0, 0, 0] ∧
      lane (key_pair key (r + 1)).1 1 =
        xor_word (lane (key_pair key r).1 1) (lane (key_pair key (r + 1)).1 0) ∧
      lane (key_pair key (r + 1)).1 2 =
        xor_word (lane (key_pair key r).1 2) (lane (key_pair key (r + 1)).1 1) ∧
      lane (key_pair key (r + 1)).1 3 =
        xor_word (lane (key_pair key r).1 3) (lane (key_pair key (r + 1)).1 2)) ∧
    (lane (key_pair key (r + 1)).2 0 =
        xor_word (lane (key_pair key r).2 0) (SubWord (lane (key_pair key (r + 1)).1 3)) ∧
      lane (key_pair key (r + 1)).2 1 =
        xor_word (lane (key_pair key r).2 1) (lane (key_pair key (r + 1)).2 0) ∧
      lane (key_pair key (r + 1)).2 2 =
        xor_word (lane (key_pair key r).2 2) (lane (key_pair key (r + 1)).2 1) ∧
      lane (key_pair key (r + 1)).2 3 =
        xor_word (lane (key_pair key r).2 3) (lane (key_pair key (r + 1)).2 2)) := by
  have hb := key_pair_bytes hk r
  have hb1 := key_pair_bytes hk (r + 1)
  exact ⟨KEY_256_ASSIST_1_lanes hb.1.1 hb.2.1 (assist_rcon r),
    KEY_256_ASSIST_2_lanes hb1.1.1 hb.2.1⟩

theorem length_32 {α : Type} {l : List α} (h : l.length = 32) :
    ∃ k0 k1 k2 k3 k4 k5 k6 k7 k8 k9 k10 k11 k12 k13 k14 k15 k16 k17 k18 k19 k20 k21 k22 k23 k24
      k25 k26 k27 k28 k29 k30 k31 : α,
      l = [k0, k1, k2, k3, k4, k5, k6, k7, k8, k9, k10, k11, k12, k13, k14, k15, k16, k17, k18,
        k19, k20, k21, k22, k23, k24, k25, k26, k27, k28, k29, k30, k31] := by
  match l, h with
  | [k0, k1, k2, k3, k4, k5, k6, k7, k8, k9, k10, k11, k12, k13, k14, k15, k16, k17, k18, k19,
      k20, k21, k22, k23, k24, k25, k26, k27, k28, k29, k30, k31], _ =>
    exact ⟨k0, k1, k2, k3, k4, k5, k6, k7, k8, k9, k10, k11, k12, k13, k14, k15, k16, k17, k18,
      k19, k20, k21, k22, k23, k24, k25, k26, k27, k28, k29, k30, k31, rfl⟩

theorem schedule_word_key (K : List Nat) (ks : List M128) (hK : K.length = 32)
    (hks : 28 ≤ ks.length) (i : Nat) (hi : i < 8) :
    schedule_word (aes256_load_key_encrypt_only K ks) i = key_word K i := by
  rw [aes256_load_key_encrypt_only_eq K hks]
  obtain ⟨k0, k1, k2, k3, k4, k5, k6, k7, k8, k9, k10, k11, k12, k13, k14, k15, k16, k17, k18,
    k19, k20, k21, k22, k23, k24, k25, k26, k27, k28, k29, k30, k31, rfl⟩ := length_32 hK
  interval_cases i <;> rfl

theorem schedule_word_rec (K : List Nat) (ks : List M128) (hK : Bytes 32 K)
    (hks : 28 ≤ ks.length) (i : Nat) (h8 : 8 ≤ i) (h60 : i < 60) :
    schedule_word (aes256_load_key_encrypt_only K ks) i =
      if i % 8 = 0 then
        xor_word (xor_word (schedule_word (aes256_load_key_encrypt_only K ks) (i - 8))
          (SubWord (RotWord (schedule_word (aes256_load_key_encrypt_only K ks) (i - 1)))))
          (Rcon (i / 8))
      else if i % 8 = 4 then
        xor_word (schedule_word (aes256_load_key_encrypt_only K ks) (i - 8))
          (SubWord (schedule_word (aes256_load_key_encrypt_only K ks) (i - 1)))
      else
        xor_word (schedule_word (aes256_load_key_encrypt_only K ks) (i - 8))
          (schedule_word (aes256_load_key_encrypt_only K ks) (i - 1)) := by
  rw [aes256_load_key_encrypt_only_eq K hks]
  interval_cases i
  · exact (key_pair_lanes hK 0).1.1
  · exact (key_pair_lanes hK 0).1.2.1
  · exact (key_pair_lanes hK 0).1.2.2.1
  · exact (key_pair_lanes hK 0).1.2.2.2
  · exact (key_pair_lanes hK 0).2.1
  · exact (key_pair_lanes hK 0).2.2.1
  · exact (key_pair_lanes hK 0).2.2.2.1
  · exact (key_pair_lanes hK 0).2.2.2.2
  · exact (key_pair_lanes hK 1).1.1
  · exact (key_pair_lanes hK 1).1.2.1
  · exact (key_pair_lanes hK 1).1.2.2.1
  · exact (key_pair_lanes hK 1).1.2.2.2
  · exact (key_pair_lanes hK 1).2.1
  · exact (key_pair_lanes hK 1).2.2.1
  · exact (key_pair_lanes hK 1).2.2.2.1
  · exact (key_pair_lanes hK 1).2.2.2.2
  · exact (key_pair_lanes hK 2).1.1
  · exact (key_pair_lanes hK 2).1.2.1
  · exact (key_pair_lanes hK 2).1.2.2.1
  · exact (key_pair_lanes hK 2).1.2.2.2
  · exact (key_pair_lanes hK 2).2.1
  · exact (key_pair_lanes hK 2).2.2.1
  · exact (key_pair_lanes hK 2).2.2.2.1
  · exact (key_pair_lanes hK 2).2.2.2.2
  · exact (key_pair_lanes hK 3).1.1
  · exact (key_pair_lanes hK 3).1.2.1
  · exact (key_pair_lanes hK 3).1.2.2.1
  · exact (key_pair_lanes hK 3).1.2.2.2
  · exact (key_pair_lanes hK 3).2.1
  · exact (key_pair_lanes hK 3).2.2.1
  · exact (key_pair_lanes hK 3).2.2.2.1
  · exact (key_pair_lanes hK 3).2.2.2.2
  · exact (key_pair_lanes hK 4).1.1
  · exact (key_pair_lanes hK 4).1.2.1
  · exact (key_pair_lanes hK 4).1.2.2.1
  · exact (key_pair_lanes hK 4).1.2.2.2
  · exact (key_pair_lanes hK 4).2.1
  · exact (key_pair_lanes hK 4).2.2.1
  · exact (key_pair_lanes hK 4).2.2.2.1
  · exact (key_pair_lanes hK 4).2.2.2.2
  · exact (key_pair_lanes hK 5).1.1
  · exact (key_pair_lanes hK 5).1.2.1
  · exact (key_pair_lanes hK 5).1.2.2.1
  · exact (key_pair_lanes hK 5).1.2.2.2
  · exact (key_pair_lanes hK 5).2.1
  · exact (key_pair_lanes hK 5).2.2.1
  · exact (key_pair_lanes hK 5).2.2.2.1
  · exact (key_pair_lanes hK 5).2.2.2.2
  · exact (key_pair_lanes hK 6).1.1
  · exact (key_pair_lanes hK 6).1.2.1
  · exact (key_pair_lanes hK 6).1.2.2.1
  · exact (key_pair_lanes hK 6).1.2.2.2

/-- C8: the AES-256 key schedule is the FIPS-197 `KeyExpansion`. For every 32-byte key `K` and
schedule array of at least 28 entries, reading entries 0..14 written by
`aes256_load_key_encrypt_only` as the 60 four-byte words `w[0..59]`, `w[0..7]` are the words
of `K`, and for `i` in `[8, 60)`: `w[i] = w[i-8] ^ SubWord (RotWord w[i-1]) ^ Rcon[i/8]` when
`i mod 8 = 0`, `w[i] = w[i-8] ^ SubWord w[i-1]` when `i mod 8 = 4`, and
`w[i] = w[i-8] ^ w[i-1]` otherwise, with `Rcon[1..7] = 01, 02, 04, 08, 10, 20, 40` in the
first byte of the word. -/
theorem aes256_key_expansion (K : List Nat) (ks : List M128) (hK : Bytes 32 K)
    (hks : 28 ≤ ks.length) :
    (∀ i, i < 8 → schedule_word (aes256_load_key_encrypt_only K ks) i = key_word K i) ∧
    (∀ i, 8 ≤ i → i < 60 →
      schedule_word (aes256_load_key_encrypt_only K ks) i =
        if i % 8 = 0 then
          xor_word (xor_word (schedule_word (aes256_load_key_encrypt_only K ks) (i - 8))
            (SubWord (RotWord (schedule_word (aes256_load_key_encrypt_only K ks) (i - 1)))))
            (Rcon (i / 8))
        else if i % 8 = 4 then
          xor_word (schedule_word (aes256_load_key_encrypt_only K ks) (i - 8))
            (SubWord (schedule_word (aes256_load_key_encrypt_only K ks) (i - 1)))
        else
          xor_word (schedule_word (aes256_load_key_encrypt_only K ks) (i - 8))
            (schedule_word (aes256_load_key_encrypt_only K ks) (i - 1))) ∧
    [Rcon 1, Rcon 2, Rcon 3, Rcon 4, Rcon 5, Rcon 6, Rcon 7] =
      [[0x01, 0, 0, 0], [0x02, 0, 0, 0], [0x04, 0, 0, 0], [0x08, 0, 0, 0], [0x10, 0, 0, 0],
        [0x20, 0, 0, 0], [0x40, 0, 0, 0]] :=
  ⟨schedule_word_key K ks hK.1 hks, schedule_word_rec K ks hK hks, rfl⟩

theorem aes256_key_expansion_witness :
    Bytes 32 test_key ∧ 28 ≤ zero_schedule.length ∧
    (∀ i, i < 8 →
      schedule_word (aes256_load_key_encrypt_only test_key zero_schedule) i = key_word test_key i) ∧
    (∀ i, 8 ≤ i → i < 60 →
      schedule_word (aes256_load_key_encrypt_only test_key zero_schedule) i =
        if i % 8 = 0 then
          xor_word (xor_word (schedule_word (aes256_load_key_encrypt_only test_key zero_schedule)
            (i - 8))
            (SubWord (RotWord (schedule_word (aes256_load_key_encrypt_only test_key zero_schedule)
              (i - 1)))))
            (Rcon (i / 8))
        else if i % 8 = 4 then
          xor_word (schedule_word (aes256_load_key_encrypt_only test_key zero_schedule) (i - 8))
            (SubWord (schedule_word (aes256_load_key_encrypt_only test_key zero_schedule) (i - 1)))
        else
          xor_word (schedule_word (aes256_load_key_encrypt_only test_key zero_schedule) (i - 8))
            (schedule_word (aes256_load_key_encrypt_only test_key zero_schedule) (i - 1))) ∧
    [Rcon 1, Rcon 2, Rcon 3, Rcon 4, Rcon 5, Rcon 6, Rcon 7] =
      [[0x01, 0, 0, 0], [0x02, 0, 0, 0], [0x04, 0, 0, 0], [0x08, 0, 0, 0], [0x10, 0, 0, 0],
        [0x20, 0, 0, 0], [0x40, 0, 0, 0]] :=
  ⟨by decide, by decide, aes256_key_expansion test_key zero_schedule (by decide) (by decide)⟩


/-! ## Key derivation and mask -/

theorem range_map_getD (f : Nat → Nat) {n i : Nat} (hi : i < n) :
    ((List.range n).map f).getD i 0 = f i := by
  rw [List.getD_eq_getElem?_getD, List.getElem?_map, List.getElem?_range hi]
  rfl

/-- C4: the mask rule. For every 32-byte key `K`, every state `s` in `[0, 255)` and every `i`
in `[0, 32)`, byte `i` of `key_xor_prng (K, s)` is `K[i] XOR prng_sequence[(s + 31 - i) mod 255]`. -/
theorem key_xor_prng_rule (K : List Nat) (s i : Nat) (_hK : Bytes 32 K) (hs : s < 255)
    (hi : i < 32) :
    (key_xor_prng K s).getD i 0 = K.getD i 0 ^^^ prng_sequence.getD ((s + 31 - i) % 255) 0 := by
  have e : (s + 31 + 2 ^ 64 - i) % 2 ^ 64 = s + 31 - i := by omega
  rw [key_xor_prng, range_map_getD _ hi, e]

theorem key_xor_prng_rule_witness :
    Bytes 32 test_key ∧ 239 < 255 ∧ 5 < 32 ∧
      (key_xor_prng test_key 239).getD 5 0 =
        test_key.getD 5 0 ^^^ prng_sequence.getD ((239 + 31 - 5) % 255) 0 :=
  ⟨by decide, by decide, by decide,
    key_xor_prng_rule test_key 239 5 (by decide) (by decide) (by decide)⟩

theorem store_load_u64 (v0 v1 v2 v3 v4 v5 v6 v7 : Nat) (rest : List Nat) (h0 : v0 < 256)
    (h1 : v1 < 256) (h2 : v2 < 256) (h3 : v3 < 256) (h4 : v4 < 256) (h5 : v5 < 256)
    (h6 : v6 < 256) (h7 : v7 < 256) :
    store_u64 (load_u64 (v0 :: v1 :: v2 :: v3 :: v4 :: v5 :: v6 :: v7 :: rest) 0) =
      [v0, v1, v2, v3, v4, v5, v6, v7] := by
  have hr : List.range 8 = [0, 1, 2, 3, 4, 5, 6, 7] := by decide
  simp only [store_u64, load_u64, hr, List.drop_zero, List.take_succ_cons, List.take_zero,
    List.foldr_cons, List.foldr_nil, List.map_cons, List.map_nil, Nat.shiftRight_eq_div_pow,
    List.cons.injEq, and_true]
  refine ⟨?_, ?_, ?_, ?_, ?_, ?_, ?_, ?_⟩ <;> omega

theorem hex_digit_eq : ∀ v, v < 16 →
    (if v < 0x0a then v + 0x30 else v + (0x61 - 0x0a)) = hex_digit v := by
  decide

theorem hex_digit_lt (v : Nat) : hex_digit v < 256 := by
  unfold hex_digit
  by_cases h : v < 16
  · interval_cases v <;> decide
  · rw [List.getD_eq_default _ _ (by simpa using h)]
    norm_num

theorem nibble_lt (x : Nat) : x &&& 0xf < 16 :=
  Nat.and_lt_two_pow x (by norm_num : 0xf < 2 ^ 4)

/-- The 32 bytes of `get_key_ascii_bytes`, digit by digit. -/
theorem get_key_ascii_bytes_eq (c : Nat) :
    get_key_ascii_bytes c =
      [hex_digit ((c >>> 28) &&& 0xf), hex_digit ((c >>> 24) &&& 0xf),
        hex_digit ((c >>> 20) &&& 0xf), hex_digit ((c >>> 16) &&& 0xf),
        hex_digit ((c >>> 12) &&& 0xf), hex_digit ((c >>> 8) &&& 0xf),
        hex_digit ((c >>> 4) &&& 0xf), hex_digit ((c >>> 0) &&& 0xf),
        hex_digit ((c >>> 28) &&& 0xf), hex_digit ((c >>> 24) &&& 0xf),
        hex_digit ((c >>> 20) &&& 0xf), hex_digit ((c >>> 16) &&& 0xf),
        hex_digit ((c >>> 12) &&& 0xf), hex_digit ((c >>> 8) &&& 0xf),
        hex_digit ((c >>> 4) &&& 0xf), hex_digit ((c >>> 0) &&& 0xf),
        hex_digit ((c >>> 28) &&& 0xf), hex_digit ((c >>> 24) &&& 0xf),
        hex_digit ((c >>> 20) &&& 0xf), hex_digit ((c >>> 16) &&& 0xf),
        hex_digit ((c >>> 12) &&& 0xf), hex_digit ((c >>> 8) &&& 0xf),
        hex_digit ((c >>> 4) &&& 0xf), hex_digit ((c >>> 0) &&& 0xf),
        hex_digit ((c >>> 28) &&& 0xf), hex_digit ((c >>> 24) &&& 0xf),
        hex_digit ((c >>> 20) &&& 0xf), hex_digit ((c >>> 16) &&& 0xf),
        hex_digit ((c >>> 12) &&& 0xf), hex_digit ((c >>> 8) &&& 0xf),
        hex_digit ((c >>> 4) &&& 0xf), hex_digit ((c >>> 0) &&& 0xf)] := by
  have hr : List.range 8 = [0, 1, 2, 3, 4, 5, 6, 7] := by decide
  have hz : List.replicate (8 + 1) 0 = [0, 0, 0, 0, 0, 0, 0, 0, 0] := by decide
  simp only [get_key_ascii_bytes, hr, hz, List.foldl_cons, List.foldl_nil, Nat.reduceSub,
    List.set_cons_zero, List.set_cons_succ, ← Nat.shiftRight_add, Nat.reduceAdd,
    hex_digit_eq _ (nibble_lt _)]
  rw [store_load_u64 _ _ _ _ _ _ _ _ _ (hex_digit_lt _) (hex_digit_lt _) (hex_digit_lt _)
    (hex_digit_lt _) (hex_digit_lt _) (hex_digit_lt _) (hex_digit_lt _) (hex_digit_lt _)]
  simp only [Nat.shiftRight_zero, List.cons_append, List.nil_append]

/-- C5: the AsciiHex derivation. For every 32-bit counter `c` and every `i` in `[0, 32)`,
byte `i` of `get_key_ascii_bytes (c)` is the ASCII code of the lowercase hexadecimal digit of
the nibble `(c >> (4 * (7 - (i mod 8)))) & 0xf`; for `c = 0x14efa8ff` the key is
`31 34 65 66 61 38 66 66` repeated four times. -/
theorem get_key_ascii_bytes_digits (c i : Nat) (_hc : c < 2 ^ 32) (hi : i < 32) :
    (get_key_ascii_bytes c).getD i 0 = hex_digit ((c >>> (4 * (7 - i % 8))) &&& 0xf) ∧
      get_key_ascii_bytes 0x14efa8ff =
        [0x31, 0x34, 0x65, 0x66, 0x61, 0x38, 0x66, 0x66, 0x31, 0x34, 0x65, 0x66, 0x61, 0x38,
          0x66, 0x66, 0x31, 0x34, 0x65, 0x66, 0x61, 0x38, 0x66, 0x66, 0x31, 0x34, 0x65, 0x66,
          0x61, 0x38, 0x66, 0x66] := by
  refine ⟨?_, by decide⟩
  rw [get_key_ascii_bytes_eq]
  interval_cases i <;> rfl

theorem get_key_ascii_bytes_digits_witness :
    0x14efa8ff < 2 ^ 32 ∧ 9 < 32 ∧
      ((get_key_ascii_bytes 0x14efa8ff).getD 9 0 =
          hex_digit ((0x14efa8ff >>> (4 * (7 - 9 % 8))) &&& 0xf) ∧
        get_key_ascii_bytes 0x14efa8ff =
          [0x31, 0x34, 0x65, 0x66, 0x61, 0x38, 0x66, 0x66, 0x31, 0x34, 0x65, 0x66, 0x61, 0x38,
            0x66, 0x66, 0x31, 0x34, 0x65, 0x66, 0x61, 0x38, 0x66, 0x66, 0x31, 0x34, 0x65, 0x66,
            0x61, 0x38, 0x66, 0x66]) :=
  ⟨by decide, by decide, get_key_ascii_bytes_digits 0x14efa8ff 9 (by decide) (by decide)⟩


/-! ## Search driver -/

theorem is_zero_block_iff {p : List Nat} (h : p.length = 16) :
    is_zero_block p = true ↔ p = List.replicate 16 0 := by
  obtain ⟨a0, a1, a2, a3, a4, a5, a6, a7, a8, a9, a10, a11, a12, a13, a14, a15, rfl⟩ := length_16 h
  simp only [is_zero_block, load_u64, List.drop_zero, List.drop_succ_cons, List.take_succ_cons,
    List.take_zero, List.foldr_cons, List.foldr_nil, Bool.and_eq_true, beq_iff_eq,
    List.replicate, List.cons.injEq, and_true]
  omega

theorem aes256_decrypt_length (S : List M128) (C : List Nat) (h0 : (entry S 0).length = 16) :
    (aes256_decrypt S C).length = 16 := by
  rw [aes256_decrypt_eq, _mm_aesdeclast_si128]
  exact xor_length (inv_half_bytes _).1 h0

theorem key_xor_prng_length (key : List Nat) (s : Nat) : (key_xor_prng key s).length = 32 := by
  simp [key_xor_prng]

theorem aes256_load_key_length (key : List Nat) {ks : List M128} (h : 28 ≤ ks.length) :
    28 ≤ (aes256_load_key key ks).length := by
  rw [aes256_load_key_eq key h, List.length_append]
  exact Nat.le_add_right _ _

theorem aes256_load_key_entry_zero (key : List Nat) {ks : List M128} (h : 28 ≤ ks.length)
    (hk : key.length = 32) : (entry (aes256_load_key key ks) 0).length = 16 := by
  rw [aes256_load_key_eq key h]
  show (_mm_loadu_si128 key 0).length = 16
  simp [_mm_loadu_si128, hk]

theorem zero_schedule_length : 28 ≤ zero_schedule.length := by decide

/-- What the array held before `aes256_load_key` does not change the decryption. -/
theorem aes256_decrypt_load_key (key C : List Nat) {ks : List M128} (h : 28 ≤ ks.length) :
    aes256_decrypt (aes256_load_key key ks) C =
      aes256_decrypt (aes256_load_key key zero_schedule) C :=
  aes256_decrypt_congr (aes256_load_key_entry key h zero_schedule_length (by decide))
    (fun j hj => aes256_load_key_entry key h zero_schedule_length (by omega)) C

/-- The zero test of the driver on a freshly loaded schedule is the hit predicate. -/
theorem is_zero_block_decrypt (ct key : List Nat) {ks : List M128} (h : 28 ≤ ks.length)
    (hk : key.length = 32) :
    is_zero_block (aes256_decrypt (aes256_load_key key ks) ct) = is_hit ct key := by
  have hl := aes256_decrypt_length (aes256_load_key key ks) ct (aes256_load_key_entry_zero key h hk)
  rw [Bool.eq_iff_iff, is_zero_block_iff hl, aes256_decrypt_load_key key ct h, is_hit,
    decide_eq_true_iff]

theorem try_state_eq (ct key : List Nat) (c : Nat) (run : Run (Nat × Nat)) (s : Nat)
    (hs : s < 256) (h : 28 ≤ run.key_schedule.length) :
    (try_state ct key c run s).key_schedule =
        aes256_load_key (key_xor_prng key s) run.key_schedule ∧
      (try_state ct key c run s).evaluated = run.evaluated ++ [(c, s)] ∧
      (try_state ct key c run s).printed =
        run.printed ++ [key_xor_prng key s].filter (is_hit ct) := by
  have e : s % 256 = s := Nat.mod_eq_of_lt hs
  simp only [try_state, e, is_zero_block_decrypt ct _ h (key_xor_prng_length key s)]
  cases hh : is_hit ct (key_xor_prng key s) <;> simp [List.filter, hh]

theorem foldl_try_state (ct key : List Nat) (c : Nat) :
    ∀ (l : List Nat) (run : Run (Nat × Nat)), 28 ≤ run.key_schedule.length →
      (∀ s ∈ l, s < 256) →
      (l.foldl (try_state ct key c) run).evaluated =
          run.evaluated ++ l.map (fun s => (c, s)) ∧
        (l.foldl (try_state ct key c) run).printed =
          run.printed ++ (l.map (key_xor_prng key)).filter (is_hit ct) := by
  intro l
  induction l with
  | nil => intro run _ _; simp
  | cons s l ih =>
    intro run h hl
    obtain ⟨h1, h2, h3⟩ := try_state_eq ct key c run s (hl s (List.mem_cons_self _ _)) h
    have hlen : 28 ≤ (try_state ct key c run s).key_schedule.length := by
      rw [h1]
      exact aes256_load_key_length (key_xor_prng key s) h
    obtain ⟨i1, i2⟩ := ih (try_state ct key c run s) hlen
      (fun x hx => hl x (List.mem_cons_of_mem _ hx))
    rw [List.foldl_cons]
    refine ⟨i1.trans ?_, i2.trans ?_⟩
    · rw [h2, List.map_cons, List.append_assoc, List.singleton_append]
    · rw [h3, List.map_cons, List.append_assoc, List.filter_cons, List.filter_cons,
        List.filter_nil]
      cases is_hit ct (key_xor_prng key s) <;> simp

theorem try_counter_eq (ct : List Nat) (c : Nat) (run : Run (Nat × Nat)) :
    (try_counter ct c run).evaluated =
        run.evaluated ++ (List.range 255).map (fun s => (c, s)) ∧
      (try_counter ct c run).printed = run.printed ++
        (((List.range 255).map (fun s => (c, s))).map candidate_key).filter (is_hit ct) := by
  have hk : (candidate_key ∘ fun s => (c, s)) = key_xor_prng (get_key_ascii_bytes c) := by
    funext s
    rfl
  have hr : ∀ s ∈ List.range 255, s < 256 := fun s hs => by
    have := List.mem_range.mp hs
    omega
  rw [List.map_map, hk, try_counter]
  exact foldl_try_state ct _ c _
    { key_schedule := zero_schedule, evaluated := run.evaluated, printed := run.printed }
    zero_schedule_length hr

theorem counter_loop_eq {α : Type} (body : Nat → Run α → Run α) :
    ∀ (n c : Nat) (run : Run α), c + n = UINT_MAX →
      counter_loop body c run = (List.range' c n).foldl (fun t k => body k t) run := by
  intro n
  induction n with
  | zero =>
    intro c run h
    rw [counter_loop, if_neg (by omega)]
    rfl
  | succ n ih =>
    intro c run h
    have hlt : c < UINT_MAX := by omega
    have e : (c + 1) % 2 ^ 32 = c + 1 := by
      apply Nat.mod_eq_of_lt
      simp only [UINT_MAX] at hlt
      omega
    rw [counter_loop, if_pos hlt, e, ih (c + 1) _ (by omega)]
    rfl

theorem foldl_try_counter (ct : List Nat) :
    ∀ (l : List Nat) (run : Run (Nat × Nat)),
      (l.foldl (fun t k => try_counter ct k t) run).evaluated =
          run.evaluated ++ l.flatMap (fun c => (List.range 255).map (fun s => (c, s))) ∧
        (l.foldl (fun t k => try_counter ct k t) run).printed =
          run.printed ++ ((l.flatMap (fun c => (List.range 255).map (fun s => (c, s)))).map
            candidate_key).filter (is_hit ct) := by
  intro l
  induction l with
  | nil => intro run; simp
  | cons c l ih =>
    intro run
    have h1 := try_counter_eq ct c run
    have h2 := ih (try_counter ct c run)
    rw [List.foldl_cons]
    refine ⟨h2.1.trans ?_, h2.2.trans ?_⟩
    · rw [h1.1, List.flatMap_cons, List.append_assoc]
    · rw [h1.2, List.flatMap_cons, List.map_append, List.filter_append, List.append_assoc]

theorem range_two_pow_32 : List.range (2 ^ 32) = List.range' 0 UINT_MAX ++ [UINT_MAX] := by
  have e : (2 : Nat) ^ 32 = UINT_MAX + 1 := by norm_num [UINT_MAX]
  rw [e, List.range_succ, List.range_eq_range']

theorem main_eq (ct : List Nat) :
    (main ct).evaluated = candidates ∧
      (main ct).printed = (candidates.map candidate_key).filter (is_hit ct) := by
  have h0 : (0 : Nat) + UINT_MAX = UINT_MAX := Nat.zero_add _
  obtain ⟨f1, f2⟩ := foldl_try_counter ct (List.range' 0 UINT_MAX ++ [UINT_MAX])
    { key_schedule := zero_schedule, evaluated := [], printed := [] }
  rw [List.foldl_append, List.foldl_cons, List.foldl_nil] at f1 f2
  rw [main, counter_loop_eq _ UINT_MAX 0 _ h0, candidates, range_two_pow_32]
  exact ⟨f1.trans (List.nil_append _), f2.trans (List.nil_append _)⟩

theorem tests_try_counter_evaluated (ct : List Nat) (c : Nat) (run : Run Nat) :
    (tests_try_counter ct c run).evaluated = run.evaluated ++ [c] := by
  unfold tests_try_counter
  simp only []
  split <;> rfl

theorem foldl_tests_try_counter (ct : List Nat) :
    ∀ (l : List Nat) (run : Run Nat),
      (l.foldl (fun t k => tests_try_counter ct k t) run).evaluated = run.evaluated ++ l := by
  intro l
  induction l with
  | nil => intro run; simp
  | cons c l ih =>
    intro run
    rw [List.foldl_cons, ih, tests_try_counter_evaluated, List.append_assoc,
      List.singleton_append]

theorem tests_main_evaluated (ct : List Nat) : (tests_main ct).evaluated = List.range (2 ^ 32) := by
  have h0 : (0 : Nat) + UINT_MAX = UINT_MAX := Nat.zero_add _
  have f := foldl_tests_try_counter ct (List.range' 0 UINT_MAX ++ [UINT_MAX])
    { key_schedule := zero_schedule, evaluated := [], printed := [] }
  rw [List.foldl_append, List.foldl_cons, List.foldl_nil] at f
  rw [tests_main, counter_loop_eq _ UINT_MAX 0 _ h0, range_two_pow_32]
  exact f.trans (List.nil_append _)

/-- The pairs `(c, s)` with `c < n` and `s < 255`, in counter order then state order. -/
theorem mem_pairs (n c s : Nat) :
    (c, s) ∈ (List.range n).flatMap (fun c => (List.range 255).map fun s => (c, s)) ↔
      c < n ∧ s < 255 := by
  simp only [List.mem_flatMap, List.mem_map, List.mem_range, Prod.mk.injEq]
  constructor
  · rintro ⟨a, ha, b, hb, rfl, rfl⟩
    exact ⟨ha, hb⟩
  · rintro ⟨hc, hs⟩
    exact ⟨c, hc, s, hs, rfl, rfl⟩

theorem length_pairs (n : Nat) :
    ((List.range n).flatMap (fun c => (List.range 255).map fun s => (c, s))).length = n * 255 := by
  induction n with
  | zero => rfl
  | succ n ih =>
    rw [List.range_succ, List.flatMap_append, List.length_append, ih, List.flatMap_cons,
      List.flatMap_nil, List.append_nil, List.length_map, List.length_range, Nat.succ_mul]

theorem nodup_pairs (n : Nat) :
    ((List.range n).flatMap (fun c => (List.range 255).map fun s => (c, s))).Nodup := by
  induction n with
  | zero => exact List.nodup_nil
  | succ n ih =>
    rw [List.range_succ, List.flatMap_append, List.flatMap_cons, List.flatMap_nil,
      List.append_nil]
    refine List.Nodup.append ih ?_ ?_
    · exact (List.nodup_range 255).map (fun a b hab => (Prod.mk.inj hab).2)
    · intro p hp hq
      obtain ⟨c, s⟩ := p
      have h1 := (mem_pairs n c s).mp hp
      simp only [List.mem_map, List.mem_range, Prod.mk.injEq] at hq
      obtain ⟨b, _, rfl, _⟩ := hq
      omega

theorem loop_evaluated (ct : List Nat) :
    (counter_loop (try_counter ct) 0
        { key_schedule := zero_schedule, evaluated := [], printed := [] }).evaluated =
      (List.range UINT_MAX).flatMap (fun c => (List.range 255).map fun s => (c, s)) := by
  have h0 : (0 : Nat) + UINT_MAX = UINT_MAX := Nat.zero_add _
  rw [counter_loop_eq _ UINT_MAX 0 _ h0, List.range_eq_range']
  exact (foldl_try_counter ct _ _).1.trans (List.nil_append _)

/-- C2: hit reporting of the search driver. The keys `main` passes to `print_256_block` are,
in order, the masked keys `key_xor_prng (get_key_ascii_bytes (c), s)` of the evaluated
candidates `(c, s)` whose decryption of the ciphertext is the 16-byte zero block, and only
those: a key is printed if and only if it is the masked key of some counter `c < 2^32` and
state `s < 255` and `aes256_decrypt` under its schedule gives sixteen zero bytes. The sweep
does not stop at a hit: the filter runs over all the candidates. -/
theorem main_reports_hits (ct : List Nat) :
    (main ct).printed = (((main ct).evaluated).map candidate_key).filter (is_hit ct) ∧
    (∀ key, key ∈ (main ct).printed ↔
      ∃ c s, c < 2 ^ 32 ∧ s < 255 ∧ key = key_xor_prng (get_key_ascii_bytes c) s ∧
        aes256_decrypt (aes256_load_key key zero_schedule) ct = List.replicate 16 0) ∧
    ∀ (key : List Nat) (ks : List M128), key.length = 32 → 28 ≤ ks.length →
      (is_zero_block (aes256_decrypt (aes256_load_key key ks) ct) = true ↔
        aes256_decrypt (aes256_load_key key zero_schedule) ct = List.replicate 16 0) := by
  obtain ⟨h1, h2⟩ := main_eq ct
  refine ⟨by rw [h2, h1], ?_, ?_⟩
  · intro key
    rw [h2, List.mem_filter, List.mem_map, is_hit, decide_eq_true_iff]
    constructor
    · rintro ⟨⟨⟨c, s⟩, hm, rfl⟩, hz⟩
      have hcs := (mem_pairs (2 ^ 32) c s).mp hm
      exact ⟨c, s, hcs.1, hcs.2, rfl, hz⟩
    · rintro ⟨c, s, hc, hs, rfl, hz⟩
      exact ⟨⟨(c, s), (mem_pairs (2 ^ 32) c s).mpr ⟨hc, hs⟩, rfl⟩, hz⟩
  · intro key ks hk hks
    rw [is_zero_block_decrypt ct key hks hk, is_hit, decide_eq_true_iff]

/-- C3: counter coverage. `main` evaluates exactly the candidates `(c, s)` with `c` in
`[0, 2^32)` and `s` in `[0, 255)`, each once, in counter order then state order
(`2^32 * 255` candidates): the loop `key_counter < UINT_MAX`, whose increment is taken modulo
`2^32`, covers the counters `0 .. UINT_MAX - 1` and the block after it covers `UINT_MAX`. The
driver without the mask (`tests/aes-bruteforce_tests.c`) evaluates exactly one candidate for
each counter `0 .. 2^32 - 1`. -/
theorem sweep_coverage (ct : List Nat) :
    (main ct).evaluated = candidates ∧
    candidates.Nodup ∧
    (∀ c s, (c, s) ∈ candidates ↔ c < 2 ^ 32 ∧ s < 255) ∧
    candidates.length = 2 ^ 32 * 255 ∧
    (counter_loop (try_counter ct) 0
        { key_schedule := zero_schedule, evaluated := [], printed := [] }).evaluated =
      (List.range UINT_MAX).flatMap (fun c => (List.range 255).map fun s => (c, s)) ∧
    (tests_main ct).evaluated = List.range (2 ^ 32) :=
  ⟨(main_eq ct).1, nodup_pairs (2 ^ 32), mem_pairs (2 ^ 32), length_pairs (2 ^ 32),
    loop_evaluated ct, tests_main_evaluated ct⟩


/-! ## Encryption as the FIPS-197 cipher, schedule layout -/

theorem SubBytes_ShiftRows_comm {x : M128} (h : x.length = 16) :
    SubBytes (ShiftRows x) = ShiftRows (SubBytes x) := by
  rw [SubBytes, SubBytes, ShiftRows_map _ h]

theorem enc_rounds_length (S : List M128) (hS : ∀ i, i ≤ 14 → Bytes 16 (entry S i)) {m : M128}
    (hm : m.length = 16) : ∀ n, n ≤ 13 → (enc_rounds S n m).length = 16 := by
  intro n
  induction n with
  | zero => intro _; exact hm
  | succ n ih =>
    intro hn
    rw [enc_rounds, _mm_aesenc_si128]
    exact xor_length (MixColumns_bytes (half_bytes _)).1 (hS (n + 1) (by omega)).1

theorem enc_rounds_eq_fips (S : List M128) (hS : ∀ i, i ≤ 14 → Bytes 16 (entry S i)) {m : M128}
    (hm : m.length = 16) : ∀ n, n ≤ 13 → enc_rounds S n m = fips_rounds S n m := by
  intro n
  induction n with
  | zero => intro _; rfl
  | succ n ih =>
    intro hn
    have hl := enc_rounds_length S hS hm n (by omega)
    rw [enc_rounds, fips_rounds, ← ih (by omega), _mm_aesenc_si128, SubBytes_ShiftRows_comm hl]
    rfl

/-- C11: AES-256 encryption equals the FIPS-197 cipher with `Nr = 14`. For every schedule
whose entries 0..14 are 16-byte values and every 16-byte block `P`, `aes256_encrypt (S, P)`
is `AddRoundKey` with entry 0, then for `r = 1..13` `SubBytes`, `ShiftRows`, `MixColumns`,
`AddRoundKey` with entry `r`, then `SubBytes`, `ShiftRows`, `AddRoundKey` with entry 14. -/
theorem aes256_encrypt_eq_fips_cipher (S : List M128) (P : List Nat)
    (hS : ∀ i, i ≤ 14 → Bytes 16 (entry S i)) (hP : Bytes 16 P) :
    aes256_encrypt S P = fips_cipher S P := by
  have hx : (_mm_xor_si128 P (entry S 0)).length = 16 := xor_length hP.1 (hS 0 (by omega)).1
  have hl := enc_rounds_length S hS hx 13 (le_refl _)
  rw [aes256_encrypt_eq, loadu_zero hP.1, _mm_aesenclast_si128, SubBytes_ShiftRows_comm hl,
    enc_rounds_eq_fips S hS hx 13 (le_refl _)]
  rfl

theorem aes256_encrypt_eq_fips_cipher_witness :
    (∀ i, i ≤ 14 → Bytes 16 (entry (aes256_load_key test_key zero_schedule) i)) ∧
      Bytes 16 test_plain ∧
      aes256_encrypt (aes256_load_key test_key zero_schedule) test_plain =
        fips_cipher (aes256_load_key test_key zero_schedule) test_plain :=
  ⟨(aes256_load_key_good (by decide) zero_schedule_length).1, by decide,
    aes256_encrypt_eq_fips_cipher (aes256_load_key test_key zero_schedule) test_plain
      (aes256_load_key_good (by decide) zero_schedule_length).1 (by decide)⟩

/-- C12: decryption schedule layout. For every 32-byte key `K`, every schedule array of at
least 28 entries and every `j` in `[1, 13]`, entry `14 + j` written by `aes256_load_key` is
`InvMixColumns` of entry `14 - j`, which is the encryption round key `14 - j`; entries 0 and
14 are the unmodified encryption round keys. -/
theorem aes256_load_key_layout (K : List Nat) (ks : List M128) (hK : Bytes 32 K)
    (hks : 28 ≤ ks.length) :
    (∀ j, 1 ≤ j → j ≤ 13 →
      entry (aes256_load_key K ks) (14 + j) = InvMixColumns (entry (aes256_load_key K ks) (14 - j)) ∧
      entry (aes256_load_key K ks) (14 - j) =
        entry (aes256_load_key_encrypt_only K ks) (14 - j)) ∧
    entry (aes256_load_key K ks) 0 = entry (aes256_load_key_encrypt_only K ks) 0 ∧
    entry (aes256_load_key K ks) 14 = entry (aes256_load_key_encrypt_only K ks) 14 :=
  ⟨fun j h1 h13 => ⟨(aes256_load_key_good hK hks).2 j h1 h13,
      aes256_load_key_entry_low K hks (by omega)⟩,
    aes256_load_key_entry_low K hks (by omega), aes256_load_key_entry_low K hks (by omega)⟩

theorem aes256_load_key_layout_witness :
    Bytes 32 test_key ∧ 28 ≤ zero_schedule.length ∧
    (∀ j, 1 ≤ j → j ≤ 13 →
      entry (aes256_load_key test_key zero_schedule) (14 + j) =
        InvMixColumns (entry (aes256_load_key test_key zero_schedule) (14 - j)) ∧
      entry (aes256_load_key test_key zero_schedule) (14 - j) =
        entry (aes256_load_key_encrypt_only test_key zero_schedule) (14 - j)) ∧
    entry (aes256_load_key test_key zero_schedule) 0 =
      entry (aes256_load_key_encrypt_only test_key zero_schedule) 0 ∧
    entry (aes256_load_key test_key zero_schedule) 14 =
      entry (aes256_load_key_encrypt_only test_key zero_schedule) 14 :=
  ⟨by decide, by decide, aes256_load_key_layout test_key zero_schedule (by decide) (by decide)⟩

/-- C13: the encryption-only schedule agrees with the full schedule on its defined range.
For every 32-byte key `K`, all schedule arrays of at least 28 entries and every `j` in
`[0, 15)`, entry `j` written by `aes256_load_key_encrypt_only` equals entry `j` written by
`aes256_load_key`: computing entries 15..27 does not alter entries 0..14. -/
theorem aes256_load_key_encrypt_only_agrees (K : List Nat) (ks ks2 : List M128) (j : Nat)
    (_hK : Bytes 32 K) (hks : 28 ≤ ks.length) (hks2 : 28 ≤ ks2.length) (hj : j < 15) :
    entry (aes256_load_key_encrypt_only K ks) j = entry (aes256_load_key K ks2) j := by
  rw [aes256_load_key_entry_low K hks2 (by omega)]
  exact aes256_load_key_encrypt_only_entry K hks hks2 (by omega)

theorem aes256_load_key_encrypt_only_agrees_witness :
    Bytes 32 test_key ∧ 28 ≤ zero_schedule.length ∧ 28 ≤ zero_schedule.length ∧ 7 < 15 ∧
      entry (aes256_load_key_encrypt_only test_key zero_schedule) 7 =
        entry (aes256_load_key test_key zero_schedule) 7 :=
  ⟨by decide, by decide, by decide, by decide,
    aes256_load_key_encrypt_only_agrees test_key zero_schedule zero_schedule 7 (by decide)
      (by decide) (by decide) (by decide)⟩


/-! ## PRNG table -/

set_option maxRecDepth 100000 in
theorem prng_sequence_facts :
    prng_sequence.length = 255 ∧ prng_sequence.Nodup ∧
      ∀ b, b < 256 → (b ∈ prng_sequence ↔ 1 ≤ b) := by
  decide!

set_option maxRecDepth 100000 in
theorem prng_sequence_lt : ∀ b ∈ prng_sequence, b < 256 := by
  decide!

/-- C14: the PRNG table invariant. `prng_sequence` has exactly 255 entries, none of them is
`0x00`, the entries are pairwise distinct, and a value occurs in the table if and only if it
is a non-zero byte: the table is a permutation of the 255 non-zero byte values. -/
theorem prng_sequence_permutation :
    prng_sequence.length = 255 ∧ 0 ∉ prng_sequence ∧ prng_sequence.Nodup ∧
      ∀ b, b ∈ prng_sequence ↔ 1 ≤ b ∧ b < 256 := by
  obtain ⟨h1, h2, h3⟩ := prng_sequence_facts
  refine ⟨h1, ?_, h2, ?_⟩
  · intro h0
    have := (h3 0 (by norm_num)).mp h0
    omega
  · intro b
    constructor
    · intro hb
      have hlt := prng_sequence_lt b hb
      exact ⟨(h3 b hlt).mp hb, hlt⟩
    · rintro ⟨h1b, hlt⟩
      exact (h3 b hlt).mpr h1b


/-! ## Byte swap and the raw and factory derivations -/

theorem testBit_255 (n : Nat) : Nat.testBit 255 n = decide (n < 8) := by
  have h : (255 : Nat) = 2 ^ 8 - 1 := by norm_num
  rw [h, Nat.testBit_two_pow_sub_one]

/-- Byte `k` of `__bswap_32 (v)` is byte `3 - k` of `v`. -/
theorem bswap_32_byte (v k : Nat) (hk : k < 4) :
    (__bswap_32 v >>> (8 * k)) % 256 = (v >>> (8 * (3 - k))) % 256 := by
  have m3 : (0xff000000 : Nat) = 0xff <<< 24 := by decide
  have m2 : (0x00ff0000 : Nat) = 0xff <<< 16 := by decide
  have m1 : (0x0000ff00 : Nat) = 0xff <<< 8 := by decide
  have m0 : (0x000000ff : Nat) = 0xff <<< 0 := by decide
  have h256 : (256 : Nat) = 2 ^ 8 := by norm_num
  unfold __bswap_32
  rw [m3, m2, m1, m0, h256]
  apply Nat.eq_of_testBit_eq
  intro i
  simp only [Nat.testBit_mod_two_pow, Nat.testBit_shiftRight, Nat.testBit_or, Nat.testBit_and,
    Nat.testBit_shiftLeft, testBit_255]
  by_cases hi : i < 8
  · interval_cases k <;> interval_cases i <;> simp [testBit_255]
  · simp [hi]

theorem bswap_32_lt (v : Nat) : __bswap_32 v < 2 ^ 32 := by
  unfold __bswap_32
  have h1 : (v &&& 0xff000000) >>> 24 < 2 ^ 32 := by
    have : v &&& 0xff000000 ≤ 0xff000000 := Nat.and_le_right
    rw [Nat.shiftRight_eq_div_pow]
    exact lt_of_le_of_lt (Nat.div_le_self _ _) (by omega)
  have h2 : (v &&& 0x00ff0000) >>> 8 < 2 ^ 32 := by
    have : v &&& 0x00ff0000 ≤ 0x00ff0000 := Nat.and_le_right
    rw [Nat.shiftRight_eq_div_pow]
    exact lt_of_le_of_lt (Nat.div_le_self _ _) (by omega)
  have h3 : (v &&& 0x0000ff00) <<< 8 < 2 ^ 32 := by
    have : v &&& 0x0000ff00 ≤ 0x0000ff00 := Nat.and_le_right
    rw [Nat.shiftLeft_eq]
    omega
  have h4 : (v &&& 0x000000ff) <<< 24 < 2 ^ 32 := by
    have : v &&& 0x000000ff ≤ 0x000000ff := Nat.and_le_right
    rw [Nat.shiftLeft_eq]
    omega
  exact Nat.or_lt_two_pow (Nat.or_lt_two_pow (Nat.or_lt_two_pow h1 h2) h3) h4

theorem store_u32_eq (v : Nat) :
    store_u32 v = [v % 256, (v >>> 8) % 256, (v >>> 16) % 256, (v >>> 24) % 256] := by
  have hr : List.range 4 = [0, 1, 2, 3] := by decide
  simp [store_u32, hr]

theorem load_store_u32 (v : Nat) (hv : v < 2 ^ 32) (rest : List Nat) :
    load_u32 (store_u32 v ++ rest) 0 = v := by
  rw [store_u32_eq]
  simp only [load_u32, List.drop_zero, List.cons_append, List.take_succ_cons, List.take_zero,
    List.foldr_cons, List.foldr_nil, Nat.shiftRight_eq_div_pow]
  omega

/-- The 32 bytes of `get_key_bytes`. -/
theorem get_key_bytes_eq (c : Nat) :
    get_key_bytes c =
      [__bswap_32 c % 256, (__bswap_32 c >>> 8) % 256, (__bswap_32 c >>> 16) % 256,
        (__bswap_32 c >>> 24) % 256,
        __bswap_32 c % 256, (__bswap_32 c >>> 8) % 256, (__bswap_32 c >>> 16) % 256,
        (__bswap_32 c >>> 24) % 256,
        __bswap_32 c % 256, (__bswap_32 c >>> 8) % 256, (__bswap_32 c >>> 16) % 256,
        (__bswap_32 c >>> 24) % 256,
        __bswap_32 c % 256, (__bswap_32 c >>> 8) % 256, (__bswap_32 c >>> 16) % 256,
        (__bswap_32 c >>> 24) % 256,
        __bswap_32 c % 256, (__bswap_32 c >>> 8) % 256, (__bswap_32 c >>> 16) % 256,
        (__bswap_32 c >>> 24) % 256,
        __bswap_32 c % 256, (__bswap_32 c >>> 8) % 256, (__bswap_32 c >>> 16) % 256,
        (__bswap_32 c >>> 24) % 256,
        __bswap_32 c % 256, (__bswap_32 c >>> 8) % 256, (__bswap_32 c >>> 16) % 256,
        (__bswap_32 c >>> 24) % 256,
        __bswap_32 c % 256, (__bswap_32 c >>> 8) % 256, (__bswap_32 c >>> 16) % 256,
        (__bswap_32 c >>> 24) % 256] := by
  simp only [get_key_bytes, store_u32_eq, List.cons_append, List.nil_append]

/-- C15: the raw derivation as eight byte-swapped lanes. For every 32-bit counter `c`,
reading the 32 bytes of `get_key_bytes (c)` as eight 32-bit little-endian words gives eight
copies of `__bswap_32 (c)`. -/
theorem get_key_bytes_lanes (c j : Nat) (_hc : c < 2 ^ 32) (hj : j < 8) :
    load_u32 (get_key_bytes c) (4 * j) = __bswap_32 c := by
  have hv := bswap_32_lt c
  have h := load_store_u32 (__bswap_32 c) hv []
  rw [store_u32_eq] at h
  simp only [load_u32, List.drop_zero, List.cons_append, List.nil_append, List.take_succ_cons,
    List.take_zero, List.take_nil] at h
  rw [get_key_bytes_eq]
  interval_cases j <;>
    simpa only [load_u32, Nat.reduceMul, List.drop_zero, List.drop_succ_cons, List.take_succ_cons,
      List.take_zero] using h

theorem get_key_bytes_lanes_witness :
    0x01234567 < 2 ^ 32 ∧ 3 < 8 ∧
      load_u32 (get_key_bytes 0x01234567) (4 * 3) = __bswap_32 0x01234567 :=
  ⟨by decide, by decide, get_key_bytes_lanes 0x01234567 3 (by decide) (by decide)⟩

theorem and_255_eq_mod (x : Nat) : x &&& 0xff = x % 256 :=
  Nat.and_pow_two_sub_one_eq_mod x 8

theorem get_key_bytes_getD (c j k : Nat) (hj : j < 8) (hk : k < 4) :
    (get_key_bytes c).getD (4 * j + k) 0 = (__bswap_32 c >>> (8 * k)) % 256 := by
  rw [get_key_bytes_eq]
  interval_cases j <;> interval_cases k <;> rfl

/-- C16, as stated, fails on the code: for `c = 0x01234567`, byte 0 of `get_key_bytes (c)` is
`0x01`, not `(c >> 0) & 0xff = 0x67`; the key is `01 23 45 67` repeated eight times, not
`67 45 23 01`. -/
theorem get_key_bytes_not_little_endian :
    0x01234567 < 2 ^ 32 ∧ 0 < 8 ∧ 0 < 4 ∧
      (get_key_bytes 0x01234567).getD (4 * 0 + 0) 0 ≠ (0x01234567 >>> (8 * 0)) &&& 0xff ∧
      (get_key_bytes 0x01234567).getD (4 * 0 + 0) 0 = 0x01 ∧
      get_key_bytes 0x01234567 ≠
        [0x67, 0x45, 0x23, 0x01, 0x67, 0x45, 0x23, 0x01, 0x67, 0x45, 0x23, 0x01, 0x67, 0x45,
          0x23, 0x01, 0x67, 0x45, 0x23, 0x01, 0x67, 0x45, 0x23, 0x01, 0x67, 0x45, 0x23, 0x01,
          0x67, 0x45, 0x23, 0x01] := by
  decide

/-- C16, amended: the raw derivation stores the counter most significant byte first. For
every 32-bit counter `c`, every `j` in `[0, 8)` and `k` in `[0, 4)`, byte `4 * j + k` of
`get_key_bytes (c)` is `(c >> (8 * (3 - k))) & 0xff`; for `c = 0x01234567` the key is
`01 23 45 67` repeated eight times. -/
theorem get_key_bytes_big_endian (c j k : Nat) (_hc : c < 2 ^ 32) (hj : j < 8) (hk : k < 4) :
    (get_key_bytes c).getD (4 * j + k) 0 = (c >>> (8 * (3 - k))) &&& 0xff ∧
      get_key_bytes 0x01234567 =
        [0x01, 0x23, 0x45, 0x67, 0x01, 0x23, 0x45, 0x67, 0x01, 0x23, 0x45, 0x67, 0x01, 0x23,
          0x45, 0x67, 0x01, 0x23, 0x45, 0x67, 0x01, 0x23, 0x45, 0x67, 0x01, 0x23, 0x45, 0x67,
          0x01, 0x23, 0x45, 0x67] := by
  refine ⟨?_, by decide⟩
  rw [get_key_bytes_getD c j k hj hk, bswap_32_byte c k hk, and_255_eq_mod]

theorem get_key_bytes_big_endian_witness :
    0x01234567 < 2 ^ 32 ∧ 5 < 8 ∧ 2 < 4 ∧
      ((get_key_bytes 0x01234567).getD (4 * 5 + 2) 0 = (0x01234567 >>> (8 * (3 - 2))) &&& 0xff ∧
      get_key_bytes 0x01234567 =
        [0x01, 0x23, 0x45, 0x67, 0x01, 0x23, 0x45, 0x67, 0x01, 0x23, 0x45, 0x67, 0x01, 0x23,
          0x45, 0x67, 0x01, 0x23, 0x45, 0x67, 0x01, 0x23, 0x45, 0x67, 0x01, 0x23, 0x45, 0x67,
          0x01, 0x23, 0x45, 0x67]) :=
  ⟨by decide, by decide, by decide,
    get_key_bytes_big_endian 0x01234567 5 2 (by decide) (by decide) (by decide)⟩

theorem get_factory_key_eq (rand : Nat → Nat → Nat) (c : Nat) :
    get_factory_key rand c =
      store_u32 (rand c 0) ++ (store_u32 (rand c 1) ++ (store_u32 (rand c 2)
        ++ (store_u32 (rand c 3) ++ (store_u32 (rand c 4) ++ (store_u32 (rand c 5)
        ++ (store_u32 (rand c 6) ++ (store_u32 (rand c 7) ++ []))))))) := by
  simp only [get_factory_key, List.append_assoc, List.append_nil]

theorem get_factory_key_getD (rand : Nat → Nat → Nat) (c j k : Nat) (hj : j < 8) (hk : k < 4) :
    (get_factory_key rand c).getD (4 * j + k) 0 = (rand c j >>> (8 * k)) % 256 := by
  simp only [get_factory_key, store_u32_eq, List.cons_append, List.nil_append]
  interval_cases j <;> interval_cases k <;> rfl

theorem get_factory_reversed_key_getD (rand : Nat → Nat → Nat) (c j k : Nat) (hj : j < 8)
    (hk : k < 4) :
    (get_factory_reversed_key rand c).getD (4 * j + k) 0 =
      (__bswap_32 (rand c j) >>> (8 * k)) % 256 := by
  simp only [get_factory_reversed_key, store_u32_eq, List.cons_append, List.nil_append]
  interval_cases j <;> interval_cases k <;> rfl

/-- C18: FactoryReversed is Factory with each word byte-swapped. For every generator (`rand
seed i` the value of call `i` of `rand ()` after `srand (seed)`) and every 32-bit counter `c`,
the Factory key is the concatenation of the first eight outputs after seeding with `c`, each
stored as a 32-bit little-endian word, and for every `j` in `[0, 8)` and `k` in `[0, 4)`, byte
`4 * j + k` of `get_factory_reversed_key (c)` is byte `4 * j + 3 - k` of `get_factory_key (c)`. -/
theorem get_factory_reversed_key_bytes (rand : Nat → Nat → Nat) (c j k : Nat)
    (_hc : c < 2 ^ 32) (hj : j < 8) (hk : k < 4) :
    get_factory_key rand c = (List.range 8).flatMap (fun i => store_u32 (rand c i)) ∧
      (get_factory_reversed_key rand c).getD (4 * j + k) 0 =
        (get_factory_key rand c).getD (4 * j + 3 - k) 0 := by
  constructor
  · have hr : List.range 8 = [0, 1, 2, 3, 4, 5, 6, 7] := by decide
    rw [get_factory_key_eq, hr]
    rfl
  · have e : 4 * j + 3 - k = 4 * j + (3 - k) := by omega
    rw [e, get_factory_reversed_key_getD rand c j k hj hk,
      get_factory_key_getD rand c j (3 - k) hj (by omega), bswap_32_byte _ k hk]

theorem get_factory_reversed_key_bytes_witness :
    7 < 2 ^ 32 ∧ 2 < 8 ∧ 1 < 4 ∧
      (get_factory_key bsd_rand 7 = (List.range 8).flatMap (fun i => store_u32 (bsd_rand 7 i)) ∧
      (get_factory_reversed_key bsd_rand 7).getD (4 * 2 + 1) 0 =
        (get_factory_key bsd_rand 7).getD (4 * 2 + 3 - 1) 0) :=
  ⟨by decide, by decide, by decide,
    get_factory_reversed_key_bytes bsd_rand 7 2 1 (by decide) (by decide) (by decide)⟩

set_option maxRecDepth 100000 in
/-- C17, as stated, fails on the code for the factory modes: with the BSD generator that the
specification names and `c = 0`, bytes 0..7 of `get_factory_key` (the first two outputs) differ
from bytes 8..15 (the next two outputs), and likewise for `get_factory_reversed_key`. -/
theorem factory_key_groups_differ :
    0 < 2 ^ 32 ∧
      (get_factory_key bsd_rand 0).take 8 ≠ ((get_factory_key bsd_rand 0).drop 8).take 8 ∧
      (get_factory_reversed_key bsd_rand 0).take 8 ≠
        ((get_factory_reversed_key bsd_rand 0).drop 8).take 8 := by
  decide!

/-- C17, amended: seed repetition in the two counter modes, output pairs in the factory
modes. For every 32-bit counter `c`, the 32-byte keys of `get_key_ascii_bytes` and
`get_key_bytes` consist of four identical 8-byte groups; for `get_factory_key` and
`get_factory_reversed_key`, with any generator, group `g` holds outputs `2g` and `2g + 1` of
the generator after seeding with `c` (byte-swapped in the reversed mode). -/
theorem key_groups (c : Nat) (_hc : c < 2 ^ 32) :
    ((get_key_ascii_bytes c).take 8 = ((get_key_ascii_bytes c).drop 8).take 8 ∧
      (get_key_ascii_bytes c).take 8 = ((get_key_ascii_bytes c).drop 16).take 8 ∧
      (get_key_ascii_bytes c).take 8 = ((get_key_ascii_bytes c).drop 24).take 8 ∧
      (get_key_ascii_bytes c).length = 32) ∧
    ((get_key_bytes c).take 8 = ((get_key_bytes c).drop 8).take 8 ∧
      (get_key_bytes c).take 8 = ((get_key_bytes c).drop 16).take 8 ∧
      (get_key_bytes c).take 8 = ((get_key_bytes c).drop 24).take 8 ∧
      (get_key_bytes c).length = 32) ∧
    ∀ (rand : Nat → Nat → Nat) (g : Nat), g < 4 →
      ((get_factory_key rand c).drop (8 * g)).take 8 =
          store_u32 (rand c (2 * g)) ++ store_u32 (rand c (2 * g + 1)) ∧
        ((get_factory_reversed_key rand c).drop (8 * g)).take 8 =
          store_u32 (__bswap_32 (rand c (2 * g))) ++
            store_u32 (__bswap_32 (rand c (2 * g + 1))) := by
  refine ⟨?_, ?_, ?_⟩
  · rw [get_key_ascii_bytes_eq]
    exact ⟨rfl, rfl, rfl, rfl⟩
  · rw [get_key_bytes_eq]
    exact ⟨rfl, rfl, rfl, rfl⟩
  · intro rand g hg
    simp only [get_factory_key, get_factory_reversed_key, store_u32_eq, List.cons_append,
      List.nil_append]
    interval_cases g <;> exact ⟨rfl, rfl⟩

theorem key_groups_witness :
    0x14efa8ff < 2 ^ 32 ∧
    (((get_key_ascii_bytes 0x14efa8ff).take 8 = ((get_key_ascii_bytes 0x14efa8ff).drop 8).take 8 ∧
      (get_key_ascii_bytes 0x14efa8ff).take 8 =
        ((get_key_ascii_bytes 0x14efa8ff).drop 16).take 8 ∧
      (get_key_ascii_bytes 0x14efa8ff).take 8 =
        ((get_key_ascii_bytes 0x14efa8ff).drop 24).take 8 ∧
      (get_key_ascii_bytes 0x14efa8ff).length = 32) ∧
    ((get_key_bytes 0x14efa8ff).take 8 = ((get_key_bytes 0x14efa8ff).drop 8).take 8 ∧
      (get_key_bytes 0x14efa8ff).take 8 = ((get_key_bytes 0x14efa8ff).drop 16).take 8 ∧
      (get_key_bytes 0x14efa8ff).take 8 = ((get_key_bytes 0x14efa8ff).drop 24).take 8 ∧
      (get_key_bytes 0x14efa8ff).length = 32) ∧
    ∀ (rand : Nat → Nat → Nat) (g : Nat), g < 4 →
      ((get_factory_key rand 0x14efa8ff).drop (8 * g)).take 8 =
          store_u32 (rand 0x14efa8ff (2 * g)) ++ store_u32 (rand 0x14efa8ff (2 * g + 1)) ∧
        ((get_factory_reversed_key rand 0x14efa8ff).drop (8 * g)).take 8 =
          store_u32 (__bswap_32 (rand 0x14efa8ff (2 * g))) ++
            store_u32 (__bswap_32 (rand 0x14efa8ff (2 * g + 1)))) :=
  ⟨by decide, key_groups 0x14efa8ff (by decide)⟩

set_option maxRecDepth 100000 in
/-- C19: known-good hit, ascii-hex mode with mask, counter `0x14efa8ff`. At state `s = 239`,
`key_xor_prng (get_key_ascii_bytes (0x14efa8ff), s)` is the key
`89 3d b7 33 39 04 9a 76 d3 5a 8f 79 bc 52 3a ec 58 90 49 78 1f 30 17 51 44 b5 85 53 4f 7d dc 34`
and `aes256_decrypt` under the schedule of that key maps the ciphertext
`a0 e1 eb 5f 39 2d 56 e5 47 fe 2f 80 98 2c 95 56` to the 16-byte zero block, so that the zero
test of the driver succeeds. -/
theorem known_hit_ascii_14efa8ff :
    ∃ s, s < 255 ∧
      key_xor_prng (get_key_ascii_bytes 0x14efa8ff) s = key_ascii_14efa8ff ∧
      aes256_decrypt (aes256_load_key key_ascii_14efa8ff zero_schedule)
        ciphertext_ascii_14efa8ff = List.replicate 16 0 ∧
      is_zero_block (aes256_decrypt (aes256_load_key key_ascii_14efa8ff zero_schedule)
        ciphertext_ascii_14efa8ff) = true :=
  ⟨239, by decide!⟩

set_option maxRecDepth 100000 in
/-- C20: known-good hit, raw mode with mask, counter `0x01234567`. At state `s = 239`,
`key_xor_prng (get_key_bytes (0x01234567), s)` is the key
`b9 2a 97 32 59 1f b9 77 e3 4d af 78 dc 49 19 ed 68 87 69 79 7f 2b 34 50 74 a2 a5 52 2f 66 ff 35`
recorded in the comments of `main`, and `aes256_decrypt` under the schedule of that key maps
the ciphertext `4e c2 17 c4 53 78 a3 c3 e2 16 14 3c 97 d0 b9 f1` to the 16-byte zero block, so
that the zero test of the driver succeeds. -/
theorem known_hit_raw_01234567 :
    ∃ s, s < 255 ∧
      key_xor_prng (get_key_bytes 0x01234567) s = key_raw_01234567 ∧
      aes256_decrypt (aes256_load_key key_raw_01234567 zero_schedule)
        ciphertext_raw_01234567 = List.replicate 16 0 ∧
      is_zero_block (aes256_decrypt (aes256_load_key key_raw_01234567 zero_schedule)
        ciphertext_raw_01234567) = true :=
  ⟨239, by decide!⟩


/-! ## The driver without the mask -/

theorem get_key_bytes_length (c : Nat) : (get_key_bytes c).length = 32 := by
  rw [get_key_bytes_eq]
  rfl

theorem tests_try_counter_printed (ct : List Nat) (c : Nat) (run : Run Nat) :
    (tests_try_counter ct c run).printed =
      run.printed ++ ([c].filter (tests_is_hit ct)).map get_key_bytes := by
  have e : tests_is_hit ct c = is_hit ct (get_key_bytes c) := rfl
  simp only [tests_try_counter,
    is_zero_block_decrypt ct _ zero_schedule_length (get_key_bytes_length c)]
  cases hh : is_hit ct (get_key_bytes c) <;> simp [List.filter, e, hh]

theorem tests_try_counter_eq (ct : List Nat) (c : Nat) (run : Run Nat) :
    (tests_try_counter ct c run).evaluated = run.evaluated ++ [c] ∧
      (tests_try_counter ct c run).printed =
        run.printed ++ if is_hit ct (get_key_bytes c) then [get_key_bytes c] else [] := by
  refine ⟨tests_try_counter_evaluated ct c run, ?_⟩
  have e : tests_is_hit ct c = is_hit ct (get_key_bytes c) := rfl
  rw [tests_try_counter_printed]
  cases hh : is_hit ct (get_key_bytes c) <;> simp [List.filter, e, hh]

theorem foldl_tests_try_counter_printed (ct : List Nat) :
    ∀ (l : List Nat) (run : Run Nat),
      (l.foldl (fun t k => tests_try_counter ct k t) run).printed =
        run.printed ++ (l.filter (tests_is_hit ct)).map get_key_bytes := by
  intro l
  induction l with
  | nil => intro run; simp
  | cons c l ih =>
    intro run
    rw [List.foldl_cons, ih, tests_try_counter_printed, List.append_assoc, ← List.map_append,
      ← List.filter_append, List.singleton_append]

theorem tests_main_printed (ct : List Nat) :
    (tests_main ct).printed =
      ((List.range (2 ^ 32)).filter (tests_is_hit ct)).map get_key_bytes := by
  have h0 : (0 : Nat) + UINT_MAX = UINT_MAX := Nat.zero_add _
  have f := foldl_tests_try_counter_printed ct (List.range' 0 UINT_MAX ++ [UINT_MAX])
    { key_schedule := zero_schedule, evaluated := [], printed := [] }
  rw [List.foldl_append, List.foldl_cons, List.foldl_nil] at f
  rw [tests_main, counter_loop_eq _ UINT_MAX 0 _ h0, range_two_pow_32]
  exact f.trans (List.nil_append _)

set_option maxRecDepth 100000 in
theorem tests_hit_01234567 :
    aes256_decrypt (aes256_load_key (get_key_bytes 0x01234567) zero_schedule) tests_ciphertext =
      List.replicate 16 0 := by
  decide!

/-- C21: full-sweep target of the driver without the mask
(`tests/aes-bruteforce_tests.c`). Under the schedule that `aes256_load_key` writes for
`get_key_bytes (0x01234567)`, `aes256_decrypt` maps the ciphertext
`3a 06 0f 9e b7 89 c4 cc b0 a2 dd 8f 39 55 5a 7b` to the 16-byte zero block, the zero test of
the driver succeeds on it, the sweep evaluates the counter `0x01234567`, and the key of that
counter is among the keys that the driver passes to `print_256_block`. -/
theorem tests_main_hit_01234567 :
    aes256_decrypt (aes256_load_key (get_key_bytes 0x01234567) zero_schedule) tests_ciphertext =
        List.replicate 16 0 ∧
      is_zero_block (aes256_decrypt (aes256_load_key (get_key_bytes 0x01234567) zero_schedule)
        tests_ciphertext) = true ∧
      0x01234567 ∈ (tests_main tests_ciphertext).evaluated ∧
      get_key_bytes 0x01234567 ∈ (tests_main tests_ciphertext).printed := by
  have hin : 0x01234567 ∈ List.range (2 ^ 32) := List.mem_range.mpr (by norm_num)
  have hh : tests_is_hit tests_ciphertext 0x01234567 = true := by
    rw [tests_is_hit, is_hit, decide_eq_true_iff]
    exact tests_hit_01234567
  refine ⟨tests_hit_01234567, ?_, ?_, ?_⟩
  · rw [is_zero_block_decrypt _ _ zero_schedule_length (get_key_bytes_length _)]
    exact hh
  · rw [tests_main_evaluated]
    exact hin
  · rw [tests_main_printed]
    exact List.mem_map.mpr ⟨0x01234567, List.mem_filter.mpr ⟨hin, hh⟩, rfl⟩

/-- C22: without the mask the key is the derived key. The mask step with its switch off is
the identity on the key, for every key and state (and with the switch on it is
`key_xor_prng`). In the driver without the mask (`tests/aes-bruteforce_tests.c`), the
iteration for a counter `c` evaluates one candidate, decides the hit on the schedule of
`get_key_bytes (c)` itself and, on a hit, passes `get_key_bytes (c)` itself to
`print_256_block`; over the whole sweep the driver evaluates each counter of `[0, 2^32)` once
and prints, in counter order, the derived keys of the counters that are hits. -/
theorem mask_disabled_identity (ct : List Nat) :
    (∀ K s, mask false K s = K) ∧
    (∀ K s, mask true K s = key_xor_prng K s) ∧
    (∀ c s, tests_is_hit ct c = is_hit ct (mask false (get_key_bytes c) s)) ∧
    (∀ c (run : Run Nat),
      (tests_try_counter ct c run).evaluated = run.evaluated ++ [c] ∧
        (tests_try_counter ct c run).printed =
          run.printed ++ if is_hit ct (get_key_bytes c) then [get_key_bytes c] else []) ∧
    (tests_main ct).evaluated = List.range (2 ^ 32) ∧
    (tests_main ct).printed =
      ((List.range (2 ^ 32)).filter (tests_is_hit ct)).map get_key_bytes :=
  ⟨fun _ _ => rfl, fun _ _ => rfl, fun _ _ => rfl, tests_try_counter_eq ct,
    tests_main_evaluated ct, tests_main_printed ct⟩

/-! ## Hit output -/

set_option maxRecDepth 100000 in
theorem fmt_02x_eq : ∀ b, b < 256 → fmt_02x b = hex_pair b := by
  decide!

theorem getD_lt {key : List Nat} (hb : ∀ b ∈ key, b < 256) (i : Nat) : key.getD i 0 < 256 := by
  rw [List.getD_eq_getElem?_getD]
  cases h : key[i]? with
  | none => simp
  | some v => exact hb v (List.getElem?_mem h)

theorem range_32 : List.range 32 = [0, 1, 2, 3, 4, 5, 6, 7, 8, 9, 10, 11, 12, 13, 14, 15, 16, 17,
    18, 19, 20, 21, 22, 23, 24, 25, 26, 27, 28, 29, 30, 31] := by
  decide

theorem print_256_block_eq (label : String) (key : List Nat) (hb : ∀ b ∈ key, b < 256) :
    print_256_block label key = hit_text label key := by
  have e : ∀ i, fmt_02x (key.getD i 0) = hex_pair (key.getD i 0) :=
    fun i => fmt_02x_eq _ (getD_lt hb i)
  simp only [print_256_block, e, range_32, List.foldl_cons, List.foldl_nil, hit_text, hit_row,
    Nat.reduceMod, Nat.reduceEqDiff, if_true, if_false, Nat.reduceMul, Nat.reduceAdd,
    String.append_assoc]

theorem tests_print_256_block_eq (label : String) (key : List Nat) (hb : ∀ b ∈ key, b < 256) :
    tests_print_256_block label key = hit_text_0x label key := by
  have e : ∀ i, fmt_02x (key.getD i 0) = hex_pair (key.getD i 0) :=
    fun i => fmt_02x_eq _ (getD_lt hb i)
  simp only [tests_print_256_block, e, range_32, List.foldl_cons, List.foldl_nil, hit_text_0x,
    hit_row_0x, Nat.reduceMod, Nat.reduceEqDiff, if_true, if_false, Nat.reduceMul,
    Nat.reduceAdd, String.append_assoc]

set_option maxRecDepth 100000 in
/-- C23: hit output format. For every 32-byte key, the text that
`print_256_block ("Key candidate", key)` of `aes-bruteforce.c` writes is the label line
`Key candidate:`, then four rows of eight bytes in key order, each byte as two lowercase
hexadecimal digits followed by a space and each row ended by a line end, then an empty line.
For the key of the recorded hit of counter `0x14efa8ff` the text is evaluated. -/
theorem print_256_block_format (key : List Nat) (hk : Bytes 32 key) :
    print_256_block "Key candidate" key = hit_text "Key candidate" key ∧
      print_256_block "Key candidate" key_ascii_14efa8ff =
        "Key candidate:\n89 3d b7 33 39 04 9a 76 \nd3 5a 8f 79 bc 52 3a ec \n58 90 49 78 1f 30 17 51 \n44 b5 85 53 4f 7d dc 34 \n\n" :=
  ⟨print_256_block_eq _ key hk.2, by decide!⟩

set_option maxRecDepth 100000 in
theorem print_256_block_format_witness :
    Bytes 32 key_ascii_14efa8ff ∧
      (print_256_block "Key candidate" key_ascii_14efa8ff =
          hit_text "Key candidate" key_ascii_14efa8ff ∧
        print_256_block "Key candidate" key_ascii_14efa8ff =
          "Key candidate:\n89 3d b7 33 39 04 9a 76 \nd3 5a 8f 79 bc 52 3a ec \n58 90 49 78 1f 30 17 51 \n44 b5 85 53 4f 7d dc 34 \n\n") :=
  ⟨by decide, print_256_block_format key_ascii_14efa8ff (by decide)⟩

/-! ## Rounds and key expansion for every key size -/

theorem enc_rounds_length_at (nr : Nat) (S : List M128) (hS : ∀ i, i ≤ nr → Bytes 16 (entry S i))
    {m : M128} (hm : m.length = 16) : ∀ n, n ≤ nr → (enc_rounds S n m).length = 16 := by
  intro n
  induction n with
  | zero => intro _; exact hm
  | succ n ih =>
    intro hn
    rw [enc_rounds, _mm_aesenc_si128]
    exact xor_length (MixColumns_bytes (half_bytes _)).1 (hS (n + 1) hn).1

theorem enc_rounds_eq_fips_at (nr : Nat) (S : List M128)
    (hS : ∀ i, i ≤ nr → Bytes 16 (entry S i)) {m : M128} (hm : m.length = 16) :
    ∀ n, n ≤ nr → enc_rounds S n m = fips_rounds S n m := by
  intro n
  induction n with
  | zero => intro _; rfl
  | succ n ih =>
    intro hn
    have hl := enc_rounds_length_at nr S hS hm n (by omega)
    rw [enc_rounds, fips_rounds, ← ih (by omega), _mm_aesenc_si128, SubBytes_ShiftRows_comm hl]
    rfl

/-- The AES-NI sequence of `nr` rounds is the FIPS-197 `Cipher` with `nr` rounds. -/
theorem enc_eq_fips_cipher_nr (nr : Nat) (S : List M128)
    (hS : ∀ i, i ≤ nr → Bytes 16 (entry S i)) (P : List Nat) (hP : Bytes 16 P) :
    _mm_aesenclast_si128
        (enc_rounds S (nr - 1) (_mm_xor_si128 (_mm_loadu_si128 P 0) (entry S 0))) (entry S nr) =
      fips_cipher_nr nr S P := by
  have hx : (_mm_xor_si128 P (entry S 0)).length = 16 := xor_length hP.1 (hS 0 (by omega)).1
  have hl := enc_rounds_length_at nr S hS hx (nr - 1) (by omega)
  rw [loadu_zero hP.1, _mm_aesenclast_si128, SubBytes_ShiftRows_comm hl,
    enc_rounds_eq_fips_at nr S hS hx (nr - 1) (by omega)]
  rfl

theorem dec_rounds_at_enc_rounds (nr : Nat) (S : List M128) (hS : GoodScheduleAt nr S)
    (x0 : M128) :
    ∀ n, n + 1 ≤ nr →
      dec_rounds_at nr S n (SubBytes (ShiftRows (enc_rounds S (nr - 1) x0))) =
        SubBytes (ShiftRows (enc_rounds S (nr - 1 - n) x0)) := by
  intro n
  induction n with
  | zero => intro _; rfl
  | succ n ih =>
    intro hn
    have e : nr - 1 - n = (nr - 2 - n) + 1 := by omega
    rw [dec_rounds_at, ih (by omega), e, enc_rounds, hS.2 (n + 1) (by omega) (by omega)]
    have e2 : nr - (n + 1) = nr - 2 - n + 1 := by omega
    have e3 : nr - 1 - (n + 1) = nr - 2 - n := by omega
    rw [e2, e3]
    exact aesdec_undoes_aesenc _ _ (hS.1 (nr - 2 - n + 1) (by omega))

/-- Decryption with the `InvMixColumns`-preprocessed keys undoes encryption, for every number
of rounds. -/
theorem decrypt_encrypt_at (nr : Nat) (hnr : 1 ≤ nr) (S : List M128) (hS : GoodScheduleAt nr S)
    (P : List Nat) (hP : Bytes 16 P) :
    _mm_aesdeclast_si128
      (dec_rounds_at nr S (nr - 1)
        (_mm_xor_si128
          (_mm_loadu_si128
            (_mm_aesenclast_si128
              (enc_rounds S (nr - 1) (_mm_xor_si128 (_mm_loadu_si128 P 0) (entry S 0)))
              (entry S nr)) 0)
          (entry S nr)))
      (entry S 0) = P := by
  have hn := hS.1 nr (le_refl _)
  have h0 := hS.1 0 (by omega)
  have hx0 : Bytes 16 (_mm_xor_si128 P (entry S 0)) := xor_bytes hP h0
  rw [loadu_zero hP.1, _mm_aesenclast_si128]
  have hx := half_bytes (enc_rounds S (nr - 1) (_mm_xor_si128 P (entry S 0)))
  rw [loadu_zero (xor_length hx.1 hn.1), xor_xor_cancel _ _ (hx.1.trans hn.1.symm),
    dec_rounds_at_enc_rounds nr S hS _ (nr - 1) (by omega), Nat.sub_self]
  show _mm_aesdeclast_si128 (SubBytes (ShiftRows (_mm_xor_si128 P (entry S 0))))
    (entry S 0) = P
  rw [_mm_aesdeclast_si128, InvSubBytes_InvShiftRows_inv _ hx0,
    xor_xor_cancel _ _ (hP.1.trans h0.1.symm)]

theorem fips_rounds_congr {w v : List M128} (nr : Nat)
    (h : ∀ r, r ≤ nr → entry w r = entry v r) (m : M128) :
    ∀ n, n ≤ nr → fips_rounds w n m = fips_rounds v n m := by
  intro n
  induction n with
  | zero => intro _; rfl
  | succ n ih =>
    intro hn
    rw [fips_rounds, fips_rounds, ih (by omega), h (n + 1) hn]

/-- The FIPS-197 `Cipher` reads only the round keys `0..nr`. -/
theorem fips_cipher_nr_congr {w v : List M128} (nr : Nat)
    (h : ∀ r, r ≤ nr → entry w r = entry v r) (P : List Nat) :
    fips_cipher_nr nr w P = fips_cipher_nr nr v P := by
  simp only [fips_cipher_nr]
  rw [h 0 (by omega), h nr (le_refl _), fips_rounds_congr nr h _ (nr - 1) (by omega)]

theorem xor_word_assoc : ∀ (a b c : List Nat),
    xor_word (xor_word a b) c = xor_word a (xor_word b c)
  | [], _, _ => by simp [xor_word]
  | _ :: _, [], _ => by simp [xor_word]
  | _ :: _, _ :: _, [] => by simp [xor_word]
  | x :: a, y :: b, z :: c => by
    have ih := xor_word_assoc a b c
    simp only [xor_word, List.zipWith_cons_cons, List.cons.injEq, Nat.xor_assoc, true_and] at ih ⊢
    exact ih

theorem range_map_getD_nil (f : Nat → List Nat) {n i : Nat} (hi : i < n) :
    ((List.range n).map f).getD i [] = f i := by
  rw [List.getD_eq_getElem?_getD, List.getElem?_map, List.getElem?_range hi]
  rfl

/-- A sequence of words that starts with the key words and satisfies the recurrence of
`KeyExpansion` is the FIPS-197 expanded key. -/
theorem fips_key_expansion_eq (nk : Nat) (hnk : 0 < nk) (key : List Nat) (w : Nat → List Nat)
    (N : Nat) (h0 : ∀ i, i < nk → w i = key_word key i)
    (hrec : ∀ i, nk ≤ i → i < N → w i = fips_next_word nk i (w (i - nk)) (w (i - 1))) :
    ∀ n, n ≤ N → fips_key_expansion nk key n = (List.range n).map w := by
  intro n
  induction n with
  | zero => intro _; rfl
  | succ n ih =>
    intro hn
    rw [fips_key_expansion, ih (by omega), List.range_succ, List.map_append, List.map_singleton]
    by_cases hlt : n < nk
    · simp only [hlt, if_true, h0 n hlt]
    · simp only [hlt, if_false]
      rw [range_map_getD_nil w (by omega : n - nk < n), range_map_getD_nil w (by omega : n - 1 < n),
        hrec n (by omega) (by omega)]

theorem lanes_append {a : M128} (h : a.length = 16) :
    lane a 0 ++ lane a 1 ++ lane a 2 ++ lane a 3 = a := by
  obtain ⟨a0, a1, a2, a3, a4, a5, a6, a7, a8, a9, a10, a11, a12, a13, a14, a15, rfl⟩ :=
    length_16 h
  rfl

theorem schedule_word_lane (S : List M128) (r k : Nat) (hk : k < 4) :
    schedule_word S (4 * r + k) = lane (entry S r) k := by
  have e1 : (4 * r + k) / 4 = r := by omega
  have e2 : (4 * r + k) % 4 = k := by omega
  rw [schedule_word, e1, e2]

/-- The round keys of the FIPS-197 expanded key are the entries of a schedule whose words
start with the key words and satisfy the recurrence. -/
theorem fips_round_keys_entry (nk nr : Nat) (hnk : 0 < nk) (key : List Nat) (S : List M128)
    (hS : ∀ r, r ≤ nr → (entry S r).length = 16)
    (h0 : ∀ i, i < nk → schedule_word S i = key_word key i)
    (hrec : ∀ i, nk ≤ i → i < 4 * (nr + 1) →
      schedule_word S i =
        fips_next_word nk i (schedule_word S (i - nk)) (schedule_word S (i - 1)))
    (r : Nat) (hr : r ≤ nr) : entry (fips_round_keys nk nr key) r = entry S r := by
  rw [entry, fips_round_keys, range_map_getD_nil _ (by omega : r < nr + 1), fips_round_key,
    fips_key_expansion_eq nk hnk key (schedule_word S) (4 * (nr + 1)) h0 hrec _ (le_refl _),
    range_map_getD_nil _ (by omega : 4 * r < 4 * (nr + 1)),
    range_map_getD_nil _ (by omega : 4 * r + 1 < 4 * (nr + 1)),
    range_map_getD_nil _ (by omega : 4 * r + 2 < 4 * (nr + 1)),
    range_map_getD_nil _ (by omega : 4 * r + 3 < 4 * (nr + 1))]
  have e := schedule_word_lane S r 0 (by omega)
  rw [Nat.add_zero] at e
  rw [e, schedule_word_lane S r 1 (by omega), schedule_word_lane S r 2 (by omega),
    schedule_word_lane S r 3 (by omega)]
  exact lanes_append (hS r hr)

/-! ## AES-128 -/

theorem cons_of_le {α : Type} {l : List α} {n : Nat} (h : n + 1 ≤ l.length) :
    ∃ e rest, l = e :: rest ∧ n ≤ rest.length := by
  cases l with
  | nil => simp at h
  | cons e rest => exact ⟨e, rest, rfl, by simpa using h⟩

/-- The entries written by `aes128_load_key_encrypt_only`, in terms of `key128_entry`. -/
theorem aes128_load_key_encrypt_only_eq (key : List Nat) {ks : List M128} (h : 11 ≤ ks.length) :
    aes128_load_key_encrypt_only key ks =
      [key128_entry key 0, key128_entry key 1, key128_entry key 2, key128_entry key 3,
        key128_entry key 4, key128_entry key 5, key128_entry key 6, key128_entry key 7,
        key128_entry key 8, key128_entry key 9, key128_entry key 10] ++ ks.drop 11 := by
  iterate 11 (obtain ⟨_, _, rfl, h2⟩ := cons_of_le h; clear h; have h := h2; clear h2)
  unfold aes128_load_key_encrypt_only
  simp only [entry, List.getD_cons_zero, List.getD_cons_succ, List.set_cons_zero,
    List.set_cons_succ, List.drop_succ_cons, List.drop_zero, List.cons_append, List.nil_append]
  simp only [key128_entry, List.getD_cons_zero, List.getD_cons_succ]

/-- The entries written by `aes128_load_key`: all of the first 20, whatever the array held. -/
theorem aes128_load_key_eq (key : List Nat) {ks : List M128} (h : 20 ≤ ks.length) :
    aes128_load_key key ks =
      [key128_entry key 0, key128_entry key 1, key128_entry key 2, key128_entry key 3,
        key128_entry key 4, key128_entry key 5, key128_entry key 6, key128_entry key 7,
        key128_entry key 8, key128_entry key 9, key128_entry key 10,
        InvMixColumns (key128_entry key 9), InvMixColumns (key128_entry key 8),
        InvMixColumns (key128_entry key 7), InvMixColumns (key128_entry key 6),
        InvMixColumns (key128_entry key 5), InvMixColumns (key128_entry key 4),
        InvMixColumns (key128_entry key 3), InvMixColumns (key128_entry key 2),
        InvMixColumns (key128_entry key 1)] ++ ks.drop 20 := by
  rw [aes128_load_key, aes128_load_key_encrypt_only_eq key (by omega : 11 ≤ ks.length)]
  iterate 20 (obtain ⟨_, _, rfl, h2⟩ := cons_of_le h; clear h; have h := h2; clear h2)
  simp only [entry, _mm_aesimc_si128, List.getD_cons_zero, List.getD_cons_succ,
    List.set_cons_zero, List.set_cons_succ, List.drop_succ_cons, List.drop_zero,
    List.cons_append, List.nil_append]

theorem aes128_load_key_entry (key : List Nat) {ks : List M128} (h : 20 ≤ ks.length) {r : Nat}
    (hr : r ≤ 10) : entry (aes128_load_key key ks) r = key128_entry key r := by
  rw [aes128_load_key_eq key h]
  interval_cases r <;>
    simp only [entry, List.cons_append, List.getD_cons_zero, List.getD_cons_succ]

theorem aes128_load_key_encrypt_only_entry (key : List Nat) {ks : List M128}
    (h : 11 ≤ ks.length) {r : Nat} (hr : r ≤ 10) :
    entry (aes128_load_key_encrypt_only key ks) r = key128_entry key r := by
  rw [aes128_load_key_encrypt_only_eq key h]
  interval_cases r <;>
    simp only [entry, List.cons_append, List.getD_cons_zero, List.getD_cons_succ]

theorem AES_128_key_exp_bytes {k : M128} (h : Bytes 16 k) {rcon : Nat} (hr : rcon < 256) :
    Bytes 16 (AES_128_key_exp k rcon) := by
  have a := xor_bytes h (slli_bytes h 0x4)
  have b := xor_bytes a (slli_bytes a 0x4)
  have c := xor_bytes b (slli_bytes b 0x4)
  exact xor_bytes c (shuffle_bytes (keygenassist_bytes h hr) _)

theorem key128_entry_bytes {key : List Nat} (h : Bytes 16 key) :
    ∀ r, Bytes 16 (key128_entry key r) := by
  intro r
  induction r with
  | zero => exact loadu_bytes h.2 (by rw [h.1])
  | succ r ih => exact AES_128_key_exp_bytes ih (getD_lt (by decide) r)

/-- The schedule of `aes128_load_key` for a 16-byte key is a good schedule for 10 rounds. -/
theorem aes128_load_key_good {key : List Nat} (hk : Bytes 16 key) {ks : List M128}
    (h : 20 ≤ ks.length) : GoodScheduleAt 10 (aes128_load_key key ks) := by
  constructor
  · intro i hi
    rw [aes128_load_key_entry key h hi]
    exact key128_entry_bytes hk i
  · intro j h1 h10
    rw [aes128_load_key_eq key h]
    interval_cases j <;>
      simp only [entry, List.cons_append, List.getD_cons_zero, List.getD_cons_succ,
        Nat.reduceAdd, Nat.reduceSub]

theorem xor_left_comm (a b c : Nat) : a ^^^ (b ^^^ c) = b ^^^ (a ^^^ c) := by
  rw [← Nat.xor_assoc, Nat.xor_comm a b, Nat.xor_assoc]

/-- `AES_128_key_exp`, lane by lane: the FIPS-197 recurrence for the four words of a round
key. -/
theorem AES_128_key_exp_lanes {k : M128} (h : k.length = 16) (rc : Nat) :
    lane (AES_128_key_exp k rc) 0 =
        xor_word (xor_word (lane k 0) (SubWord (RotWord (lane k 3)))) [rc, 0, 0, 0] ∧
      lane (AES_128_key_exp k rc) 1 = xor_word (lane k 1) (lane (AES_128_key_exp k rc) 0) ∧
      lane (AES_128_key_exp k rc) 2 = xor_word (lane k 2) (lane (AES_128_key_exp k rc) 1) ∧
      lane (AES_128_key_exp k rc) 3 = xor_word (lane k 3) (lane (AES_128_key_exp k rc) 2) := by
  obtain ⟨a0, a1, a2, a3, a4, a5, a6, a7, a8, a9, a10, a11, a12, a13, a14, a15, rfl⟩ :=
    length_16 h
  simp only [AES_128_key_exp, aes128_key_expansion, _MM_SHUFFLE, _mm_aeskeygenassist_si128,
    _mm_shuffle_epi32, _mm_slli_si128, _mm_xor_si128, lane, SubWord, RotWord, xor_word,
    List.replicate, List.cons_append, List.nil_append, List.take, List.drop, List.map,
    List.zipWith, Nat.reduceMul, Nat.reduceDiv, Nat.reduceMod, Nat.reduceShiftLeft,
    Nat.reduceOr, Nat.xor_zero, Nat.zero_xor, List.append_nil, List.cons.injEq, and_true]
  simp only [Nat.xor_assoc, Nat.xor_comm, xor_left_comm, Nat.xor_cancel_left, Nat.xor_self,
    Nat.xor_zero, and_self]

theorem fips_next_word_4 (i : Nat) (a b : List Nat) :
    fips_next_word 4 i a b =
      if i % 4 = 0 then xor_word (xor_word a (SubWord (RotWord b))) (fips_Rcon (i / 4))
      else xor_word a b := by
  unfold fips_next_word
  split
  · rw [xor_word_assoc]
  · simp

/-- The FIPS-197 recurrence between consecutive entries written by
`aes128_load_key_encrypt_only`. -/
theorem key128_entry_lanes {key : List Nat} (hk : Bytes 16 key) (r : Nat) (hr : r < 10) :
    lane (key128_entry key (r + 1)) 0 =
        xor_word (xor_word (lane (key128_entry key r) 0)
          (SubWord (RotWord (lane (key128_entry key r) 3)))) (fips_Rcon (r + 1)) ∧
      lane (key128_entry key (r + 1)) 1 =
        xor_word (lane (key128_entry key r) 1) (lane (key128_entry key (r + 1)) 0) ∧
      lane (key128_entry key (r + 1)) 2 =
        xor_word (lane (key128_entry key r) 2) (lane (key128_entry key (r + 1)) 1) ∧
      lane (key128_entry key (r + 1)) 3 =
        xor_word (lane (key128_entry key r) 3) (lane (key128_entry key (r + 1)) 2) := by
  have hrc : [[0x01, 0x02, 0x04, 0x08, 0x10, 0x20, 0x40, 0x80, 0x1b, 0x36].getD r 0, 0, 0, 0] =
      fips_Rcon (r + 1) := by
    interval_cases r <;> decide
  rw [← hrc]
  exact AES_128_key_exp_lanes (key128_entry_bytes hk r).1 _

theorem aes128_words_key (K : List Nat) (ks : List M128) (hK : K.length = 16)
    (hks : 20 ≤ ks.length) (i : Nat) (hi : i < 4) :
    schedule_word (aes128_load_key K ks) i = key_word K i := by
  have e : i = 4 * 0 + i := by omega
  rw [e, schedule_word_lane _ 0 i hi, aes128_load_key_entry K hks (by omega), ← e]
  obtain ⟨a0, a1, a2, a3, a4, a5, a6, a7, a8, a9, a10, a11, a12, a13, a14, a15, rfl⟩ :=
    length_16 hK
  interval_cases i <;> rfl

theorem aes128_words_rec (K : List Nat) (ks : List M128) (hK : Bytes 16 K)
    (hks : 20 ≤ ks.length) (i : Nat) (h4 : 4 ≤ i) (h44 : i < 44) :
    schedule_word (aes128_load_key K ks) i =
      if i % 4 = 0 then
        xor_word (xor_word (schedule_word (aes128_load_key K ks) (i - 4))
          (SubWord (RotWord (schedule_word (aes128_load_key K ks) (i - 1)))))
          (fips_Rcon (i / 4))
      else
        xor_word (schedule_word (aes128_load_key K ks) (i - 4))
          (schedule_word (aes128_load_key K ks) (i - 1)) := by
  obtain ⟨r, k, hk, hr, rfl⟩ : ∃ r k, k < 4 ∧ r < 10 ∧ i = 4 * (r + 1) + k :=
    ⟨i / 4 - 1, i % 4, by omega, by omega, by omega⟩
  have hm : (4 * (r + 1) + k) % 4 = k := by omega
  have hd : (4 * (r + 1) + k) / 4 = r + 1 := by omega
  have hb : 4 * (r + 1) + k - 4 = 4 * r + k := by omega
  have hl := key128_entry_lanes hK r hr
  rw [hm, hd, hb, schedule_word_lane _ (r + 1) k hk, schedule_word_lane _ r k hk,
    aes128_load_key_entry K hks (by omega : r + 1 ≤ 10),
    aes128_load_key_entry K hks (by omega : r ≤ 10)]
  interval_cases k
  · have e : 4 * (r + 1) + 0 - 1 = 4 * r + 3 := by omega
    rw [e, schedule_word_lane _ r 3 (by omega), aes128_load_key_entry K hks (by omega : r ≤ 10),
      if_pos rfl]
    exact hl.1
  · have e : 4 * (r + 1) + 1 - 1 = 4 * (r + 1) + 0 := by omega
    rw [e, schedule_word_lane _ (r + 1) 0 (by omega),
      aes128_load_key_entry K hks (by omega : r + 1 ≤ 10), if_neg (by decide)]
    exact hl.2.1
  · have e : 4 * (r + 1) + 2 - 1 = 4 * (r + 1) + 1 := by omega
    rw [e, schedule_word_lane _ (r + 1) 1 (by omega),
      aes128_load_key_entry K hks (by omega : r + 1 ≤ 10), if_neg (by decide)]
    exact hl.2.2.1
  · have e : 4 * (r + 1) + 3 - 1 = 4 * (r + 1) + 2 := by omega
    rw [e, schedule_word_lane _ (r + 1) 2 (by omega),
      aes128_load_key_entry K hks (by omega : r + 1 ≤ 10), if_neg (by decide)]
    exact hl.2.2.2

/-- The entries 0..10 written by `aes128_load_key` are the round keys of the FIPS-197
`KeyExpansion` of the key. -/
theorem aes128_load_key_fips (K : List Nat) (ks : List M128) (hK : Bytes 16 K)
    (hks : 20 ≤ ks.length) (r : Nat) (hr : r ≤ 10) :
    entry (fips_round_keys 4 10 K) r = entry (aes128_load_key K ks) r := by
  refine fips_round_keys_entry 4 10 (by decide) K _ ?_ (aes128_words_key K ks hK.1 hks) ?_ r hr
  · intro j hj
    exact ((aes128_load_key_good hK hks).1 j hj).1
  · intro i h4 h44
    rw [fips_next_word_4]
    exact aes128_words_rec K ks hK hks i h4 (by omega)

theorem aes128_encrypt_eq (S : List M128) (P : List Nat) :
    aes128_encrypt S P = _mm_aesenclast_si128
      (enc_rounds S (10 - 1) (_mm_xor_si128 (_mm_loadu_si128 P 0) (entry S 0))) (entry S 10) :=
  rfl

theorem aes128_decrypt_eq (S : List M128) (C : List Nat) :
    aes128_decrypt S C = _mm_aesdeclast_si128
      (dec_rounds_at 10 S (10 - 1) (_mm_xor_si128 (_mm_loadu_si128 C 0) (entry S 10)))
      (entry S 0) := rfl

theorem aes128_encrypt_fips (K P : List Nat) (ks : List M128) (hK : Bytes 16 K)
    (hP : Bytes 16 P) (hks : 20 ≤ ks.length) :
    aes128_encrypt (aes128_load_key K ks) P = fips_encrypt 4 10 K P := by
  rw [aes128_encrypt_eq, enc_eq_fips_cipher_nr 10 _ (aes128_load_key_good hK hks).1 P hP,
    fips_encrypt]
  exact (fips_cipher_nr_congr 10 (aes128_load_key_fips K ks hK hks) P).symm

theorem aes128_decrypt_encrypt_eq (K P : List Nat) (ks : List M128) (hK : Bytes 16 K)
    (hP : Bytes 16 P) (hks : 20 ≤ ks.length) :
    aes128_decrypt (aes128_load_key K ks) (aes128_encrypt (aes128_load_key K ks) P) = P := by
  rw [aes128_decrypt_eq, aes128_encrypt_eq]
  exact decrypt_encrypt_at 10 (by decide) _ (aes128_load_key_good hK hks) P hP

set_option maxRecDepth 100000 in
theorem aes128_vectors :
    fips_encrypt 4 10 test_key_128 test_plain = test_cipher_128 ∧
      fips_encrypt 4 10 test2_key_128 test2_plain_128 = test2_cipher_128 ∧
      fips_round_keys 4 10 zero_key_128 = test_subkeys_128 := by
  decide!

set_option maxRecDepth 100000 in
theorem key128_entries_zero :
    [key128_entry zero_key_128 0, key128_entry zero_key_128 1, key128_entry zero_key_128 2,
      key128_entry zero_key_128 3, key128_entry zero_key_128 4, key128_entry zero_key_128 5,
      key128_entry zero_key_128 6, key128_entry zero_key_128 7, key128_entry zero_key_128 8,
      key128_entry zero_key_128 9, key128_entry zero_key_128 10] = test_subkeys_128 := by
  decide!

theorem aes128_keygen_zero (ks : List M128) (hks : 20 ≤ ks.length) :
    (aes128_load_key zero_key_128 ks).take 11 = test_subkeys_128 := by
  rw [aes128_load_key_eq zero_key_128 hks, ← key128_entries_zero]
  simp only [List.cons_append, List.take_succ_cons, List.take_zero]

theorem aes128_load_key_length (key : List Nat) {ks : List M128} (h : 20 ≤ ks.length) :
    (aes128_load_key key ks).length = ks.length := by
  rw [aes128_load_key_eq key h, List.length_append, List.length_drop]
  simp only [List.length_cons, List.length_nil]
  omega

/-- C25: the AES-128 key schedule is the FIPS-197 `KeyExpansion` with `Nk = 4`. For every
16-byte key `K` and schedule array of at least 20 entries, reading entries 0..10 written by
`aes128_load_key` as the 44 four-byte words `w[0..43]`, `w[0..3]` are the words of `K`, and
for `i` in `[4, 44)`: `w[i] = w[i-4] ^ SubWord (RotWord w[i-1]) ^ Rcon[i/4]` when
`i mod 4 = 0` and `w[i] = w[i-4] ^ w[i-1]` otherwise, where `Rcon[1..10]`, the powers of `x`
in GF(2^8), are `01, 02, 04, 08, 10, 20, 40, 80, 1b, 36` in the first byte of the word.
Entries 0..10 are those written by `aes128_load_key_encrypt_only` and are the round keys of
the reference `KeyExpansion`; for the all-zero key they are the constants `key0` .. `key10`
of `aes128_keygen_tests`. -/
theorem aes128_key_schedule_fips (K : List Nat) (ks : List M128) (hK : Bytes 16 K)
    (hks : 20 ≤ ks.length) :
    (∀ i, i < 4 → schedule_word (aes128_load_key K ks) i = key_word K i) ∧
    (∀ i, 4 ≤ i → i < 44 →
      schedule_word (aes128_load_key K ks) i =
        if i % 4 = 0 then
          xor_word (xor_word (schedule_word (aes128_load_key K ks) (i - 4))
            (SubWord (RotWord (schedule_word (aes128_load_key K ks) (i - 1)))))
            (fips_Rcon (i / 4))
        else
          xor_word (schedule_word (aes128_load_key K ks) (i - 4))
            (schedule_word (aes128_load_key K ks) (i - 1))) ∧
    [fips_Rcon 1, fips_Rcon 2, fips_Rcon 3, fips_Rcon 4, fips_Rcon 5, fips_Rcon 6, fips_Rcon 7,
        fips_Rcon 8, fips_Rcon 9, fips_Rcon 10] =
      [[0x01, 0, 0, 0], [0x02, 0, 0, 0], [0x04, 0, 0, 0], [0x08, 0, 0, 0], [0x10, 0, 0, 0],
        [0x20, 0, 0, 0], [0x40, 0, 0, 0], [0x80, 0, 0, 0], [0x1b, 0, 0, 0], [0x36, 0, 0, 0]] ∧
    (∀ r, r ≤ 10 →
      entry (aes128_load_key K ks) r = entry (aes128_load_key_encrypt_only K ks) r ∧
        entry (aes128_load_key K ks) r = entry (fips_round_keys 4 10 K) r) ∧
    (aes128_load_key zero_key_128 ks).take 11 = test_subkeys_128 := by
  refine ⟨aes128_words_key K ks hK.1 hks, aes128_words_rec K ks hK hks, by decide, ?_,
    aes128_keygen_zero ks hks⟩
  intro r hr
  refine ⟨?_, (aes128_load_key_fips K ks hK hks r hr).symm⟩
  rw [aes128_load_key_entry K hks hr, aes128_load_key_encrypt_only_entry K (by omega) hr]

theorem aes128_key_schedule_fips_witness :
    Bytes 16 test2_key_128 ∧ 20 ≤ zero_schedule_24.length ∧
    ((∀ i, i < 4 →
      schedule_word (aes128_load_key test2_key_128 zero_schedule_24) i =
        key_word test2_key_128 i) ∧
    (∀ i, 4 ≤ i → i < 44 →
      schedule_word (aes128_load_key test2_key_128 zero_schedule_24) i =
        if i % 4 = 0 then
          xor_word (xor_word (schedule_word (aes128_load_key test2_key_128 zero_schedule_24)
            (i - 4))
            (SubWord (RotWord (schedule_word (aes128_load_key test2_key_128 zero_schedule_24)
              (i - 1)))))
            (fips_Rcon (i / 4))
        else
          xor_word (schedule_word (aes128_load_key test2_key_128 zero_schedule_24) (i - 4))
            (schedule_word (aes128_load_key test2_key_128 zero_schedule_24) (i - 1))) ∧
    [fips_Rcon 1, fips_Rcon 2, fips_Rcon 3, fips_Rcon 4, fips_Rcon 5, fips_Rcon 6, fips_Rcon 7,
        fips_Rcon 8, fips_Rcon 9, fips_Rcon 10] =
      [[0x01, 0, 0, 0], [0x02, 0, 0, 0], [0x04, 0, 0, 0], [0x08, 0, 0, 0], [0x10, 0, 0, 0],
        [0x20, 0, 0, 0], [0x40, 0, 0, 0], [0x80, 0, 0, 0], [0x1b, 0, 0, 0], [0x36, 0, 0, 0]] ∧
    (∀ r, r ≤ 10 →
      entry (aes128_load_key test2_key_128 zero_schedule_24) r =
          entry (aes128_load_key_encrypt_only test2_key_128 zero_schedule_24) r ∧
        entry (aes128_load_key test2_key_128 zero_schedule_24) r =
          entry (fips_round_keys 4 10 test2_key_128) r) ∧
    (aes128_load_key zero_key_128 zero_schedule_24).take 11 = test_subkeys_128) :=
  ⟨by decide, by decide,
    aes128_key_schedule_fips test2_key_128 zero_schedule_24 (by decide) (by decide)⟩

/-- C26: AES-128 encryption is the FIPS-197 cipher with `Nr = 10`. For every 16-byte key `K`,
every 16-byte block `P` and every schedule array of at least 20 entries, `aes128_encrypt` on
the schedule written by `aes128_load_key` is the reference encryption (`Cipher` of figure 5
on the `KeyExpansion` of `K`), and is `Cipher` on the entries 0..10 of the schedule. The key
`00 01 .. 0f` encrypts `00 11 .. ff` to `69 c4 e0 d8 6a 7b 04 30 d8 cd b7 80 70 b4 c5 5a`
(`aes128_encrypt_test`) and the key `2b 7e 15 16 28 ae d2 a6 ab f7 15 88 09 cf 4f 3c` encrypts
`32 43 f6 a8 88 5a 30 8d 31 31 98 a2 e0 37 07 34` to
`39 25 84 1d 02 dc 09 fb dc 11 85 97 19 6a 0b 32` (`aes128_encrypt_test2`). -/
theorem aes128_encrypt_is_fips (K P : List Nat) (ks : List M128) (hK : Bytes 16 K)
    (hP : Bytes 16 P) (hks : 20 ≤ ks.length) :
    aes128_encrypt (aes128_load_key K ks) P = fips_encrypt 4 10 K P ∧
    aes128_encrypt (aes128_load_key K ks) P = fips_cipher_nr 10 (aes128_load_key K ks) P ∧
    aes128_encrypt (aes128_load_key test_key_128 ks) test_plain = test_cipher_128 ∧
    aes128_encrypt (aes128_load_key test2_key_128 ks) test2_plain_128 = test2_cipher_128 := by
  refine ⟨aes128_encrypt_fips K P ks hK hP hks, ?_, ?_, ?_⟩
  · rw [aes128_encrypt_eq]
    exact enc_eq_fips_cipher_nr 10 _ (aes128_load_key_good hK hks).1 P hP
  · rw [aes128_encrypt_fips _ _ ks (by decide) (by decide) hks]
    exact aes128_vectors.1
  · rw [aes128_encrypt_fips _ _ ks (by decide) (by decide) hks]
    exact aes128_vectors.2.1

theorem aes128_encrypt_is_fips_witness :
    Bytes 16 test2_key_128 ∧ Bytes 16 test_plain ∧ 20 ≤ zero_schedule_24.length ∧
    (aes128_encrypt (aes128_load_key test2_key_128 zero_schedule_24) test_plain =
        fips_encrypt 4 10 test2_key_128 test_plain ∧
    aes128_encrypt (aes128_load_key test2_key_128 zero_schedule_24) test_plain =
        fips_cipher_nr 10 (aes128_load_key test2_key_128 zero_schedule_24) test_plain ∧
    aes128_encrypt (aes128_load_key test_key_128 zero_schedule_24) test_plain =
        test_cipher_128 ∧
    aes128_encrypt (aes128_load_key test2_key_128 zero_schedule_24) test2_plain_128 =
        test2_cipher_128) :=
  ⟨by decide, by decide, by decide,
    aes128_encrypt_is_fips test2_key_128 test_plain zero_schedule_24 (by decide) (by decide)
      (by decide)⟩

/-- C27: AES-128 decryption undoes encryption. For every 16-byte key `K`, every 16-byte block
`P` and every schedule array of at least 20 entries, with `S` the schedule written by
`aes128_load_key` for `K`, `aes128_decrypt (S, aes128_encrypt (S, P)) = P`; the array keeps
its length, entries 0..10 of `S` are the encryption round keys and entry `10 + j` is
`InvMixColumns` of entry `10 - j` for `j = 1..9`. The two ciphertexts of the tests decrypt to
their plaintexts (`aes128_decrypt_test`, `aes128_decrypt_test2`). -/
theorem aes128_decrypt_undoes_encrypt (K P : List Nat) (ks : List M128) (hK : Bytes 16 K)
    (hP : Bytes 16 P) (hks : 20 ≤ ks.length) :
    aes128_decrypt (aes128_load_key K ks) (aes128_encrypt (aes128_load_key K ks) P) = P ∧
    (aes128_load_key K ks).length = ks.length ∧
    (∀ r, r ≤ 10 →
      entry (aes128_load_key K ks) r = entry (aes128_load_key_encrypt_only K ks) r) ∧
    (∀ j, 1 ≤ j → j ≤ 9 →
      entry (aes128_load_key K ks) (10 + j) =
        InvMixColumns (entry (aes128_load_key K ks) (10 - j))) ∧
    aes128_decrypt (aes128_load_key test_key_128 ks) test_cipher_128 = test_plain ∧
    aes128_decrypt (aes128_load_key test2_key_128 ks) test2_cipher_128 = test2_plain_128 := by
  have e1 : aes128_encrypt (aes128_load_key test_key_128 ks) test_plain = test_cipher_128 := by
    rw [aes128_encrypt_fips _ _ ks (by decide) (by decide) hks]
    exact aes128_vectors.1
  have e2 : aes128_encrypt (aes128_load_key test2_key_128 ks) test2_plain_128 =
      test2_cipher_128 := by
    rw [aes128_encrypt_fips _ _ ks (by decide) (by decide) hks]
    exact aes128_vectors.2.1
  refine ⟨aes128_decrypt_encrypt_eq K P ks hK hP hks, aes128_load_key_length K hks, ?_,
    fun j h1 h9 => (aes128_load_key_good hK hks).2 j h1 (by omega), ?_, ?_⟩
  · intro r hr
    rw [aes128_load_key_entry K hks hr, aes128_load_key_encrypt_only_entry K (by omega) hr]
  · rw [← e1]
    exact aes128_decrypt_encrypt_eq _ _ ks (by decide) (by decide) hks
  · rw [← e2]
    exact aes128_decrypt_encrypt_eq _ _ ks (by decide) (by decide) hks

theorem aes128_decrypt_undoes_encrypt_witness :
    Bytes 16 test2_key_128 ∧ Bytes 16 test_plain ∧ 20 ≤ zero_schedule_24.length ∧
    (aes128_decrypt (aes128_load_key test2_key_128 zero_schedule_24)
        (aes128_encrypt (aes128_load_key test2_key_128 zero_schedule_24) test_plain) =
      test_plain ∧
    (aes128_load_key test2_key_128 zero_schedule_24).length = zero_schedule_24.length ∧
    (∀ r, r ≤ 10 →
      entry (aes128_load_key test2_key_128 zero_schedule_24) r =
        entry (aes128_load_key_encrypt_only test2_key_128 zero_schedule_24) r) ∧
    (∀ j, 1 ≤ j → j ≤ 9 →
      entry (aes128_load_key test2_key_128 zero_schedule_24) (10 + j) =
        InvMixColumns (entry (aes128_load_key test2_key_128 zero_schedule_24) (10 - j))) ∧
    aes128_decrypt (aes128_load_key test_key_128 zero_schedule_24) test_cipher_128 =
      test_plain ∧
    aes128_decrypt (aes128_load_key test2_key_128 zero_schedule_24) test2_cipher_128 =
      test2_plain_128) :=
  ⟨by decide, by decide, by decide,
    aes128_decrypt_undoes_encrypt test2_key_128 test_plain zero_schedule_24 (by decide)
      (by decide) (by decide)⟩

/-! ## AES-192 -/

/-- The entries written by `aes192_load_key_encrypt_only`, in terms of `key192_pair`. -/
theorem aes192_load_key_encrypt_only_eq (key : List Nat) {ks : List M128} (h : 13 ≤ ks.length) :
    aes192_load_key_encrypt_only key ks =
      [(key192_pair key 0).1,
        _mm_shuffle_pd (key192_pair key 0).2 (key192_pair key 1).1 0,
        _mm_shuffle_pd (key192_pair key 1).1 (key192_pair key 1).2 1,
        (key192_pair key 2).1,
        _mm_shuffle_pd (key192_pair key 2).2 (key192_pair key 3).1 0,
        _mm_shuffle_pd (key192_pair key 3).1 (key192_pair key 3).2 1,
        (key192_pair key 4).1,
        _mm_shuffle_pd (key192_pair key 4).2 (key192_pair key 5).1 0,
        _mm_shuffle_pd (key192_pair key 5).1 (key192_pair key 5).2 1,
        (key192_pair key 6).1,
        _mm_shuffle_pd (key192_pair key 6).2 (key192_pair key 7).1 0,
        _mm_shuffle_pd (key192_pair key 7).1 (key192_pair key 7).2 1,
        (key192_pair key 8).1] ++ ks.drop 13 := by
  iterate 13 (obtain ⟨_, _, rfl, h2⟩ := cons_of_le h; clear h; have h := h2; clear h2)
  unfold aes192_load_key_encrypt_only
  simp only [entry, List.getD_cons_zero, List.getD_cons_succ, List.set_cons_zero,
    List.set_cons_succ, List.drop_succ_cons, List.drop_zero, List.cons_append, List.nil_append]
  simp only [key192_pair, List.getD_cons_zero, List.getD_cons_succ]

/-- The entries written by `aes192_load_key`: all of the first 24, whatever the array held. -/
theorem aes192_load_key_eq (key : List Nat) {ks : List M128} (h : 24 ≤ ks.length) :
    aes192_load_key key ks =
      [(key192_pair key 0).1,
        _mm_shuffle_pd (key192_pair key 0).2 (key192_pair key 1).1 0,
        _mm_shuffle_pd (key192_pair key 1).1 (key192_pair key 1).2 1,
        (key192_pair key 2).1,
        _mm_shuffle_pd (key192_pair key 2).2 (key192_pair key 3).1 0,
        _mm_shuffle_pd (key192_pair key 3).1 (key192_pair key 3).2 1,
        (key192_pair key 4).1,
        _mm_shuffle_pd (key192_pair key 4).2 (key192_pair key 5).1 0,
        _mm_shuffle_pd (key192_pair key 5).1 (key192_pair key 5).2 1,
        (key192_pair key 6).1,
        _mm_shuffle_pd (key192_pair key 6).2 (key192_pair key 7).1 0,
        _mm_shuffle_pd (key192_pair key 7).1 (key192_pair key 7).2 1,
        (key192_pair key 8).1,
        InvMixColumns (_mm_shuffle_pd (key192_pair key 7).1 (key192_pair key 7).2 1),
        InvMixColumns (_mm_shuffle_pd (key192_pair key 6).2 (key192_pair key 7).1 0),
        InvMixColumns (key192_pair key 6).1,
        InvMixColumns (_mm_shuffle_pd (key192_pair key 5).1 (key192_pair key 5).2 1),
        InvMixColumns (_mm_shuffle_pd (key192_pair key 4).2 (key192_pair key 5).1 0),
        InvMixColumns (key192_pair key 4).1,
        InvMixColumns (_mm_shuffle_pd (key192_pair key 3).1 (key192_pair key 3).2 1),
        InvMixColumns (_mm_shuffle_pd (key192_pair key 2).2 (key192_pair key 3).1 0),
        InvMixColumns (key192_pair key 2).1,
        InvMixColumns (_mm_shuffle_pd (key192_pair key 1).1 (key192_pair key 1).2 1),
        InvMixColumns (_mm_shuffle_pd (key192_pair key 0).2 (key192_pair key 1).1 0)]
        ++ ks.drop 24 := by
  rw [aes192_load_key, aes192_load_key_encrypt_only_eq key (by omega : 13 ≤ ks.length)]
  iterate 24 (obtain ⟨_, _, rfl, h2⟩ := cons_of_le h; clear h; have h := h2; clear h2)
  simp only [entry, _mm_aesimc_si128, List.getD_cons_zero, List.getD_cons_succ,
    List.set_cons_zero, List.set_cons_succ, List.drop_succ_cons, List.drop_zero,
    List.cons_append, List.nil_append]

theorem shuffle_pd_bytes {a b : M128} (ha : Bytes 16 a) (hb : Bytes 16 b) (imm : Nat) :
    Bytes 16 (_mm_shuffle_pd a b imm) := by
  refine ⟨?_, ?_⟩
  · simp only [_mm_shuffle_pd, List.length_append]
    split <;> split <;> simp only [List.length_take, List.length_drop, ha.1, hb.1] <;> rfl
  · intro x hx
    simp only [_mm_shuffle_pd, List.mem_append] at hx
    rcases hx with hx | hx
    · split at hx
      · exact ha.2 x (List.mem_of_mem_take hx)
      · exact ha.2 x (List.mem_of_mem_drop (List.mem_of_mem_take hx))
    · split at hx
      · exact hb.2 x (List.mem_of_mem_take hx)
      · exact hb.2 x (List.mem_of_mem_drop (List.mem_of_mem_take hx))

theorem shuffle_pd_zero_lanes (a b : M128) (ha : a.length = 16) (hb : b.length = 16) :
    lane (_mm_shuffle_pd a b 0) 0 = lane a 0 ∧ lane (_mm_shuffle_pd a b 0) 1 = lane a 1 ∧
      lane (_mm_shuffle_pd a b 0) 2 = lane b 0 ∧ lane (_mm_shuffle_pd a b 0) 3 = lane b 1 := by
  obtain ⟨a0, a1, a2, a3, a4, a5, a6, a7, a8, a9, a10, a11, a12, a13, a14, a15, rfl⟩ :=
    length_16 ha
  obtain ⟨b0, b1, b2, b3, b4, b5, b6, b7, b8, b9, b10, b11, b12, b13, b14, b15, rfl⟩ :=
    length_16 hb
  exact ⟨rfl, rfl, rfl, rfl⟩

theorem shuffle_pd_one_lanes (a b : M128) (ha : a.length = 16) (hb : b.length = 16) :
    lane (_mm_shuffle_pd a b 1) 0 = lane a 2 ∧ lane (_mm_shuffle_pd a b 1) 1 = lane a 3 ∧
      lane (_mm_shuffle_pd a b 1) 2 = lane b 0 ∧ lane (_mm_shuffle_pd a b 1) 3 = lane b 1 := by
  obtain ⟨a0, a1, a2, a3, a4, a5, a6, a7, a8, a9, a10, a11, a12, a13, a14, a15, rfl⟩ :=
    length_16 ha
  obtain ⟨b0, b1, b2, b3, b4, b5, b6, b7, b8, b9, b10, b11, b12, b13, b14, b15, rfl⟩ :=
    length_16 hb
  exact ⟨rfl, rfl, rfl, rfl⟩

theorem aes192_key_expansion_bytes {temp1 temp2 temp3 : M128} (h1 : Bytes 16 temp1)
    (h2 : Bytes 16 temp2) (h3 : Bytes 16 temp3) :
    Bytes 16 (aes192_key_expansion temp1 temp2 temp3).1 ∧
      Bytes 16 (aes192_key_expansion temp1 temp2 temp3).2.2 := by
  have a := slli_bytes h1 0x4
  have b := slli_bytes a 0x4
  have c := slli_bytes b 0x4
  have n1 := xor_bytes (xor_bytes (xor_bytes (xor_bytes h1 a) b) c) (shuffle_bytes h2 0x55)
  exact ⟨n1, xor_bytes (xor_bytes h3 (slli_bytes h3 0x4)) (shuffle_bytes n1 0xff)⟩

theorem key192_pair_bytes {key : List Nat} (h : ∀ b ∈ key, b < 256) (hl : 32 ≤ key.length) :
    ∀ r, Bytes 16 (key192_pair key r).1 ∧ Bytes 16 (key192_pair key r).2 := by
  intro r
  induction r with
  | zero => exact ⟨loadu_bytes h (by omega), loadu_bytes h (by omega)⟩
  | succ r ih =>
    exact aes192_key_expansion_bytes ih.1 (keygenassist_bytes ih.2 (getD_lt (by decide) r)) ih.2

theorem aes192_key_expansion_fst (t1 t2 t3 : M128) :
    (aes192_key_expansion t1 t2 t3).1 =
      _mm_xor_si128 (_mm_xor_si128 (_mm_xor_si128 (_mm_xor_si128 t1 (_mm_slli_si128 t1 0x4))
        (_mm_slli_si128 (_mm_slli_si128 t1 0x4) 0x4))
        (_mm_slli_si128 (_mm_slli_si128 (_mm_slli_si128 t1 0x4) 0x4) 0x4))
        (_mm_shuffle_epi32 t2 0x55) := rfl

theorem aes192_key_expansion_snd (t1 t2 t3 : M128) :
    (aes192_key_expansion t1 t2 t3).2.2 =
      _mm_xor_si128 (_mm_xor_si128 t3 (_mm_slli_si128 t3 0x4))
        (_mm_shuffle_epi32 (aes192_key_expansion t1 t2 t3).1 0xff) := rfl

theorem aes192_lanes_fst {t1 t3 : M128} (h1 : t1.length = 16) (h3 : t3.length = 16)
    (rc : Nat) :
    lane (aes192_key_expansion t1 (_mm_aeskeygenassist_si128 t3 rc) t3).1 0 =
        xor_word (xor_word (lane t1 0) (SubWord (RotWord (lane t3 1)))) [rc, 0, 0, 0] ∧
      lane (aes192_key_expansion t1 (_mm_aeskeygenassist_si128 t3 rc) t3).1 1 =
        xor_word (lane t1 1)
          (lane (aes192_key_expansion t1 (_mm_aeskeygenassist_si128 t3 rc) t3).1 0) ∧
      lane (aes192_key_expansion t1 (_mm_aeskeygenassist_si128 t3 rc) t3).1 2 =
        xor_word (lane t1 2)
          (lane (aes192_key_expansion t1 (_mm_aeskeygenassist_si128 t3 rc) t3).1 1) ∧
      lane (aes192_key_expansion t1 (_mm_aeskeygenassist_si128 t3 rc) t3).1 3 =
        xor_word (lane t1 3)
          (lane (aes192_key_expansion t1 (_mm_aeskeygenassist_si128 t3 rc) t3).1 2) := by
  rw [aes192_key_expansion_fst]
  obtain ⟨a0, a1, a2, a3, a4, a5, a6, a7, a8, a9, a10, a11, a12, a13, a14, a15, rfl⟩ :=
    length_16 h1
  obtain ⟨b0, b1, b2, b3, b4, b5, b6, b7, b8, b9, b10, b11, b12, b13, b14, b15, rfl⟩ :=
    length_16 h3
  simp only [_mm_aeskeygenassist_si128, _mm_shuffle_epi32, _mm_slli_si128,
    _mm_xor_si128, lane, SubWord, RotWord, xor_word, List.replicate, List.cons_append,
    List.nil_append, List.take, List.drop, List.map, List.zipWith, Nat.reduceMul, Nat.reduceDiv,
    Nat.reduceMod, Nat.xor_zero, Nat.zero_xor, List.append_nil, List.cons.injEq, and_true]
  simp only [Nat.xor_assoc, Nat.xor_comm, xor_left_comm, Nat.xor_cancel_left, Nat.xor_self,
    Nat.xor_zero, and_self]

theorem aes192_lanes_snd {n1 t3 : M128} (h1 : n1.length = 16) (h3 : t3.length = 16) :
    lane (_mm_xor_si128 (_mm_xor_si128 t3 (_mm_slli_si128 t3 0x4)) (_mm_shuffle_epi32 n1 0xff)) 0 =
        xor_word (lane t3 0) (lane n1 3) ∧
      lane (_mm_xor_si128 (_mm_xor_si128 t3 (_mm_slli_si128 t3 0x4))
          (_mm_shuffle_epi32 n1 0xff)) 1 =
        xor_word (lane t3 1)
          (lane (_mm_xor_si128 (_mm_xor_si128 t3 (_mm_slli_si128 t3 0x4))
            (_mm_shuffle_epi32 n1 0xff)) 0) := by
  obtain ⟨a0, a1, a2, a3, a4, a5, a6, a7, a8, a9, a10, a11, a12, a13, a14, a15, rfl⟩ :=
    length_16 h1
  obtain ⟨b0, b1, b2, b3, b4, b5, b6, b7, b8, b9, b10, b11, b12, b13, b14, b15, rfl⟩ :=
    length_16 h3
  simp only [_mm_shuffle_epi32, _mm_slli_si128,
    _mm_xor_si128, lane, xor_word, List.replicate, List.cons_append,
    List.nil_append, List.take, List.drop, List.map, List.zipWith, Nat.reduceMul, Nat.reduceDiv,
    Nat.reduceMod, Nat.xor_zero, Nat.zero_xor, List.append_nil, List.cons.injEq, and_true]
  simp only [Nat.xor_assoc, Nat.xor_comm, xor_left_comm, Nat.xor_cancel_left, Nat.xor_self,
    Nat.xor_zero, and_self]
theorem fips_next_word_6 (i : Nat) (a b : List Nat) :
    fips_next_word 6 i a b =
      if i % 6 = 0 then xor_word (xor_word a (SubWord (RotWord b))) (fips_Rcon (i / 6))
      else xor_word a b := by
  unfold fips_next_word
  split
  · rw [xor_word_assoc]
  · simp

theorem pair_word_lanes (p : M128 × M128) :
    pair_word p 0 = lane p.1 0 ∧ pair_word p 1 = lane p.1 1 ∧ pair_word p 2 = lane p.1 2 ∧
      pair_word p 3 = lane p.1 3 ∧ pair_word p 4 = lane p.2 0 ∧ pair_word p 5 = lane p.2 1 :=
  ⟨rfl, rfl, rfl, rfl, rfl, rfl⟩

theorem key192_pair_succ (key : List Nat) (e : Nat) :
    key192_pair key (e + 1) =
      ((aes192_key_expansion (key192_pair key e).1
          (_mm_aeskeygenassist_si128 (key192_pair key e).2
            ([0x1, 0x2, 0x4, 0x8, 0x10, 0x20, 0x40, 0x80].getD e 0))
          (key192_pair key e).2).1,
        (aes192_key_expansion (key192_pair key e).1
          (_mm_aeskeygenassist_si128 (key192_pair key e).2
            ([0x1, 0x2, 0x4, 0x8, 0x10, 0x20, 0x40, 0x80].getD e 0))
          (key192_pair key e).2).2.2) := rfl

/-- The FIPS-197 recurrence between consecutive values of `(temp1, temp3)` in
`aes192_load_key_encrypt_only`, on the six words they hold. -/
theorem key192_pair_words {key : List Nat} (h : ∀ b ∈ key, b < 256) (hl : 32 ≤ key.length)
    (e : Nat) (he : e < 8) :
    pair_word (key192_pair key (e + 1)) 0 =
        xor_word (xor_word (pair_word (key192_pair key e) 0)
          (SubWord (RotWord (pair_word (key192_pair key e) 5)))) (fips_Rcon (e + 1)) ∧
      ∀ k, 1 ≤ k → k < 6 →
        pair_word (key192_pair key (e + 1)) k =
          xor_word (pair_word (key192_pair key e) k)
            (pair_word (key192_pair key (e + 1)) (k - 1)) := by
  have hb := key192_pair_bytes h hl e
  have hb1 := key192_pair_bytes h hl (e + 1)
  have hrc : [[0x1, 0x2, 0x4, 0x8, 0x10, 0x20, 0x40, 0x80].getD e 0, 0, 0, 0] =
      fips_Rcon (e + 1) := by
    interval_cases e <;> decide
  have h1 := aes192_lanes_fst hb.1.1 hb.2.1
    ([0x1, 0x2, 0x4, 0x8, 0x10, 0x20, 0x40, 0x80].getD e 0)
  have h2 := aes192_lanes_snd hb1.1.1 hb.2.1
  rw [key192_pair_succ] at h2
  rw [hrc] at h1
  obtain ⟨q0, q1, q2, q3, q4, q5⟩ := pair_word_lanes (key192_pair key e)
  obtain ⟨r0, r1, r2, r3, r4, r5⟩ := pair_word_lanes (key192_pair key (e + 1))
  rw [q0, q5, r0]
  refine ⟨h1.1, ?_⟩
  intro k hk1 hk6
  interval_cases k
  · rw [r1, q1, r0]; exact h1.2.1
  · rw [r2, q2, r1]; exact h1.2.2.1
  · rw [r3, q3, r2]; exact h1.2.2.2
  · rw [r4, q4, r3]; exact h2.1
  · rw [r5, q5, r4]; exact h2.2

/-- The words of the entries 0..12 written by `aes192_load_key`, in terms of `key192_pair`:
word `i` of the schedule is word `i mod 6` of the pair after `i / 6` expansions. -/
theorem aes192_entry_words {key : List Nat} (h : ∀ b ∈ key, b < 256) (hl : 32 ≤ key.length)
    {ks : List M128} (hks : 24 ≤ ks.length) (r k : Nat) (hr : r ≤ 12) (hk : k < 4) :
    lane (entry (aes192_load_key key ks) r) k =
      pair_word (key192_pair key ((4 * r + k) / 6)) ((4 * r + k) % 6) := by
  have l1 : ∀ n, (key192_pair key n).1.length = 16 := fun n => (key192_pair_bytes h hl n).1.1
  have l2 : ∀ n, (key192_pair key n).2.length = 16 := fun n => (key192_pair_bytes h hl n).2.1
  have z := fun n m => shuffle_pd_zero_lanes _ _ (l2 n) (l1 m)
  have o := fun n m => shuffle_pd_one_lanes _ _ (l1 n) (l2 m)
  rw [aes192_load_key_eq key hks]
  interval_cases r <;> interval_cases k <;>
    simp only [entry, List.cons_append, List.getD_cons_zero, List.getD_cons_succ,
      pair_word_lanes, Nat.reduceMul, Nat.reduceAdd, Nat.reduceDiv, Nat.reduceMod, z, o]

theorem aes192_schedule_word {key : List Nat} (h : ∀ b ∈ key, b < 256) (hl : 32 ≤ key.length)
    {ks : List M128} (hks : 24 ≤ ks.length) (i : Nat) (hi : i < 52) :
    schedule_word (aes192_load_key key ks) i = pair_word (key192_pair key (i / 6)) (i % 6) := by
  have e : 4 * (i / 4) + i % 4 = i := by omega
  have t := aes192_entry_words h hl hks (i / 4) (i % 4) (by omega) (by omega)
  rw [e] at t
  exact t

theorem length_24 {α : Type} {l : List α} (h : l.length = 24) :
    ∃ k0 k1 k2 k3 k4 k5 k6 k7 k8 k9 k10 k11 k12 k13 k14 k15 k16 k17 k18 k19 k20 k21 k22 k23 : α,
      l = [k0, k1, k2, k3, k4, k5, k6, k7, k8, k9, k10, k11, k12, k13, k14, k15, k16, k17, k18,
        k19, k20, k21, k22, k23] := by
  match l, h with
  | [k0, k1, k2, k3, k4, k5, k6, k7, k8, k9, k10, k11, k12, k13, k14, k15, k16, k17, k18, k19,
    k20, k21, k22, k23], _ =>
    exact ⟨k0, k1, k2, k3, k4, k5, k6, k7, k8, k9, k10, k11, k12, k13, k14, k15, k16, k17, k18,
      k19, k20, k21, k22, k23, rfl⟩

theorem aes192_words_key (K tail : List Nat) (hK : K.length = 24) (ht : 8 ≤ tail.length)
    (i : Nat) (hi : i < 6) :
    pair_word (key192_pair (K ++ tail) 0) i = key_word K i := by
  obtain ⟨k0, k1, k2, k3, k4, k5, k6, k7, k8, k9, k10, k11, k12, k13, k14, k15, k16, k17, k18,
    k19, k20, k21, k22, k23, rfl⟩ := length_24 hK
  iterate 8 (obtain ⟨_, _, rfl, h2⟩ := cons_of_le ht; clear ht; have ht := h2; clear h2)
  interval_cases i <;> rfl

theorem aes192_words_rec {key : List Nat} (h : ∀ b ∈ key, b < 256) (hl : 32 ≤ key.length)
    {ks : List M128} (hks : 24 ≤ ks.length) (i : Nat) (h6 : 6 ≤ i) (h52 : i < 52) :
    schedule_word (aes192_load_key key ks) i =
      if i % 6 = 0 then
        xor_word (xor_word (schedule_word (aes192_load_key key ks) (i - 6))
          (SubWord (RotWord (schedule_word (aes192_load_key key ks) (i - 1)))))
          (fips_Rcon (i / 6))
      else
        xor_word (schedule_word (aes192_load_key key ks) (i - 6))
          (schedule_word (aes192_load_key key ks) (i - 1)) := by
  rw [aes192_schedule_word h hl hks i h52, aes192_schedule_word h hl hks (i - 6) (by omega),
    aes192_schedule_word h hl hks (i - 1) (by omega)]
  obtain ⟨e, k, hk, he, rfl⟩ : ∃ e k, k < 6 ∧ e < 8 ∧ i = 6 * (e + 1) + k :=
    ⟨i / 6 - 1, i % 6, by omega, by omega, by omega⟩
  have hw := key192_pair_words h hl e he
  have hm : (6 * (e + 1) + k) % 6 = k := by omega
  have hd : (6 * (e + 1) + k) / 6 = e + 1 := by omega
  have hbd : (6 * (e + 1) + k - 6) / 6 = e := by omega
  have hbm : (6 * (e + 1) + k - 6) % 6 = k := by omega
  rw [hm, hd, hbd, hbm]
  by_cases hk0 : k = 0
  · subst hk0
    have e1 : (6 * (e + 1) + 0 - 1) / 6 = e := by omega
    have e2 : (6 * (e + 1) + 0 - 1) % 6 = 5 := by omega
    rw [e1, e2, if_pos rfl]
    exact hw.1
  · have e1 : (6 * (e + 1) + k - 1) / 6 = e + 1 := by omega
    have e2 : (6 * (e + 1) + k - 1) % 6 = k - 1 := by omega
    rw [e1, e2, if_neg hk0]
    exact hw.2 k (by omega) hk

theorem aes192_load_key_entry_bytes {key : List Nat} (h : ∀ b ∈ key, b < 256)
    (hl : 32 ≤ key.length) {ks : List M128} (hks : 24 ≤ ks.length) (r : Nat) (hr : r ≤ 12) :
    Bytes 16 (entry (aes192_load_key key ks) r) := by
  have hb := key192_pair_bytes h hl
  rw [aes192_load_key_eq key hks]
  interval_cases r <;>
    simp only [entry, List.cons_append, List.getD_cons_zero, List.getD_cons_succ]
  · exact (hb 0).1
  · exact shuffle_pd_bytes (hb 0).2 (hb 1).1 0
  · exact shuffle_pd_bytes (hb 1).1 (hb 1).2 1
  · exact (hb 2).1
  · exact shuffle_pd_bytes (hb 2).2 (hb 3).1 0
  · exact shuffle_pd_bytes (hb 3).1 (hb 3).2 1
  · exact (hb 4).1
  · exact shuffle_pd_bytes (hb 4).2 (hb 5).1 0
  · exact shuffle_pd_bytes (hb 5).1 (hb 5).2 1
  · exact (hb 6).1
  · exact shuffle_pd_bytes (hb 6).2 (hb 7).1 0
  · exact shuffle_pd_bytes (hb 7).1 (hb 7).2 1
  · exact (hb 8).1

/-- The schedule of `aes192_load_key` is a good schedule for 12 rounds. -/
theorem aes192_load_key_good {key : List Nat} (h : ∀ b ∈ key, b < 256) (hl : 32 ≤ key.length)
    {ks : List M128} (hks : 24 ≤ ks.length) : GoodScheduleAt 12 (aes192_load_key key ks) := by
  refine ⟨aes192_load_key_entry_bytes h hl hks, ?_⟩
  intro j h1 h12
  rw [aes192_load_key_eq key hks]
  interval_cases j <;>
    simp only [entry, List.cons_append, List.getD_cons_zero, List.getD_cons_succ,
      Nat.reduceAdd, Nat.reduceSub]

theorem aes192_load_key_low (key : List Nat) {ks : List M128} (hks : 24 ≤ ks.length) (r : Nat)
    (hr : r ≤ 12) :
    entry (aes192_load_key key ks) r = entry (aes192_load_key_encrypt_only key ks) r := by
  rw [aes192_load_key_eq key hks, aes192_load_key_encrypt_only_eq key (by omega)]
  interval_cases r <;>
    simp only [entry, List.cons_append, List.getD_cons_zero, List.getD_cons_succ]

theorem aes192_load_key_length (key : List Nat) {ks : List M128} (h : 24 ≤ ks.length) :
    (aes192_load_key key ks).length = ks.length := by
  rw [aes192_load_key_eq key h, List.length_append, List.length_drop]
  simp only [List.length_cons, List.length_nil]
  omega

theorem mem_bytes {K tail : List Nat} (hK : Bytes 24 K) (ht : 8 ≤ tail.length)
    (htb : ∀ b ∈ tail, b < 256) :
    (∀ b ∈ K ++ tail, b < 256) ∧ 32 ≤ (K ++ tail).length := by
  refine ⟨?_, ?_⟩
  · intro b hb
    rcases List.mem_append.mp hb with h | h
    · exact hK.2 b h
    · exact htb b h
  · rw [List.length_append, hK.1]
    omega

/-- The entries 0..12 written by `aes192_load_key` are the round keys of the FIPS-197
`KeyExpansion` of the 24 key bytes, whatever follows them in memory. -/
theorem aes192_load_key_fips (K tail : List Nat) (ks : List M128) (hK : Bytes 24 K)
    (ht : 8 ≤ tail.length) (htb : ∀ b ∈ tail, b < 256) (hks : 24 ≤ ks.length) (r : Nat)
    (hr : r ≤ 12) :
    entry (fips_round_keys 6 12 K) r = entry (aes192_load_key (K ++ tail) ks) r := by
  obtain ⟨hb, hl⟩ := mem_bytes hK ht htb
  refine fips_round_keys_entry 6 12 (by decide) K _ ?_ ?_ ?_ r hr
  · intro j hj
    exact (aes192_load_key_entry_bytes hb hl hks j hj).1
  · intro i hi
    rw [aes192_schedule_word hb hl hks i (by omega)]
    have e1 : i / 6 = 0 := by omega
    have e2 : i % 6 = i := by omega
    rw [e1, e2]
    exact aes192_words_key K tail hK.1 ht i hi
  · intro i h6 h52
    rw [fips_next_word_6]
    exact aes192_words_rec hb hl hks i h6 (by omega)

theorem aes192_encrypt_eq (S : List M128) (P : List Nat) :
    aes192_encrypt S P = _mm_aesenclast_si128
      (enc_rounds S (12 - 1) (_mm_xor_si128 (_mm_loadu_si128 P 0) (entry S 0))) (entry S 12) :=
  rfl

theorem aes192_decrypt_eq (S : List M128) (C : List Nat) :
    aes192_decrypt S C = _mm_aesdeclast_si128
      (dec_rounds_at 12 S (12 - 1) (_mm_xor_si128 (_mm_loadu_si128 C 0) (entry S 12)))
      (entry S 0) := rfl

theorem aes192_encrypt_fips (K tail P : List Nat) (ks : List M128) (hK : Bytes 24 K)
    (ht : 8 ≤ tail.length) (htb : ∀ b ∈ tail, b < 256) (hP : Bytes 16 P)
    (hks : 24 ≤ ks.length) :
    aes192_encrypt (aes192_load_key (K ++ tail) ks) P = fips_encrypt 6 12 K P := by
  obtain ⟨hb, hl⟩ := mem_bytes hK ht htb
  rw [aes192_encrypt_eq, enc_eq_fips_cipher_nr 12 _ (aes192_load_key_good hb hl hks).1 P hP,
    fips_encrypt]
  exact (fips_cipher_nr_congr 12 (aes192_load_key_fips K tail ks hK ht htb hks) P).symm

theorem aes192_decrypt_encrypt_eq (K tail P : List Nat) (ks : List M128) (hK : Bytes 24 K)
    (ht : 8 ≤ tail.length) (htb : ∀ b ∈ tail, b < 256) (hP : Bytes 16 P)
    (hks : 24 ≤ ks.length) :
    aes192_decrypt (aes192_load_key (K ++ tail) ks)
      (aes192_encrypt (aes192_load_key (K ++ tail) ks) P) = P := by
  obtain ⟨hb, hl⟩ := mem_bytes hK ht htb
  rw [aes192_decrypt_eq, aes192_encrypt_eq]
  exact decrypt_encrypt_at 12 (by decide) _ (aes192_load_key_good hb hl hks) P hP

set_option maxRecDepth 100000 in
theorem aes192_vectors :
    fips_encrypt 6 12 test_key_192 test_plain = test_cipher_192 ∧
      fips_round_keys 6 12 zero_key_192 = test_subkeys_192 := by
  decide!

theorem take_eq_of_entry {S T : List M128} {n : Nat} (hS : n ≤ S.length) (hT : T.length = n)
    (h : ∀ r, r < n → entry S r = entry T r) : S.take n = T := by
  apply List.ext_getElem
  · rw [List.length_take, hT]
    omega
  · intro i h1 h2
    have hi : i < n := by rw [hT] at h2; exact h2
    have e := h i hi
    rw [entry, entry, List.getD_eq_getElem _ _ (by omega : i < S.length),
      List.getD_eq_getElem _ _ h2] at e
    rw [List.getElem_take]
    exact e

theorem aes192_keygen_zero (tail : List Nat) (ks : List M128) (ht : 8 ≤ tail.length)
    (htb : ∀ b ∈ tail, b < 256) (hks : 24 ≤ ks.length) :
    (aes192_load_key (zero_key_192 ++ tail) ks).take 13 = test_subkeys_192 := by
  refine take_eq_of_entry ?_ (by decide) ?_
  · rw [aes192_load_key_length _ hks]
    omega
  · intro r hr
    rw [← aes192_vectors.2]
    exact (aes192_load_key_fips zero_key_192 tail ks (by decide) ht htb hks r (by omega)).symm

/-- C28: the AES-192 key schedule is the FIPS-197 `KeyExpansion` with `Nk = 6`. For every
24-byte key `K`, whatever eight or more bytes `tail` follow it in memory (the second load of
`aes192_load_key_encrypt_only` reads the 16 bytes at `key + 16`), and every schedule array of
at least 24 entries, reading entries 0..12 written by `aes192_load_key` as the 52 four-byte
words `w[0..51]`, `w[0..5]` are the words of `K`, and for `i` in `[6, 52)`:
`w[i] = w[i-6] ^ SubWord (RotWord w[i-1]) ^ Rcon[i/6]` when `i mod 6 = 0` and
`w[i] = w[i-6] ^ w[i-1]` otherwise, where `Rcon[1..8]`, the powers of `x` in GF(2^8), are
`01, 02, 04, 08, 10, 20, 40, 80` in the first byte of the word; this covers the round keys
assembled with `_mm_shuffle_pd` from two expansion steps. Entries 0..12 are those written by
`aes192_load_key_encrypt_only` and are the round keys of the reference `KeyExpansion`; for the
all-zero key they are the constants `key0` .. `key12` of `aes192_keygen_tests`. -/
theorem aes192_key_schedule_fips (K tail : List Nat) (ks : List M128) (hK : Bytes 24 K)
    (ht : 8 ≤ tail.length) (htb : ∀ b ∈ tail, b < 256) (hks : 24 ≤ ks.length) :
    (∀ i, i < 6 → schedule_word (aes192_load_key (K ++ tail) ks) i = key_word K i) ∧
    (∀ i, 6 ≤ i → i < 52 →
      schedule_word (aes192_load_key (K ++ tail) ks) i =
        if i % 6 = 0 then
          xor_word (xor_word (schedule_word (aes192_load_key (K ++ tail) ks) (i - 6))
            (SubWord (RotWord (schedule_word (aes192_load_key (K ++ tail) ks) (i - 1)))))
            (fips_Rcon (i / 6))
        else
          xor_word (schedule_word (aes192_load_key (K ++ tail) ks) (i - 6))
            (schedule_word (aes192_load_key (K ++ tail) ks) (i - 1))) ∧
    [fips_Rcon 1, fips_Rcon 2, fips_Rcon 3, fips_Rcon 4, fips_Rcon 5, fips_Rcon 6, fips_Rcon 7,
        fips_Rcon 8] =
      [[0x01, 0, 0, 0], [0x02, 0, 0, 0], [0x04, 0, 0, 0], [0x08, 0, 0, 0], [0x10, 0, 0, 0],
        [0x20, 0, 0, 0], [0x40, 0, 0, 0], [0x80, 0, 0, 0]] ∧
    (∀ r, r ≤ 12 →
      entry (aes192_load_key (K ++ tail) ks) r =
          entry (aes192_load_key_encrypt_only (K ++ tail) ks) r ∧
        entry (aes192_load_key (K ++ tail) ks) r = entry (fips_round_keys 6 12 K) r) ∧
    (aes192_load_key (zero_key_192 ++ tail) ks).take 13 = test_subkeys_192 := by
  obtain ⟨hb, hl⟩ := mem_bytes hK ht htb
  refine ⟨?_, aes192_words_rec hb hl hks, by decide, ?_, aes192_keygen_zero tail ks ht htb hks⟩
  · intro i hi
    rw [aes192_schedule_word hb hl hks i (by omega)]
    have e1 : i / 6 = 0 := by omega
    have e2 : i % 6 = i := by omega
    rw [e1, e2]
    exact aes192_words_key K tail hK.1 ht i hi
  · intro r hr
    exact ⟨aes192_load_key_low _ hks r hr,
      (aes192_load_key_fips K tail ks hK ht htb hks r hr).symm⟩

theorem aes192_key_schedule_fips_witness :
    Bytes 24 test_key_192 ∧ 8 ≤ test_tail.length ∧ (∀ b ∈ test_tail, b < 256) ∧
    24 ≤ zero_schedule_24.length ∧
    ((∀ i, i < 6 →
      schedule_word (aes192_load_key (test_key_192 ++ test_tail) zero_schedule_24) i =
        key_word test_key_192 i) ∧
    (∀ i, 6 ≤ i → i < 52 →
      schedule_word (aes192_load_key (test_key_192 ++ test_tail) zero_schedule_24) i =
        if i % 6 = 0 then
          xor_word
            (xor_word
              (schedule_word (aes192_load_key (test_key_192 ++ test_tail) zero_schedule_24)
                (i - 6))
              (SubWord (RotWord
                (schedule_word (aes192_load_key (test_key_192 ++ test_tail) zero_schedule_24)
                  (i - 1)))))
            (fips_Rcon (i / 6))
        else
          xor_word
            (schedule_word (aes192_load_key (test_key_192 ++ test_tail) zero_schedule_24)
              (i - 6))
            (schedule_word (aes192_load_key (test_key_192 ++ test_tail) zero_schedule_24)
              (i - 1))) ∧
    [fips_Rcon 1, fips_Rcon 2, fips_Rcon 3, fips_Rcon 4, fips_Rcon 5, fips_Rcon 6, fips_Rcon 7,
        fips_Rcon 8] =
      [[0x01, 0, 0, 0], [0x02, 0, 0, 0], [0x04, 0, 0, 0], [0x08, 0, 0, 0], [0x10, 0, 0, 0],
        [0x20, 0, 0, 0], [0x40, 0, 0, 0], [0x80, 0, 0, 0]] ∧
    (∀ r, r ≤ 12 →
      entry (aes192_load_key (test_key_192 ++ test_tail) zero_schedule_24) r =
          entry (aes192_load_key_encrypt_only (test_key_192 ++ test_tail) zero_schedule_24) r ∧
        entry (aes192_load_key (test_key_192 ++ test_tail) zero_schedule_24) r =
          entry (fips_round_keys 6 12 test_key_192) r) ∧
    (aes192_load_key (zero_key_192 ++ test_tail) zero_schedule_24).take 13 =
      test_subkeys_192) :=
  ⟨by decide, by decide, by decide, by decide,
    aes192_key_schedule_fips test_key_192 test_tail zero_schedule_24 (by decide) (by decide)
      (by decide) (by decide)⟩

/-- C29: AES-192 encryption is the FIPS-197 cipher with `Nr = 12`. For every 24-byte key `K`,
whatever eight or more bytes follow it in memory, every 16-byte block `P` and every schedule
array of at least 24 entries, `aes192_encrypt` on the schedule written by `aes192_load_key`
is the reference encryption (`Cipher` of figure 5 on the `KeyExpansion` of `K`), and is
`Cipher` on the entries 0..12 of the schedule. The key `00 01 .. 17` encrypts `00 11 .. ff`
to `dd a9 7c a4 86 4c df e0 6e af 70 a0 ec 0d 71 91` (`aes192_encrypt_test`). -/
theorem aes192_encrypt_is_fips (K tail P : List Nat) (ks : List M128) (hK : Bytes 24 K)
    (ht : 8 ≤ tail.length) (htb : ∀ b ∈ tail, b < 256) (hP : Bytes 16 P)
    (hks : 24 ≤ ks.length) :
    aes192_encrypt (aes192_load_key (K ++ tail) ks) P = fips_encrypt 6 12 K P ∧
    aes192_encrypt (aes192_load_key (K ++ tail) ks) P =
      fips_cipher_nr 12 (aes192_load_key (K ++ tail) ks) P ∧
    aes192_encrypt (aes192_load_key (test_key_192 ++ tail) ks) test_plain =
      test_cipher_192 := by
  obtain ⟨hb, hl⟩ := mem_bytes hK ht htb
  refine ⟨aes192_encrypt_fips K tail P ks hK ht htb hP hks, ?_, ?_⟩
  · rw [aes192_encrypt_eq]
    exact enc_eq_fips_cipher_nr 12 _ (aes192_load_key_good hb hl hks).1 P hP
  · rw [aes192_encrypt_fips _ tail _ ks (by decide) ht htb (by decide) hks]
    exact aes192_vectors.1

theorem aes192_encrypt_is_fips_witness :
    Bytes 24 test_key_192 ∧ 8 ≤ test_tail.length ∧ (∀ b ∈ test_tail, b < 256) ∧
    Bytes 16 test_cipher_192 ∧ 24 ≤ zero_schedule_24.length ∧
    (aes192_encrypt (aes192_load_key (test_key_192 ++ test_tail) zero_schedule_24)
        test_cipher_192 = fips_encrypt 6 12 test_key_192 test_cipher_192 ∧
    aes192_encrypt (aes192_load_key (test_key_192 ++ test_tail) zero_schedule_24)
        test_cipher_192 =
      fips_cipher_nr 12 (aes192_load_key (test_key_192 ++ test_tail) zero_schedule_24)
        test_cipher_192 ∧
    aes192_encrypt (aes192_load_key (test_key_192 ++ test_tail) zero_schedule_24) test_plain =
      test_cipher_192) :=
  ⟨by decide, by decide, by decide, by decide, by decide,
    aes192_encrypt_is_fips test_key_192 test_tail test_cipher_192 zero_schedule_24 (by decide)
      (by decide) (by decide) (by decide) (by decide)⟩

/-- C30: AES-192 decryption undoes encryption. For every 24-byte key `K`, whatever eight or
more bytes follow it in memory, every 16-byte block `P` and every schedule array of at least
24 entries, with `S` the schedule written by `aes192_load_key`,
`aes192_decrypt (S, aes192_encrypt (S, P)) = P`; the array keeps its length, entries 0..12 of
`S` are the encryption round keys and entry `12 + j` is `InvMixColumns` of entry `12 - j` for
`j = 1..11`. Under the key `00 01 .. 17` the ciphertext
`dd a9 7c a4 86 4c df e0 6e af 70 a0 ec 0d 71 91` decrypts to `00 11 .. ff`
(`aes192_decrypt_test`). -/
theorem aes192_decrypt_undoes_encrypt (K tail P : List Nat) (ks : List M128)
    (hK : Bytes 24 K) (ht : 8 ≤ tail.length) (htb : ∀ b ∈ tail, b < 256) (hP : Bytes 16 P)
    (hks : 24 ≤ ks.length) :
    aes192_decrypt (aes192_load_key (K ++ tail) ks)
        (aes192_encrypt (aes192_load_key (K ++ tail) ks) P) = P ∧
    (aes192_load_key (K ++ tail) ks).length = ks.length ∧
    (∀ r, r ≤ 12 →
      entry (aes192_load_key (K ++ tail) ks) r =
        entry (aes192_load_key_encrypt_only (K ++ tail) ks) r) ∧
    (∀ j, 1 ≤ j → j ≤ 11 →
      entry (aes192_load_key (K ++ tail) ks) (12 + j) =
        InvMixColumns (entry (aes192_load_key (K ++ tail) ks) (12 - j))) ∧
    aes192_decrypt (aes192_load_key (test_key_192 ++ tail) ks) test_cipher_192 =
      test_plain := by
  obtain ⟨hb, hl⟩ := mem_bytes hK ht htb
  have e1 : aes192_encrypt (aes192_load_key (test_key_192 ++ tail) ks) test_plain =
      test_cipher_192 := by
    rw [aes192_encrypt_fips _ tail _ ks (by decide) ht htb (by decide) hks]
    exact aes192_vectors.1
  refine ⟨aes192_decrypt_encrypt_eq K tail P ks hK ht htb hP hks, aes192_load_key_length _ hks,
    aes192_load_key_low _ hks,
    fun j h1 h11 => (aes192_load_key_good hb hl hks).2 j h1 (by omega), ?_⟩
  rw [← e1]
  exact aes192_decrypt_encrypt_eq _ tail _ ks (by decide) ht htb (by decide) hks

theorem aes192_decrypt_undoes_encrypt_witness :
    Bytes 24 test_key_192 ∧ 8 ≤ test_tail.length ∧ (∀ b ∈ test_tail, b < 256) ∧
    Bytes 16 test_cipher_192 ∧ 24 ≤ zero_schedule_24.length ∧
    (aes192_decrypt (aes192_load_key (test_key_192 ++ test_tail) zero_schedule_24)
        (aes192_encrypt (aes192_load_key (test_key_192 ++ test_tail) zero_schedule_24)
          test_cipher_192) = test_cipher_192 ∧
    (aes192_load_key (test_key_192 ++ test_tail) zero_schedule_24).length =
      zero_schedule_24.length ∧
    (∀ r, r ≤ 12 →
      entry (aes192_load_key (test_key_192 ++ test_tail) zero_schedule_24) r =
        entry (aes192_load_key_encrypt_only (test_key_192 ++ test_tail) zero_schedule_24) r) ∧
    (∀ j, 1 ≤ j → j ≤ 11 →
      entry (aes192_load_key (test_key_192 ++ test_tail) zero_schedule_24) (12 + j) =
        InvMixColumns
          (entry (aes192_load_key (test_key_192 ++ test_tail) zero_schedule_24) (12 - j))) ∧
    aes192_decrypt (aes192_load_key (test_key_192 ++ test_tail) zero_schedule_24)
      test_cipher_192 = test_plain) :=
  ⟨by decide, by decide, by decide, by decide, by decide,
    aes192_decrypt_undoes_encrypt test_key_192 test_tail test_cipher_192 zero_schedule_24
      (by decide) (by decide) (by decide) (by decide) (by decide)⟩

/-! ## Consequences: oracle, mask and derivation properties -/

theorem key_xor_prng_getD (K : List Nat) (s i : Nat) (hs : s < 256) (hi : i < 32) :
    (key_xor_prng K s).getD i 0 = K.getD i 0 ^^^ prng_sequence.getD ((s + 31 - i) % 255) 0 := by
  have e : (s + 31 + 2 ^ 64 - i) % 2 ^ 64 = s + 31 - i := by omega
  rw [key_xor_prng, range_map_getD _ hi, e]

theorem key_xor_prng_bytes {K : List Nat} (hK : ∀ b ∈ K, b < 256) (s : Nat) :
    Bytes 32 (key_xor_prng K s) := by
  refine ⟨key_xor_prng_length K s, ?_⟩
  intro b hb
  rw [key_xor_prng] at hb
  obtain ⟨i, _, rfl⟩ := List.mem_map.mp hb
  exact xor_lt (getD_lt hK i) (getD_lt prng_sequence_lt _)

theorem get_key_ascii_bytes_bytes (c : Nat) : Bytes 32 (get_key_ascii_bytes c) := by
  rw [get_key_ascii_bytes_eq]
  refine ⟨rfl, ?_⟩
  simp only [List.forall_mem_cons, hex_digit_lt, true_and, List.not_mem_nil, false_implies,
    implies_true]

theorem prng_getD_inj (a b : Nat) (ha : a < 255) (hb : b < 255)
    (h : prng_sequence.getD a 0 = prng_sequence.getD b 0) : a = b := by
  have hl := prng_sequence_facts.1
  rw [List.getD_eq_getElem _ _ (by omega : a < prng_sequence.length),
    List.getD_eq_getElem _ _ (by omega : b < prng_sequence.length)] at h
  exact (List.Nodup.getElem_inj_iff prng_sequence_facts.2.1).mp h

theorem prng_getD_ne_zero (a : Nat) (ha : a < 255) : prng_sequence.getD a 0 ≠ 0 := by
  have hl := prng_sequence_facts.1
  rw [List.getD_eq_getElem _ _ (by omega : a < prng_sequence.length)]
  intro h
  have hm : (0 : Nat) ∈ prng_sequence := by
    rw [← h]
    exact List.getElem_mem _
  have := (prng_sequence_facts.2.2 0 (by norm_num)).mp hm
  omega

theorem xor_left_cancel {a x y : Nat} (h : a ^^^ x = a ^^^ y) : x = y := by
  have e := congrArg (fun t => a ^^^ t) h
  simp only [Nat.xor_cancel_left] at e
  exact e

theorem ne_of_getD_ne {l m : List Nat} {i : Nat} (h : l.getD i 0 ≠ m.getD i 0) : l ≠ m := by
  intro e
  rw [e] at h
  exact h rfl

/-- C31: the zero-plaintext oracle is exact. For every 32-byte key `K`, every 16-byte
ciphertext `C` and every schedule array of at least 28 entries, `aes256_decrypt` under the
schedule of `K` gives the 16-byte zero block on `C` if and only if `aes256_encrypt` under that
schedule maps the zero block to `C`. Hence the keys that `main` passes to `print_256_block`
for the ciphertext `C` are exactly the masked keys of the candidates `(c, s)` that encrypt the
zero block to `C`: each reported key does so, and none that does is missed. -/
theorem zero_oracle_exact (K C : List Nat) (ks : List M128) (hK : Bytes 32 K)
    (hC : Bytes 16 C) (hks : 28 ≤ ks.length) :
    (aes256_decrypt (aes256_load_key K ks) C = List.replicate 16 0 ↔
      aes256_encrypt (aes256_load_key K ks) (List.replicate 16 0) = C) ∧
    ∀ key, key ∈ (main C).printed ↔
      ∃ c s, c < 2 ^ 32 ∧ s < 255 ∧ key = key_xor_prng (get_key_ascii_bytes c) s ∧
        aes256_encrypt (aes256_load_key key zero_schedule) (List.replicate 16 0) = C := by
  have hz : Bytes 16 (List.replicate 16 0) := by decide
  have iff_of : ∀ (k : List Nat) (s : List M128), Bytes 32 k → 28 ≤ s.length →
      (aes256_decrypt (aes256_load_key k s) C = List.replicate 16 0 ↔
        aes256_encrypt (aes256_load_key k s) (List.replicate 16 0) = C) := by
    intro k s hk hs
    have hg := aes256_load_key_good hk hs
    constructor
    · intro h
      rw [← h]
      exact encrypt_decrypt_of_good _ hg C hC
    · intro h
      rw [← h]
      exact decrypt_encrypt_of_good _ hg _ hz
  refine ⟨iff_of K ks hK hks, ?_⟩
  intro key
  rw [(main_eq C).2, List.mem_filter, List.mem_map, is_hit, decide_eq_true_iff]
  constructor
  · rintro ⟨⟨⟨c, s⟩, hm, rfl⟩, hd⟩
    have hcs := (mem_pairs (2 ^ 32) c s).mp hm
    exact ⟨c, s, hcs.1, hcs.2, rfl,
      (iff_of _ _ (key_xor_prng_bytes (get_key_ascii_bytes_bytes c).2 s)
        zero_schedule_length).mp hd⟩
  · rintro ⟨c, s, hc, hs, rfl, he⟩
    exact ⟨⟨(c, s), (mem_pairs (2 ^ 32) c s).mpr ⟨hc, hs⟩, rfl⟩,
      (iff_of _ _ (key_xor_prng_bytes (get_key_ascii_bytes_bytes c).2 s)
        zero_schedule_length).mpr he⟩

set_option maxRecDepth 100000 in
theorem zero_oracle_exact_witness :
    Bytes 32 key_ascii_14efa8ff ∧ Bytes 16 ciphertext_ascii_14efa8ff ∧
    28 ≤ zero_schedule.length ∧
    ((aes256_decrypt (aes256_load_key key_ascii_14efa8ff zero_schedule)
        ciphertext_ascii_14efa8ff = List.replicate 16 0 ↔
      aes256_encrypt (aes256_load_key key_ascii_14efa8ff zero_schedule) (List.replicate 16 0) =
        ciphertext_ascii_14efa8ff) ∧
    ∀ key, key ∈ (main ciphertext_ascii_14efa8ff).printed ↔
      ∃ c s, c < 2 ^ 32 ∧ s < 255 ∧ key = key_xor_prng (get_key_ascii_bytes c) s ∧
        aes256_encrypt (aes256_load_key key zero_schedule) (List.replicate 16 0) =
          ciphertext_ascii_14efa8ff) :=
  ⟨by decide, by decide, by decide,
    zero_oracle_exact key_ascii_14efa8ff ciphertext_ascii_14efa8ff zero_schedule (by decide)
      (by decide) (by decide)⟩

/-- C32: `KEY_256_ASSIST_1` computes a prefix XOR. For 16-byte values `t1` with lanes
`(a0, a1, a2, a3)` and `t2` with lanes `(b0, b1, b2, b3)`, low lane first, the function
leaves in `temp1` the lanes `a0 ^ b3`, `a0 ^ a1 ^ b3`, `a0 ^ a1 ^ a2 ^ b3`,
`a0 ^ a1 ^ a2 ^ a3 ^ b3` and in `temp2` the broadcast `(b3, b3, b3, b3)`; the new `temp1` is
`t1 ^ (t1 << 32) ^ (t1 << 64) ^ (t1 << 96)` XORed with the broadcast. -/
theorem KEY_256_ASSIST_1_prefix_xor (t1 t2 : M128) (h1 : t1.length = 16)
    (h2 : t2.length = 16) :
    lane (KEY_256_ASSIST_1 t1 t2).1 0 = xor_word (lane t1 0) (lane t2 3) ∧
    lane (KEY_256_ASSIST_1 t1 t2).1 1 =
      xor_word (xor_word (lane t1 0) (lane t1 1)) (lane t2 3) ∧
    lane (KEY_256_ASSIST_1 t1 t2).1 2 =
      xor_word (xor_word (xor_word (lane t1 0) (lane t1 1)) (lane t1 2)) (lane t2 3) ∧
    lane (KEY_256_ASSIST_1 t1 t2).1 3 =
      xor_word (xor_word (xor_word (xor_word (lane t1 0) (lane t1 1)) (lane t1 2)) (lane t1 3))
        (lane t2 3) ∧
    (KEY_256_ASSIST_1 t1 t2).2 = lane t2 3 ++ lane t2 3 ++ lane t2 3 ++ lane t2 3 ∧
    (KEY_256_ASSIST_1 t1 t2).1 =
      _mm_xor_si128
        (_mm_xor_si128
          (_mm_xor_si128 (_mm_xor_si128 t1 (_mm_slli_si128 t1 4)) (_mm_slli_si128 t1 8))
          (_mm_slli_si128 t1 12))
        (KEY_256_ASSIST_1 t1 t2).2 := by
  obtain ⟨a0, a1, a2, a3, a4, a5, a6, a7, a8, a9, a10, a11, a12, a13, a14, a15, rfl⟩ :=
    length_16 h1
  obtain ⟨b0, b1, b2, b3, b4, b5, b6, b7, b8, b9, b10, b11, b12, b13, b14, b15, rfl⟩ :=
    length_16 h2
  simp only [KEY_256_ASSIST_1, _mm_shuffle_epi32, _mm_slli_si128, _mm_xor_si128, lane,
    xor_word, List.replicate, List.cons_append, List.nil_append, List.take, List.drop,
    List.zipWith, Nat.reduceMul, Nat.reduceDiv, Nat.reduceMod, Nat.xor_zero, Nat.zero_xor,
    List.append_nil, List.cons.injEq, and_true]
  simp only [Nat.xor_assoc, Nat.xor_comm, xor_left_comm, and_self]

theorem KEY_256_ASSIST_1_prefix_xor_witness :
    test_plain.length = 16 ∧ test_cipher.length = 16 ∧
    (lane (KEY_256_ASSIST_1 test_plain test_cipher).1 0 =
      xor_word (lane test_plain 0) (lane test_cipher 3) ∧
    lane (KEY_256_ASSIST_1 test_plain test_cipher).1 1 =
      xor_word (xor_word (lane test_plain 0) (lane test_plain 1)) (lane test_cipher 3) ∧
    lane (KEY_256_ASSIST_1 test_plain test_cipher).1 2 =
      xor_word (xor_word (xor_word (lane test_plain 0) (lane test_plain 1)) (lane test_plain 2))
        (lane test_cipher 3) ∧
    lane (KEY_256_ASSIST_1 test_plain test_cipher).1 3 =
      xor_word
        (xor_word (xor_word (xor_word (lane test_plain 0) (lane test_plain 1))
          (lane test_plain 2)) (lane test_plain 3))
        (lane test_cipher 3) ∧
    (KEY_256_ASSIST_1 test_plain test_cipher).2 =
      lane test_cipher 3 ++ lane test_cipher 3 ++ lane test_cipher 3 ++ lane test_cipher 3 ∧
    (KEY_256_ASSIST_1 test_plain test_cipher).1 =
      _mm_xor_si128
        (_mm_xor_si128
          (_mm_xor_si128 (_mm_xor_si128 test_plain (_mm_slli_si128 test_plain 4))
            (_mm_slli_si128 test_plain 8))
          (_mm_slli_si128 test_plain 12))
        (KEY_256_ASSIST_1 test_plain test_cipher).2) :=
  ⟨by decide, by decide, KEY_256_ASSIST_1_prefix_xor test_plain test_cipher (by decide)
    (by decide)⟩

/-- C33: encryption ignores the decryption half of the schedule. For any two 28-entry
schedules that agree on entries 0..14 and any block `P`, `aes256_encrypt` gives the same
result; in particular, for every key, `aes256_encrypt` on the schedule written by
`aes256_load_key_encrypt_only` into an array equals `aes256_encrypt` on the schedule written
by `aes256_load_key`, whatever the arrays of at least 28 entries held before, entries 15..27
included. -/
theorem aes256_encrypt_ignores_decrypt_half (S S2 : List M128) (K P : List Nat)
    (ks ks2 : List M128) (_hS : S.length = 28) (_hS2 : S2.length = 28)
    (hag : ∀ j, j ≤ 14 → entry S j = entry S2 j) (hks : 28 ≤ ks.length)
    (hks2 : 28 ≤ ks2.length) :
    aes256_encrypt S P = aes256_encrypt S2 P ∧
    aes256_encrypt (aes256_load_key_encrypt_only K ks) P =
      aes256_encrypt (aes256_load_key K ks2) P := by
  refine ⟨aes256_encrypt_congr hag P, aes256_encrypt_congr ?_ P⟩
  intro j hj
  rw [aes256_load_key_entry_low K hks2 hj]
  exact aes256_load_key_encrypt_only_entry K hks hks2 hj

theorem aes256_encrypt_ignores_decrypt_half_witness :
    (aes256_load_key_encrypt_only test_key zero_schedule).length = 28 ∧
    (aes256_load_key test_key zero_schedule).length = 28 ∧
    (∀ j, j ≤ 14 → entry (aes256_load_key_encrypt_only test_key zero_schedule) j =
      entry (aes256_load_key test_key zero_schedule) j) ∧
    28 ≤ zero_schedule.length ∧ 28 ≤ zero_schedule.length ∧
    (aes256_encrypt (aes256_load_key_encrypt_only test_key zero_schedule) test_plain =
      aes256_encrypt (aes256_load_key test_key zero_schedule) test_plain ∧
    aes256_encrypt (aes256_load_key_encrypt_only test_key zero_schedule) test_plain =
      aes256_encrypt (aes256_load_key test_key zero_schedule) test_plain) :=
  have hl1 : (aes256_load_key_encrypt_only test_key zero_schedule).length = 28 := by
    rw [aes256_load_key_encrypt_only_eq test_key zero_schedule_length]
    rfl
  have hl2 : (aes256_load_key test_key zero_schedule).length = 28 := by
    rw [aes256_load_key_eq test_key zero_schedule_length]
    rfl
  have hag : ∀ j, j ≤ 14 → entry (aes256_load_key_encrypt_only test_key zero_schedule) j =
      entry (aes256_load_key test_key zero_schedule) j :=
    fun j hj => (aes256_load_key_entry_low test_key zero_schedule_length hj).symm
  ⟨hl1, hl2, hag, by decide, by decide,
    aes256_encrypt_ignores_decrypt_half _ _ test_key test_plain zero_schedule zero_schedule
      hl1 hl2 hag (by decide) (by decide)⟩

/-- C34: the 255 masked candidates of one counter are pairwise distinct. For every 32-byte
key `K`, all states `s ≠ s2` in `[0, 255)` and every `i` in `[0, 32)`, byte `i` of
`key_xor_prng (K, s)` differs from byte `i` of `key_xor_prng (K, s2)`; so the two masked keys
differ. -/
theorem key_xor_prng_states_distinct (K : List Nat) (s s2 i : Nat) (_hK : Bytes 32 K)
    (hs : s < 255) (hs2 : s2 < 255) (hne : s ≠ s2) (hi : i < 32) :
    (key_xor_prng K s).getD i 0 ≠ (key_xor_prng K s2).getD i 0 ∧
      key_xor_prng K s ≠ key_xor_prng K s2 := by
  have h : (key_xor_prng K s).getD i 0 ≠ (key_xor_prng K s2).getD i 0 := by
    rw [key_xor_prng_getD K s i (by omega) hi, key_xor_prng_getD K s2 i (by omega) hi]
    intro e
    have e2 := prng_getD_inj _ _ (Nat.mod_lt _ (by norm_num)) (Nat.mod_lt _ (by norm_num))
      (xor_left_cancel e)
    omega
  exact ⟨h, ne_of_getD_ne h⟩

theorem key_xor_prng_states_distinct_witness :
    Bytes 32 test_key ∧ 0 < 255 ∧ 254 < 255 ∧ 0 ≠ 254 ∧ 31 < 32 ∧
    ((key_xor_prng test_key 0).getD 31 0 ≠ (key_xor_prng test_key 254).getD 31 0 ∧
      key_xor_prng test_key 0 ≠ key_xor_prng test_key 254) :=
  ⟨by decide, by decide, by decide, by decide, by decide,
    key_xor_prng_states_distinct test_key 0 254 31 (by decide) (by decide) (by decide)
      (by decide) (by decide)⟩

/-- C35: the mask never leaves a byte unchanged. For every 32-byte key `K`, every state `s`
in `[0, 255)` and every `i` in `[0, 32)`, byte `i` of `key_xor_prng (K, s)` differs from byte
`i` of `K`; so the masked key differs from `K`, and the base key of a counter is not among
the 255 masked keys that `main` evaluates for it. -/
theorem key_xor_prng_changes_every_byte (K : List Nat) (s i : Nat) (_hK : Bytes 32 K)
    (hs : s < 255) (hi : i < 32) :
    (key_xor_prng K s).getD i 0 ≠ K.getD i 0 ∧ key_xor_prng K s ≠ K ∧
      K ∉ (List.range 255).map (fun state => key_xor_prng K state) := by
  have h : ∀ t, t < 255 → (key_xor_prng K t).getD i 0 ≠ K.getD i 0 := by
    intro t ht
    rw [key_xor_prng_getD K t i (by omega) hi]
    intro e
    have e2 : K.getD i 0 ^^^ prng_sequence.getD ((t + 31 - i) % 255) 0 = K.getD i 0 ^^^ 0 := by
      rw [Nat.xor_zero]
      exact e
    exact prng_getD_ne_zero _ (Nat.mod_lt _ (by norm_num)) (xor_left_cancel e2)
  refine ⟨h s hs, ne_of_getD_ne (h s hs), ?_⟩
  intro hm
  obtain ⟨t, ht, e⟩ := List.mem_map.mp hm
  exact ne_of_getD_ne (h t (List.mem_range.mp ht)) e

theorem key_xor_prng_changes_every_byte_witness :
    Bytes 32 test_key ∧ 239 < 255 ∧ 7 < 32 ∧
    ((key_xor_prng test_key 239).getD 7 0 ≠ test_key.getD 7 0 ∧
      key_xor_prng test_key 239 ≠ test_key ∧
      test_key ∉ (List.range 255).map (fun state => key_xor_prng test_key state)) :=
  ⟨by decide, by decide, by decide,
    key_xor_prng_changes_every_byte test_key 239 7 (by decide) (by decide) (by decide)⟩

theorem hex_digit_inj : ∀ a, a < 16 → ∀ b, b < 16 → hex_digit a = hex_digit b → a = b := by
  decide

theorem and_15_eq_mod (x : Nat) : x &&& 0xf = x % 16 :=
  Nat.and_pow_two_sub_one_eq_mod x 4

theorem get_key_bytes_inj (c c2 : Nat) (hc : c < 2 ^ 32) (hc2 : c2 < 2 ^ 32)
    (h : get_key_bytes c = get_key_bytes c2) : c = c2 := by
  have b : ∀ k, k < 4 → (c >>> (8 * (3 - k))) % 256 = (c2 >>> (8 * (3 - k))) % 256 := by
    intro k hk
    rw [← bswap_32_byte c k hk, ← bswap_32_byte c2 k hk, ← get_key_bytes_getD c 0 k (by omega) hk,
      ← get_key_bytes_getD c2 0 k (by omega) hk, h]
  have b0 := b 0 (by omega)
  have b1 := b 1 (by omega)
  have b2 := b 2 (by omega)
  have b3 := b 3 (by omega)
  simp only [Nat.shiftRight_eq_div_pow, Nat.reduceSub, Nat.reduceMul, Nat.reducePow] at b0 b1 b2 b3
  norm_num at hc hc2
  omega

theorem get_key_ascii_bytes_inj (c c2 : Nat) (hc : c < 2 ^ 32) (hc2 : c2 < 2 ^ 32)
    (h : get_key_ascii_bytes c = get_key_ascii_bytes c2) : c = c2 := by
  have g : ∀ i, i < 8 → (get_key_ascii_bytes c).getD i 0 = (get_key_ascii_bytes c2).getD i 0 := by
    intro i _
    rw [h]
  rw [get_key_ascii_bytes_eq, get_key_ascii_bytes_eq] at g
  have h7 := g 0 (by omega)
  have h6 := g 1 (by omega)
  have h5 := g 2 (by omega)
  have h4 := g 3 (by omega)
  have h3 := g 4 (by omega)
  have h2 := g 5 (by omega)
  have h1 := g 6 (by omega)
  have h0 := g 7 (by omega)
  simp only [List.getD_cons_zero, List.getD_cons_succ] at h0 h1 h2 h3 h4 h5 h6 h7
  have n7 := hex_digit_inj _ (nibble_lt _) _ (nibble_lt _) h7
  have n6 := hex_digit_inj _ (nibble_lt _) _ (nibble_lt _) h6
  have n5 := hex_digit_inj _ (nibble_lt _) _ (nibble_lt _) h5
  have n4 := hex_digit_inj _ (nibble_lt _) _ (nibble_lt _) h4
  have n3 := hex_digit_inj _ (nibble_lt _) _ (nibble_lt _) h3
  have n2 := hex_digit_inj _ (nibble_lt _) _ (nibble_lt _) h2
  have n1 := hex_digit_inj _ (nibble_lt _) _ (nibble_lt _) h1
  have n0 := hex_digit_inj _ (nibble_lt _) _ (nibble_lt _) h0
  simp only [and_15_eq_mod, Nat.shiftRight_eq_div_pow, Nat.reducePow] at n0 n1 n2 n3 n4 n5 n6 n7
  have r : ∀ x : Nat, x / 256 = x / 16 / 16 ∧ x / 4096 = x / 16 / 16 / 16 ∧
      x / 65536 = x / 16 / 16 / 16 / 16 ∧ x / 1048576 = x / 16 / 16 / 16 / 16 / 16 ∧
      x / 16777216 = x / 16 / 16 / 16 / 16 / 16 / 16 ∧
      x / 268435456 = x / 16 / 16 / 16 / 16 / 16 / 16 / 16 := by
    intro x
    simp only [Nat.div_div_eq_div_mul, Nat.reduceMul, and_self]
  obtain ⟨r1, r2, r3, r4, r5, r6⟩ := r c
  obtain ⟨t1, t2, t3, t4, t5, t6⟩ := r c2
  rw [r1, t1] at n2
  rw [r2, t2] at n3
  rw [r3, t3] at n4
  rw [r4, t4] at n5
  rw [r5, t5] at n6
  rw [r6, t6] at n7
  rw [Nat.div_one, Nat.div_one] at n0
  clear r1 r2 r3 r4 r5 r6 t1 t2 t3 t4 t5 t6 r g h h0 h1 h2 h3 h4 h5 h6 h7
  norm_num at hc hc2
  omega

/-- C36: key derivation is injective. For all 32-bit counters `c ≠ c2`, the keys of
`get_key_ascii_bytes` differ and the keys of `get_key_bytes` differ. -/
theorem key_derivation_injective (c c2 : Nat) (hc : c < 2 ^ 32) (hc2 : c2 < 2 ^ 32)
    (hne : c ≠ c2) :
    get_key_ascii_bytes c ≠ get_key_ascii_bytes c2 ∧ get_key_bytes c ≠ get_key_bytes c2 :=
  ⟨fun h => hne (get_key_ascii_bytes_inj c c2 hc hc2 h),
    fun h => hne (get_key_bytes_inj c c2 hc hc2 h)⟩

theorem key_derivation_injective_witness :
    0x14efa8ff < 2 ^ 32 ∧ 0x01234567 < 2 ^ 32 ∧ 0x14efa8ff ≠ 0x01234567 ∧
    (get_key_ascii_bytes 0x14efa8ff ≠ get_key_ascii_bytes 0x01234567 ∧
      get_key_bytes 0x14efa8ff ≠ get_key_bytes 0x01234567) :=
  ⟨by decide, by decide, by decide,
    key_derivation_injective 0x14efa8ff 0x01234567 (by decide) (by decide) (by decide)⟩

/-- C37: the table index of `key_xor_prng` is always in bounds. For every `prng_state` in
`[0, 256)` (the parameter is a `uint8_t`) and every `i` in `[0, 32)`, `i` is at most
`prng_state + 31`, so that `prng_state + 31 - i`, computed modulo `2^64`, does not wrap; its
remainder modulo 255 is below the length 255 of `prng_sequence`, and byte `i` of the result is
`key[i]` XORed with the table entry at that index. -/
theorem key_xor_prng_index_in_bounds (key : List Nat) (prng_state i : Nat)
    (hs : prng_state < 256) (hi : i < 32) :
    i ≤ prng_state + 31 ∧
    (prng_state + 31 + 2 ^ 64 - i) % 2 ^ 64 = prng_state + 31 - i ∧
    (prng_state + 31 + 2 ^ 64 - i) % 2 ^ 64 % 255 < 255 ∧
    prng_sequence.length = 255 ∧
    ∃ h : (prng_state + 31 - i) % 255 < prng_sequence.length,
      (key_xor_prng key prng_state).getD i 0 =
        key.getD i 0 ^^^ prng_sequence.get ⟨(prng_state + 31 - i) % 255, h⟩ := by
  have hl := prng_sequence_facts.1
  have hlt : (prng_state + 31 - i) % 255 < prng_sequence.length := by
    rw [hl]
    exact Nat.mod_lt _ (by norm_num)
  refine ⟨by omega, by omega, Nat.mod_lt _ (by norm_num), hl, hlt, ?_⟩
  rw [key_xor_prng_getD key prng_state i hs hi, List.getD_eq_getElem _ _ hlt]
  rfl

theorem key_xor_prng_index_in_bounds_witness :
    255 < 256 ∧ 31 < 32 ∧
    (31 ≤ 255 + 31 ∧
    (255 + 31 + 2 ^ 64 - 31) % 2 ^ 64 = 255 + 31 - 31 ∧
    (255 + 31 + 2 ^ 64 - 31) % 2 ^ 64 % 255 < 255 ∧
    prng_sequence.length = 255 ∧
    ∃ h : (255 + 31 - 31) % 255 < prng_sequence.length,
      (key_xor_prng test_key 255).getD 31 0 =
        test_key.getD 31 0 ^^^ prng_sequence.get ⟨(255 + 31 - 31) % 255, h⟩) :=
  ⟨by decide, by decide, key_xor_prng_index_in_bounds test_key 255 31 (by decide) (by decide)⟩

theorem aes192_load_key_eq_fips (m : List Nat) (ks : List M128) (hm : Bytes 32 m)
    (hks : 24 ≤ ks.length) (r : Nat) (hr : r ≤ 12) :
    entry (aes192_load_key m ks) r = entry (fips_round_keys 6 12 (m.take 24)) r := by
  have hK : Bytes 24 (m.take 24) :=
    ⟨by rw [List.length_take, hm.1]; rfl, fun b hb => hm.2 b (List.mem_of_mem_take hb)⟩
  have ht : 8 ≤ (m.drop 24).length := by rw [List.length_drop, hm.1]
  have htb : ∀ b ∈ m.drop 24, b < 256 := fun b hb => hm.2 b (List.mem_of_mem_drop hb)
  have e := aes192_load_key_fips (m.take 24) (m.drop 24) ks hK ht htb hks r hr
  rw [List.take_append_drop] at e
  exact e.symm

/-- C38: the AES-192 schedule depends only on the 24 key bytes.
`aes192_load_key_encrypt_only` loads the 16 bytes at `key + 16`, bytes 16..31 of the buffer,
into `temp3`; yet for any two 32-byte buffers that agree on bytes 0..23 and any schedule
arrays of at least 24 entries, entries 0..12 written by `aes192_load_key_encrypt_only` are the
same, and so are all entries 0..23 written by `aes192_load_key`. -/
theorem aes192_schedule_key_only (m1 m2 : List Nat) (ks1 ks2 : List M128) (h1 : Bytes 32 m1)
    (h2 : Bytes 32 m2) (hag : m1.take 24 = m2.take 24) (hks1 : 24 ≤ ks1.length)
    (hks2 : 24 ≤ ks2.length) :
    _mm_loadu_si128 m1 16 = m1.drop 16 ∧
    (∀ r, r ≤ 12 →
      entry (aes192_load_key_encrypt_only m1 ks1) r =
        entry (aes192_load_key_encrypt_only m2 ks2) r) ∧
    ∀ r, r < 24 → entry (aes192_load_key m1 ks1) r = entry (aes192_load_key m2 ks2) r := by
  have low : ∀ r, r ≤ 12 → entry (aes192_load_key m1 ks1) r = entry (aes192_load_key m2 ks2) r := by
    intro r hr
    rw [aes192_load_key_eq_fips m1 ks1 h1 hks1 r hr, aes192_load_key_eq_fips m2 ks2 h2 hks2 r hr,
      hag]
  refine ⟨?_, ?_, ?_⟩
  · show (m1.drop 16).take 16 = m1.drop 16
    exact List.take_of_length_le (by rw [List.length_drop, h1.1])
  · intro r hr
    rw [← aes192_load_key_low m1 hks1 r hr, ← aes192_load_key_low m2 hks2 r hr]
    exact low r hr
  · intro r hr
    by_cases hr12 : r ≤ 12
    · exact low r hr12
    · have g1 := aes192_load_key_good h1.2 (by rw [h1.1]) hks1
      have g2 := aes192_load_key_good h2.2 (by rw [h2.1]) hks2
      have e : r = 12 + (r - 12) := by omega
      rw [e, g1.2 (r - 12) (by omega) (by omega), g2.2 (r - 12) (by omega) (by omega),
        low (12 - (r - 12)) (by omega)]

theorem aes192_schedule_key_only_witness :
    Bytes 32 (test_key_192 ++ test_tail) ∧ Bytes 32 (test_key_192 ++ List.replicate 8 0) ∧
    (test_key_192 ++ test_tail).take 24 = (test_key_192 ++ List.replicate 8 0).take 24 ∧
    24 ≤ zero_schedule_24.length ∧ 24 ≤ zero_schedule_24.length ∧
    (_mm_loadu_si128 (test_key_192 ++ test_tail) 16 = (test_key_192 ++ test_tail).drop 16 ∧
    (∀ r, r ≤ 12 →
      entry (aes192_load_key_encrypt_only (test_key_192 ++ test_tail) zero_schedule_24) r =
        entry (aes192_load_key_encrypt_only (test_key_192 ++ List.replicate 8 0)
          zero_schedule_24) r) ∧
    ∀ r, r < 24 →
      entry (aes192_load_key (test_key_192 ++ test_tail) zero_schedule_24) r =
        entry (aes192_load_key (test_key_192 ++ List.replicate 8 0) zero_schedule_24) r) :=
  ⟨by decide, by decide, by decide, by decide, by decide,
    aes192_schedule_key_only (test_key_192 ++ test_tail) (test_key_192 ++ List.replicate 8 0)
      zero_schedule_24 zero_schedule_24 (by decide) (by decide) (by decide) (by decide)
      (by decide)⟩

end AesBruteforce
